import Mathlib

/-! BusTub storage core: buffer pool, B+ tree index, extendible hash index.

A shallow embedding of the storage engine sources
(`src/buffer`, `src/storage`, `src/container`) together with theorems about
the behaviour of that code.

Conventions.
* `page_id_t` and `frame_id_t` are 32-bit signed integers in the source; they
  are `Int` here and no operation below relies on wrap-around.
* The `data_` buffer of a frame is a list of bytes; `ResetMemory` zeroes it in place.
* The disk manager is an external collaborator; it is modelled as a map from
  page-ids to page images.
-/

namespace bustub

/-! ## Common types -/

abbrev page_id_t := Int
abbrev frame_id_t := Int

/-- The sentinel page-id `INVALID_PAGE_ID` (-1). -/
def INVALID_PAGE_ID : page_id_t := -1

/-! ## Replacer (`src/buffer/lru_replacer.cpp`) -/

/-- The only state of the replacer is `unpinned_list_`; the front is the next victim. -/
structure LRUReplacer where
  unpinned_list : List frame_id_t
deriving DecidableEq

namespace LRUReplacer

/-- `LRUReplacer::Victim`: pop the front of the list, or report failure. -/
def Victim (r : LRUReplacer) : Option frame_id_t × LRUReplacer :=
  match r.unpinned_list with
  | [] => (none, r)
  | f :: rest => (some f, { unpinned_list := rest })

/-- `LRUReplacer::Pin`: erase every occurrence of `frame_id`. -/
def Pin (r : LRUReplacer) (frame_id : frame_id_t) : LRUReplacer :=
  { unpinned_list := r.unpinned_list.filter (fun f => f != frame_id) }

/-- `LRUReplacer::Unpin`: append `frame_id` unless it is already tracked. -/
def Unpin (r : LRUReplacer) (frame_id : frame_id_t) : LRUReplacer :=
  if frame_id ∈ r.unpinned_list then r
  else { unpinned_list := r.unpinned_list ++ [frame_id] }

/-- `LRUReplacer::Size`. -/
def Size (r : LRUReplacer) : Nat := r.unpinned_list.length

end LRUReplacer

/-! ## Buffer pool manager (`src/buffer/buffer_pool_manager_instance.cpp`) -/

/-- A frame: the `Page` object of the source (data buffer and metadata). -/
structure Page where
  data : List Nat
  page_id : page_id_t
  pin_count : Int
  is_dirty : Bool
deriving DecidableEq

/-- `Page::ResetMemory`: zero the data buffer in place. -/
def Page.ResetMemory (p : Page) : Page :=
  { p with data := p.data.map (fun _ => 0) }

/-- Modelled from the spec: the disk primitive (`read_page` / `write_page` of a
numbered page), which is an external collaborator of the buffer pool. The
state of the disk is the image stored for each page-id. -/
structure DiskManager where
  image : page_id_t → List Nat

/-- Modelled from the spec: `write_page(page-id, buf)`. -/
def DiskManager.WritePage (d : DiskManager) (p : page_id_t) (buf : List Nat) : DiskManager :=
  { image := fun q => if q = p then buf else d.image q }

/-- Modelled from the spec: `read_page(page-id, buf)`. -/
def DiskManager.ReadPage (d : DiskManager) (p : page_id_t) : List Nat :=
  d.image p

/-- The `std::unordered_map<page_id_t, frame_id_t>` page table, as an
association list with at most one entry per key. -/
abbrev PageTable := List (page_id_t × frame_id_t)

/-- `page_table_.find(page_id)`. -/
def PageTable.find (t : PageTable) (p : page_id_t) : Option frame_id_t :=
  match t with
  | [] => none
  | (q, f) :: rest => if q = p then some f else PageTable.find rest p

/-- `page_table_.erase(page_id)`. -/
def PageTable.erase (t : PageTable) (p : page_id_t) : PageTable :=
  t.filter (fun e => e.1 != p)

/-- `page_table_.insert({page_id, frame_id})`: no effect when the key is present. -/
def PageTable.insert (t : PageTable) (p : page_id_t) (f : frame_id_t) : PageTable :=
  match PageTable.find t p with
  | some _ => t
  | none => t ++ [(p, f)]

/-- `page_table_[page_id]`: the subscript operator value-initialises a missing
entry (frame-id 0) and returns the mapped frame-id. -/
def PageTable.subscript (t : PageTable) (p : page_id_t) : frame_id_t × PageTable :=
  match PageTable.find t p with
  | some f => (f, t)
  | none => (0, t ++ [(p, 0)])

/-- State of a `BufferPoolManagerInstance`. -/
structure BufferPoolManagerInstance where
  pool_size : Nat
  num_instances : Nat
  instance_index : Nat
  next_page_id : page_id_t
  pages : List Page
  page_table : PageTable
  free_list : List frame_id_t
  replacer : LRUReplacer
  disk_manager : DiskManager

namespace BufferPoolManagerInstance

/-- A default-constructed `Page` with a buffer of `page_size` zero bytes. -/
def freshPage (page_size : Nat) : Page :=
  { data := List.replicate page_size 0, page_id := INVALID_PAGE_ID, pin_count := 0, is_dirty := false }

/-- The constructor: every frame starts in the free list, `next_page_id_` is the
instance index. -/
def mk_instance (pool_size page_size num_instances instance_index : Nat)
    (disk : DiskManager) : BufferPoolManagerInstance :=
  { pool_size := pool_size
    num_instances := num_instances
    instance_index := instance_index
    next_page_id := instance_index
    pages := List.replicate pool_size (freshPage page_size)
    page_table := []
    free_list := (List.range pool_size).map (fun i => (i : Int))
    replacer := { unpinned_list := [] }
    disk_manager := disk }

/-- The frame `pages_ + frame_id`. -/
def frame (b : BufferPoolManagerInstance) (f : frame_id_t) : Page :=
  b.pages.getD f.toNat (freshPage 0)

/-- Store a frame back at `pages_ + frame_id`. -/
def setFrame (b : BufferPoolManagerInstance) (f : frame_id_t) (p : Page) :
    BufferPoolManagerInstance :=
  { b with pages := b.pages.set f.toNat p }

/-- `AllocatePage`: hand out `next_page_id_` and advance it by `num_instances_`. -/
def AllocatePage (b : BufferPoolManagerInstance) : page_id_t × BufferPoolManagerInstance :=
  (b.next_page_id, { b with next_page_id := b.next_page_id + b.num_instances })

/-- `FlushPgImp`. -/
def FlushPgImp (b : BufferPoolManagerInstance) (page_id : page_id_t) :
    Bool × BufferPoolManagerInstance :=
  if page_id = INVALID_PAGE_ID then (false, b)
  else
    match b.page_table.find page_id with
    | none => (false, b)
    | some found_frame_id =>
      (true, { b with disk_manager := b.disk_manager.WritePage page_id (b.frame found_frame_id).data })

/-- `NewPgImp`: returns the new page-id and the frame-id of the returned
`Page *` (or `none` for `nullptr`). -/
def NewPgImp (b : BufferPoolManagerInstance) :
    Option (page_id_t × frame_id_t) × BufferPoolManagerInstance :=
  let pick : Option (frame_id_t × BufferPoolManagerInstance) :=
    match b.free_list with
    | [] =>
      match b.replacer.Victim with
      | (none, _) => none
      | (some f, r) => some (f, { b with replacer := r })
    | f :: rest => some (f, { b with free_list := rest })
  match pick with
  | none => (none, b)
  | some (free_frame_id, b1) =>
    let (page_id, b2) := b1.AllocatePage
    let p0 := b2.frame free_frame_id
    let p1 := { p0 with is_dirty := false }
    let p2 := { p1 with pin_count := 0 }
    let p3 := { p2 with page_id := page_id }
    let p4 := p3.ResetMemory
    (some (page_id, free_frame_id), b2.setFrame free_frame_id p4)

/-- `FetchPgImp`: returns the frame-id of the returned `Page *`. -/
def FetchPgImp (b : BufferPoolManagerInstance) (page_id : page_id_t) :
    Option frame_id_t × BufferPoolManagerInstance :=
  match b.page_table.find page_id with
  | some f =>
    let p := b.frame f
    let b1 := b.setFrame f { p with pin_count := p.pin_count + 1 }
    (some f, { b1 with replacer := b1.replacer.Pin page_id })
  | none =>
    let pick : Option (frame_id_t × BufferPoolManagerInstance) :=
      match b.free_list with
      | f :: rest => some (f, { b with free_list := rest })
      | [] =>
        match b.replacer.Victim with
        | (none, _) => none
        | (some f, r) => some (f, { b with replacer := r })
    match pick with
    | none => (none, b)
    | some (free_frame_id, b1) =>
      let b2 := if (b1.frame free_frame_id).is_dirty
                then (b1.FlushPgImp (b1.frame free_frame_id).page_id).2 else b1
      let b3 := { b2 with page_table := b2.page_table.erase (b2.frame free_frame_id).page_id }
      let b4 := { b3 with page_table := b3.page_table.insert page_id free_frame_id }
      let p0 := b4.frame free_frame_id
      let p1 := { p0 with is_dirty := false }
      let p2 := { p1 with pin_count := 0 }
      let p3 := { p2 with page_id := page_id }
      let p4 := { p3 with data := b4.disk_manager.ReadPage page_id }
      let p5 := { p4 with pin_count := p4.pin_count + 1 }
      let b5 := b4.setFrame free_frame_id p5
      (some free_frame_id, { b5 with replacer := b5.replacer.Pin page_id })

/-- `DeletePgImp`. The source reads `found_frame_id->second` before it compares
the iterator with `page_table_.end()`; for a page that is not in the page table
that read dereferences the end iterator (a null-pointer read with libstdc++),
so the call has no result: `none`. -/
def DeletePgImp (b : BufferPoolManagerInstance) (page_id : page_id_t) :
    Option (Bool × BufferPoolManagerInstance) :=
  match b.page_table.find page_id with
  | none => none
  | some free_frame_id =>
    if (b.frame free_frame_id).pin_count > 0 then some (false, b)
    else
      let b1 := { b with page_table := b.page_table.erase page_id }
      let p0 := b1.frame free_frame_id
      let p1 := { p0 with is_dirty := false }
      let p2 := { p1 with pin_count := 0 }
      let p3 := { p2 with page_id := INVALID_PAGE_ID }
      let b2 := b1.setFrame free_frame_id p3
      some (true, { b2 with free_list := free_frame_id :: b2.free_list })

/-- `UnpinPgImp`. -/
def UnpinPgImp (b : BufferPoolManagerInstance) (page_id : page_id_t) (is_dirty : Bool) :
    Bool × BufferPoolManagerInstance :=
  let (frame_id, pt) := b.page_table.subscript page_id
  let b1 := { b with page_table := pt }
  if (b1.frame frame_id).pin_count ≤ 0 then (false, b1)
  else
    let p0 := b1.frame frame_id
    let p1 := { p0 with is_dirty := is_dirty }
    let p2 := { p1 with pin_count := p1.pin_count - 1 }
    let b2 := b1.setFrame frame_id p2
    (true, { b2 with replacer := b2.replacer.Unpin frame_id })

/-- A client writing `buf` through the `Page *` it holds for frame `f`. -/
def writeData (b : BufferPoolManagerInstance) (f : frame_id_t) (buf : List Nat) :
    BufferPoolManagerInstance :=
  b.setFrame f { b.frame f with data := buf }

end BufferPoolManagerInstance

/-- A disk on which every page reads as `page_size` zero bytes. -/
def zeroDisk (page_size : Nat) : DiskManager :=
  { image := fun _ => List.replicate page_size 0 }

end bustub

namespace bustub

/-! ## Hash bucket page (`src/storage/page/hash_table_bucket_page.cpp`)

`BUCKET_ARRAY_SIZE` is a macro of the page header that depends on the key and
value types; every function below takes it as the parameter `cap`. The two
bitmaps are byte arrays, most significant bit first within each byte. -/

/-- A bucket page: `occupied_`, `readable_` and `array_`. -/
structure HashTableBucketPage (K V : Type) where
  occupied : List Nat
  readable : List Nat
  array : List (Option (K × V))
deriving DecidableEq

namespace HashTableBucketPage

variable {K V : Type}

/-- A zeroed page viewed as a bucket of capacity `cap`. -/
def empty (cap : Nat) : HashTableBucketPage K V :=
  { occupied := List.replicate ((cap - 1) / 8 + 1) 0
    readable := List.replicate ((cap - 1) / 8 + 1) 0
    array := List.replicate cap none }

/-- `IsOccupied`. -/
def IsOccupied (b : HashTableBucketPage K V) (bucket_idx : Nat) : Bool :=
  let byte_idx := bucket_idx / 8
  let bit_idx := bucket_idx % 8
  let bitmap := b.occupied.getD byte_idx 0
  (bitmap &&& (1 <<< (7 - bit_idx))) != 0

/-- `SetOccupied`. -/
def SetOccupied (b : HashTableBucketPage K V) (bucket_idx : Nat) : HashTableBucketPage K V :=
  let byte_idx := bucket_idx / 8
  let bit_idx := bucket_idx % 8
  let bitmap := b.occupied.getD byte_idx 0
  { b with occupied := b.occupied.set byte_idx ((bitmap ||| (1 <<< (7 - bit_idx))) % 256) }

/-- `RemoveOccupied`. -/
def RemoveOccupied (b : HashTableBucketPage K V) (bucket_idx : Nat) : HashTableBucketPage K V :=
  let byte_idx := bucket_idx / 8
  let bit_idx := bucket_idx % 8
  let bitmap := b.occupied.getD byte_idx 0
  { b with occupied := b.occupied.set byte_idx (bitmap &&& ((1 <<< 8) - 1 - (1 <<< (7 - bit_idx)))) }

/-- `IsReadable`. -/
def IsReadable (b : HashTableBucketPage K V) (bucket_idx : Nat) : Bool :=
  let byte_idx := bucket_idx / 8
  let bit_idx := bucket_idx % 8
  let bitmap := b.readable.getD byte_idx 0
  (bitmap &&& (1 <<< (7 - bit_idx))) != 0

/-- `SetReadable`. -/
def SetReadable (b : HashTableBucketPage K V) (bucket_idx : Nat) : HashTableBucketPage K V :=
  let byte_idx := bucket_idx / 8
  let bit_idx := bucket_idx % 8
  let bitmap := b.readable.getD byte_idx 0
  { b with readable := b.readable.set byte_idx ((bitmap ||| (1 <<< (7 - bit_idx))) % 256) }

/-- `RemoveReadable`. -/
def RemoveReadable (b : HashTableBucketPage K V) (bucket_idx : Nat) : HashTableBucketPage K V :=
  let byte_idx := bucket_idx / 8
  let bit_idx := bucket_idx % 8
  let bitmap := b.readable.getD byte_idx 0
  { b with readable := b.readable.set byte_idx (bitmap &&& ((1 <<< 8) - 1 - (1 <<< (7 - bit_idx)))) }

/-- `KeyAt` / `ValueAt` read `array_[bucket_idx]`; a slot that was never written
holds no pair. -/
def PairAt (b : HashTableBucketPage K V) (bucket_idx : Nat) : Option (K × V) :=
  b.array.getD bucket_idx none

/-- Whether slot `i` stores a key equal to `key` under the comparator. -/
def keyMatches (cmp : K → K → Int) (b : HashTableBucketPage K V) (i : Nat) (key : K) : Bool :=
  match b.PairAt i with
  | some (k, _) => cmp k key == 0
  | none => false

/-- Whether slot `i` stores a key equal to `key` together with `value`. -/
def pairMatches [DecidableEq V] (cmp : K → K → Int) (b : HashTableBucketPage K V) (i : Nat)
    (key : K) (value : V) : Bool :=
  match b.PairAt i with
  | some (k, v) => cmp k key == 0 && v == value
  | none => false

/-- `GetValue`: scan all slots, push the value of every readable slot whose key
matches; the verdict is whether the result vector is non-empty afterwards. -/
def GetValue (cap : Nat) (cmp : K → K → Int) (b : HashTableBucketPage K V) (key : K)
    (result : List V) : Bool × List V :=
  let out := (List.range cap).foldl
    (fun acc i =>
      if b.IsReadable i && keyMatches cmp b i key then
        match b.PairAt i with
        | some (_, v) => acc ++ [v]
        | none => acc
      else acc) result
  (decide (out.length > 0), out)

/-- `IsFull`: whole bytes first, then the bits of the last, partial byte. -/
def IsFull (cap : Nat) (b : HashTableBucketPage K V) : Bool :=
  (List.range ((cap - 1) / 8)).all (fun i => b.occupied.getD i 0 % 256 == (1 <<< 8) - 1)
  && (List.range (cap % 8)).all (fun i => b.IsOccupied (cap - (cap % 8) + i))

/-- `NumReadable`. -/
def NumReadable (cap : Nat) (b : HashTableBucketPage K V) : Nat :=
  let whole := (List.range ((cap - 1) / 8)).foldl
    (fun count _ =>
      (List.range 8).foldl
        (fun c j => if (b.readable.getD j 0 &&& (1 <<< j)) != 0 then c + 1 else c) count) 0
  (List.range (cap % 8)).foldl
    (fun count i => if b.IsReadable (cap - (cap % 8) + i) then count + 1 else count) whole

/-- `IsEmpty`: every byte of the occupied bitmap is zero. -/
def IsEmpty (b : HashTableBucketPage K V) : Bool :=
  b.occupied.all (fun byte => byte % 256 == 0)

/-- `Insert`: reject an exact duplicate, reject when full, else take the first
slot whose occupied bit is clear. The source exits the process when no such
slot exists; that outcome is `none`. -/
def Insert [DecidableEq V] (cap : Nat) (cmp : K → K → Int) (b : HashTableBucketPage K V)
    (key : K) (value : V) : Option (Bool × HashTableBucketPage K V) :=
  if (List.range cap).any (fun i => b.IsReadable i && pairMatches cmp b i key value) then
    some (false, b)
  else if IsFull cap b then some (false, b)
  else
    match (List.range cap).find? (fun i => !b.IsOccupied i) with
    | some i =>
      let b1 := { b with array := b.array.set i (some (key, value)) }
      some (true, (b1.SetOccupied i).SetReadable i)
    | none => none

/-- `Remove`: clear the readable bit of the first readable slot holding the pair. -/
def Remove [DecidableEq V] (cap : Nat) (cmp : K → K → Int) (b : HashTableBucketPage K V)
    (key : K) (value : V) : Bool × HashTableBucketPage K V :=
  match (List.range cap).find? (fun i => b.IsReadable i && pairMatches cmp b i key value) with
  | some i => (true, b.RemoveReadable i)
  | none => (false, b)

end HashTableBucketPage

/-- `IntComparator`, and the integer order of `GenericComparator`: -1, 0 or 1. -/
def IntComparator (a b : Int) : Int :=
  if a < b then -1 else if a > b then 1 else 0

end bustub

namespace bustub

/-! ## Extendible hash table (`src/container/hash/extendible_hash_table.cpp`) -/

/-- Modelled from the spec: the directory page (`hash_table_directory_page`),
whose implementation is not part of the sources at hand. It holds
`global_depth`, the per-slot `local_depths` and the per-slot `bucket_page_ids`;
the two arrays are total maps from slot index to value. -/
structure HashTableDirectoryPage where
  global_depth : Nat
  local_depths : Nat → Nat
  bucket_page_ids : Nat → page_id_t

namespace HashTableDirectoryPage

/-- Modelled from the spec: the mask of the low `global_depth` bits. -/
def GetGlobalDepthMask (d : HashTableDirectoryPage) : Nat := (1 <<< d.global_depth) - 1

/-- Modelled from the spec: `GetGlobalDepth`. -/
def GetGlobalDepth (d : HashTableDirectoryPage) : Nat := d.global_depth

/-- Modelled from the spec: `IncrGlobalDepth`. -/
def IncrGlobalDepth (d : HashTableDirectoryPage) : HashTableDirectoryPage :=
  { d with global_depth := d.global_depth + 1 }

/-- Modelled from the spec: `DecrGlobalDepth`. -/
def DecrGlobalDepth (d : HashTableDirectoryPage) : HashTableDirectoryPage :=
  { d with global_depth := d.global_depth - 1 }

/-- Modelled from the spec: `GetBucketPageId`. -/
def GetBucketPageId (d : HashTableDirectoryPage) (i : Nat) : page_id_t := d.bucket_page_ids i

/-- Modelled from the spec: `SetBucketPageId`. -/
def SetBucketPageId (d : HashTableDirectoryPage) (i : Nat) (p : page_id_t) :
    HashTableDirectoryPage :=
  { d with bucket_page_ids := fun j => if j = i then p else d.bucket_page_ids j }

/-- Modelled from the spec: `GetLocalDepth`. -/
def GetLocalDepth (d : HashTableDirectoryPage) (i : Nat) : Nat := d.local_depths i

/-- Modelled from the spec: `SetLocalDepth`. -/
def SetLocalDepth (d : HashTableDirectoryPage) (i : Nat) (v : Nat) : HashTableDirectoryPage :=
  { d with local_depths := fun j => if j = i then v else d.local_depths j }

/-- Modelled from the spec: `IncrLocalDepth`. -/
def IncrLocalDepth (d : HashTableDirectoryPage) (i : Nat) : HashTableDirectoryPage :=
  d.SetLocalDepth i (d.local_depths i + 1)

/-- Modelled from the spec: `DecrLocalDepth`. -/
def DecrLocalDepth (d : HashTableDirectoryPage) (i : Nat) : HashTableDirectoryPage :=
  d.SetLocalDepth i (d.local_depths i - 1)

/-- Modelled from the spec: the directory has `2^global_depth` slots. -/
def Size (d : HashTableDirectoryPage) : Nat := 1 <<< d.global_depth

/-- Modelled from the spec: `can_shrink`, every `local_depth[i] < global_depth`. -/
def CanShrink (d : HashTableDirectoryPage) : Bool :=
  (List.range d.Size).all (fun i => decide (d.local_depths i < d.global_depth))

/-- Modelled from the spec: the split image of a slot is the slot that differs
only in the highest local-depth bit. -/
def GetSplitImageIndex (d : HashTableDirectoryPage) (i : Nat) : Nat :=
  i ^^^ (1 <<< (d.local_depths i - 1))

end HashTableDirectoryPage

/-- State of an `ExtendibleHashTable<int, int, IntComparator>` together with the
pages it keeps in the buffer pool. Modelled from the spec: the buffer pool as
seen by the index (never exhausted): `NewPage` hands out the next page-id with a
zeroed page, `FetchPage` returns the stored page, `DeletePage` discards it. -/
structure ExtendibleHashTable where
  cap : Nat
  hash_fn : Int → Nat
  directory_page_id : page_id_t
  dir : HashTableDirectoryPage
  buckets : List (page_id_t × HashTableBucketPage Int Int)
  next_page_id : page_id_t

namespace ExtendibleHashTable

/-- `Hash`: the 64-bit hash down-cast to 32 bits. -/
def Hash (h : ExtendibleHashTable) (key : Int) : Nat := h.hash_fn key % 2 ^ 32

/-- `KeyToDirectoryIndex`. -/
def KeyToDirectoryIndex (h : ExtendibleHashTable) (key : Int) (dir : HashTableDirectoryPage) : Nat :=
  h.Hash key &&& dir.GetGlobalDepthMask

/-- `KeyToPageId`. -/
def KeyToPageId (h : ExtendibleHashTable) (key : Int) (dir : HashTableDirectoryPage) : page_id_t :=
  dir.GetBucketPageId (h.KeyToDirectoryIndex key dir)

/-- `FetchBucketPage`: the stored bucket page, if the page exists. -/
def FetchBucketPage (h : ExtendibleHashTable) (p : page_id_t) :
    Option (HashTableBucketPage Int Int) :=
  (h.buckets.find? (fun e => e.1 == p)).map (fun e => e.2)

/-- Write a bucket page back (the source mutates the pinned frame in place). -/
def putBucket (h : ExtendibleHashTable) (p : page_id_t) (b : HashTableBucketPage Int Int) :
    ExtendibleHashTable :=
  { h with buckets := (h.buckets.filter (fun e => e.1 != p)) ++ [(p, b)] }

/-- `NewPage`: a fresh page-id and a zeroed page. -/
def NewPage (h : ExtendibleHashTable) : page_id_t × ExtendibleHashTable :=
  (h.next_page_id,
   { h with buckets := (h.buckets.filter (fun e => e.1 != h.next_page_id))
                        ++ [(h.next_page_id, HashTableBucketPage.empty h.cap)]
            next_page_id := h.next_page_id + 1 })

/-- `DeletePage` of an unpinned page. -/
def DeletePage (h : ExtendibleHashTable) (p : page_id_t) : ExtendibleHashTable :=
  { h with buckets := h.buckets.filter (fun e => e.1 != p) }

/-- The empty table of the claims: global depth 0 and one empty bucket. -/
def init (cap : Nat) (hash_fn : Int → Nat) : ExtendibleHashTable :=
  { cap := cap
    hash_fn := hash_fn
    directory_page_id := 0
    dir := { global_depth := 0, local_depths := fun _ => 0, bucket_page_ids := fun _ => 1 }
    buckets := [(1, HashTableBucketPage.empty cap)]
    next_page_id := 2 }

/-- `GetValue`. The result is `none` when the bucket page cannot be fetched. -/
def GetValue (h : ExtendibleHashTable) (key : Int) (result : List Int) :
    Option (Bool × List Int) :=
  let dir_node := h.dir
  let bucket_page_id := h.KeyToPageId key dir_node
  match h.FetchBucketPage bucket_page_id with
  | none => none
  | some bucket_node => some (HashTableBucketPage.GetValue h.cap IntComparator bucket_node key result)

/-- The doubling loop of `Insert`: copy slot `i` to slot `i + 2^(global_depth-1)`
for every `i < 2^(global_depth-1)`. -/
def doubleDirectory (dir : HashTableDirectoryPage) : HashTableDirectoryPage :=
  (List.range (1 <<< (dir.GetGlobalDepth - 1))).foldl
    (fun d i =>
      let d1 := d.SetBucketPageId (i + (1 <<< (d.GetGlobalDepth - 1))) (d.GetBucketPageId i)
      d1.SetLocalDepth (i + (1 <<< (d1.GetGlobalDepth - 1))) (d1.GetLocalDepth i))
    dir

/-- The redistribution loop of `Insert`: every readable pair of the old bucket
goes to `split_node0` when its directory slot references `new_page_id0`, and to
`split_node1` otherwise. -/
def redistribute (h : ExtendibleHashTable) (dir : HashTableDirectoryPage)
    (bucket_node : HashTableBucketPage Int Int) (new_page_id0 : page_id_t)
    (split0 split1 : HashTableBucketPage Int Int) :
    HashTableBucketPage Int Int × HashTableBucketPage Int Int :=
  (List.range h.cap).foldl
    (fun (acc : HashTableBucketPage Int Int × HashTableBucketPage Int Int) i =>
      if bucket_node.IsReadable i then
        match bucket_node.PairAt i with
        | none => acc
        | some (k, v) =>
          let new_bucket_idx := h.KeyToDirectoryIndex k dir
          if dir.GetBucketPageId new_bucket_idx = new_page_id0 then
            match HashTableBucketPage.Insert h.cap IntComparator acc.1 k v with
            | some (_, s0) => (s0, acc.2)
            | none => acc
          else
            match HashTableBucketPage.Insert h.cap IntComparator acc.2 k v with
            | some (_, s1) => (acc.1, s1)
            | none => acc
      else acc)
    (split0, split1)

/-- The `while (bucket_node->IsFull())` loop of `Insert`, one iteration per unit
of fuel. Returns the table and the page-id of the bucket that is not full. -/
def splitLoop : Nat → ExtendibleHashTable → Int → page_id_t → Option (ExtendibleHashTable × page_id_t)
  | 0, _, _, _ => none
  | fuel + 1, h, key, bucket_page_id =>
    match h.FetchBucketPage bucket_page_id with
    | none => none
    | some bucket_node =>
      if !(HashTableBucketPage.IsFull h.cap bucket_node) then some (h, bucket_page_id)
      else
        let bucket_idx := h.KeyToDirectoryIndex key h.dir
        let dir1 :=
          if h.dir.GetLocalDepth bucket_idx = h.dir.GetGlobalDepth then
            doubleDirectory h.dir.IncrGlobalDepth
          else h.dir
        let (new_page_id0, h1) := h.NewPage
        let (new_page_id1, h2) := h1.NewPage
        let dir2 := dir1.SetBucketPageId bucket_idx new_page_id0
        let dir3 := dir2.SetBucketPageId (bucket_idx + (1 <<< (dir2.GetGlobalDepth - 1))) new_page_id1
        let dir4 := dir3.IncrLocalDepth bucket_idx
        let dir5 := dir4.IncrLocalDepth (bucket_idx + (1 <<< (dir4.GetGlobalDepth - 1)))
        let (s0, s1) := redistribute h dir5 bucket_node new_page_id0
          (HashTableBucketPage.empty h.cap) (HashTableBucketPage.empty h.cap)
        let h3 := (h2.putBucket new_page_id0 s0).putBucket new_page_id1 s1
        let h4 := h3.DeletePage bucket_page_id
        let h5 := { h4 with dir := dir5 }
        splitLoop fuel h5 key (h5.KeyToPageId key h5.dir)

/-- `Insert`. The result is `none` when a page cannot be fetched or the split
loop does not finish within `fuel` iterations. -/
def Insert (fuel : Nat) (h : ExtendibleHashTable) (key value : Int) :
    Option (Bool × ExtendibleHashTable) :=
  let bucket_page_id := h.KeyToPageId key h.dir
  match splitLoop fuel h key bucket_page_id with
  | none => none
  | some (h1, bucket_page_id1) =>
    match h1.FetchBucketPage bucket_page_id1 with
    | none => none
    | some bucket_node =>
      match HashTableBucketPage.Insert h1.cap IntComparator bucket_node key value with
      | none => none
      | some (success, b1) => some (success, h1.putBucket bucket_page_id1 b1)

/-- Run a list of inserts in order; every call gets `fuel` split iterations. The
verdicts of the calls are collected in order. -/
def insertAll (fuel : Nat) :
    ExtendibleHashTable → List (Int × Int) → Option (List Bool × ExtendibleHashTable)
  | h, [] => some ([], h)
  | h, (k, v) :: rest =>
    match Insert fuel h k v with
    | none => none
    | some (ok, h1) => (insertAll fuel h1 rest).map (fun r => (ok :: r.1, r.2))

end ExtendibleHashTable

end bustub

namespace bustub

/-! ## B+ tree pages

The leaf and internal page classes (`b_plus_tree_leaf_page`,
`b_plus_tree_internal_page`, `b_plus_tree_page`) are used by the tree but their
implementation is not part of the sources at hand. Keys are compared as
integers (`GenericKey::SetFromInteger` with `GenericComparator`), values are
record identifiers encoded as integers. -/

abbrev KeyType := Int
abbrev ValueType := Int

/-- Modelled from the spec: a leaf page, an ordered array of `(key, value)`
pairs with a `next-leaf` page-id; `size` is the length of the array. -/
structure BPlusTreeLeafPage where
  page_id : page_id_t
  parent_page_id : page_id_t
  next_page_id : page_id_t
  max_size : Nat
  array : List (KeyType × ValueType)
deriving DecidableEq

/-- Modelled from the spec: an internal page, an ordered array of
`(key, child-page-id)` pairs in which entry 0 carries only a child. -/
structure BPlusTreeInternalPage where
  page_id : page_id_t
  parent_page_id : page_id_t
  max_size : Nat
  array : List (KeyType × page_id_t)
deriving DecidableEq

namespace BPlusTreeLeafPage

/-- Modelled from the spec: `Init(page_id, parent_id, max_size)` of a leaf. -/
def Init (page_id parent_id : page_id_t) (max_size : Nat) : BPlusTreeLeafPage :=
  { page_id := page_id, parent_page_id := parent_id, next_page_id := INVALID_PAGE_ID,
    max_size := max_size, array := [] }

/-- Modelled from the spec: `GetSize`. -/
def GetSize (l : BPlusTreeLeafPage) : Nat := l.array.length

/-- Modelled from the spec: `min_size = ⌈max_size/2⌉`. -/
def GetMinSize (l : BPlusTreeLeafPage) : Nat := (l.max_size + 1) / 2

/-- Modelled from the spec: `GetItem(index)`; memory past the entries reads as zero. -/
def GetItem (l : BPlusTreeLeafPage) (i : Nat) : KeyType × ValueType := l.array.getD i (0, 0)

/-- Modelled from the spec: `KeyAt(index)`. -/
def KeyAt (l : BPlusTreeLeafPage) (i : Nat) : KeyType := (l.GetItem i).1

/-- Modelled from the spec: `KeyIndex(key)`, the first index whose key is not
smaller than `key`. -/
def KeyIndex (l : BPlusTreeLeafPage) (key : KeyType) : Nat :=
  (l.array.takeWhile (fun e => IntComparator e.1 key == -1)).length

/-- Modelled from the spec: `Lookup(key)`, search for equality. -/
def Lookup (l : BPlusTreeLeafPage) (key : KeyType) : Option ValueType :=
  (l.array.find? (fun e => IntComparator e.1 key == 0)).map (fun e => e.2)

/-- Modelled from the spec: `Insert(key, value)` in sorted order; a key that is
already stored is left alone. -/
def Insert (l : BPlusTreeLeafPage) (key : KeyType) (value : ValueType) : BPlusTreeLeafPage :=
  match l.Lookup key with
  | some _ => l
  | none =>
    { l with array := l.array.take (l.KeyIndex key) ++ (key, value) :: l.array.drop (l.KeyIndex key) }

/-- Modelled from the spec: `RemoveAndDeleteRecord(key)`; the size afterwards is
the length of the resulting array. -/
def RemoveAndDeleteRecord (l : BPlusTreeLeafPage) (key : KeyType) : BPlusTreeLeafPage :=
  match l.array.findIdx? (fun e => IntComparator e.1 key == 0) with
  | some i => { l with array := l.array.eraseIdx i }
  | none => l

/-- Modelled from the spec: `MoveHalfTo(recipient)`, the upper half of the
entries moves; on an odd size the larger half stays. -/
def MoveHalfTo (l recipient : BPlusTreeLeafPage) : BPlusTreeLeafPage × BPlusTreeLeafPage :=
  let keep := (l.GetSize + 1) / 2
  ({ l with array := l.array.take keep },
   { recipient with array := recipient.array ++ l.array.drop keep })

/-- Modelled from the spec: `MoveAllTo(recipient)`, all entries are appended to
the recipient, which also takes over the `next` link. -/
def MoveAllTo (l recipient : BPlusTreeLeafPage) : BPlusTreeLeafPage × BPlusTreeLeafPage :=
  ({ l with array := [] },
   { recipient with array := recipient.array ++ l.array, next_page_id := l.next_page_id })

/-- Modelled from the spec: `MoveFirstToEndOf(recipient)`. -/
def MoveFirstToEndOf (l recipient : BPlusTreeLeafPage) : BPlusTreeLeafPage × BPlusTreeLeafPage :=
  match l.array with
  | [] => (l, recipient)
  | e :: rest => ({ l with array := rest }, { recipient with array := recipient.array ++ [e] })

/-- Modelled from the spec: `MoveLastToFrontOf(recipient)`. -/
def MoveLastToFrontOf (l recipient : BPlusTreeLeafPage) : BPlusTreeLeafPage × BPlusTreeLeafPage :=
  match l.array.getLast? with
  | none => (l, recipient)
  | some e => ({ l with array := l.array.dropLast }, { recipient with array := e :: recipient.array })

end BPlusTreeLeafPage

namespace BPlusTreeInternalPage

/-- Modelled from the spec: `Init(page_id, parent_id, max_size)` of an internal page. -/
def Init (page_id parent_id : page_id_t) (max_size : Nat) : BPlusTreeInternalPage :=
  { page_id := page_id, parent_page_id := parent_id, max_size := max_size, array := [] }

/-- Modelled from the spec: `GetSize`. -/
def GetSize (n : BPlusTreeInternalPage) : Nat := n.array.length

/-- Modelled from the spec: `KeyAt(index)`; memory past the entries reads as zero. -/
def KeyAt (n : BPlusTreeInternalPage) (i : Nat) : KeyType := (n.array.getD i (0, 0)).1

/-- Modelled from the spec: `ValueAt(index)`. -/
def ValueAt (n : BPlusTreeInternalPage) (i : Nat) : page_id_t := (n.array.getD i (0, 0)).2

/-- Modelled from the spec: `SetKeyAt(index, key)`. -/
def SetKeyAt (n : BPlusTreeInternalPage) (i : Nat) (key : KeyType) : BPlusTreeInternalPage :=
  { n with array := n.array.set i (key, n.ValueAt i) }

/-- Modelled from the spec: `ValueIndex(value)`, the index of the entry whose
child is `value`, or -1. -/
def ValueIndex (n : BPlusTreeInternalPage) (value : page_id_t) : Int :=
  match n.array.findIdx? (fun e => e.2 == value) with
  | some i => i
  | none => -1

/-- The entries `1 .. size-1` scanned by `Lookup`: the child before the first
separator that is greater than `key`. -/
def lookupFrom (key : KeyType) : page_id_t → List (KeyType × page_id_t) → page_id_t
  | cur, [] => cur
  | cur, (k, c) :: rest => if IntComparator key k == -1 then cur else lookupFrom key c rest

/-- Modelled from the spec: `Lookup(key)`, the child whose key range
`key[i] ≤ key < key[i+1]` contains `key`. -/
def Lookup (n : BPlusTreeInternalPage) (key : KeyType) : page_id_t :=
  lookupFrom key (n.ValueAt 0) n.array.tail

/-- Modelled from the spec: `PopulateNewRoot(old, key, new)`. -/
def PopulateNewRoot (n : BPlusTreeInternalPage) (old_value : page_id_t) (key : KeyType)
    (new_value : page_id_t) : BPlusTreeInternalPage :=
  { n with array := [(n.KeyAt 0, old_value), (key, new_value)] }

/-- Modelled from the spec: `InsertNodeAfter(old, key, new)`, the separator is
inserted right after the entry of the left child. -/
def InsertNodeAfter (n : BPlusTreeInternalPage) (old_value : page_id_t) (key : KeyType)
    (new_value : page_id_t) : BPlusTreeInternalPage :=
  let idx := (n.ValueIndex old_value + 1).toNat
  { n with array := n.array.take idx ++ (key, new_value) :: n.array.drop idx }

/-- Modelled from the spec: `Remove(index)`. -/
def Remove (n : BPlusTreeInternalPage) (i : Nat) : BPlusTreeInternalPage :=
  { n with array := n.array.eraseIdx i }

/-- Modelled from the spec: the entries part of `MoveHalfTo(recipient, bpm)`;
the upper half moves, on an odd size the larger half stays. The re-parenting
of the moved children is `BPlusTree.reparent`. -/
def MoveHalfTo (n recipient : BPlusTreeInternalPage) :
    BPlusTreeInternalPage × BPlusTreeInternalPage :=
  let keep := (n.GetSize + 1) / 2
  ({ n with array := n.array.take keep },
   { recipient with array := recipient.array ++ n.array.drop keep })

end BPlusTreeInternalPage

/-- A tree page is a leaf or an internal page (`page_type` of the page header). -/
inductive BPlusTreePage where
  | leaf (l : BPlusTreeLeafPage)
  | internal (n : BPlusTreeInternalPage)
deriving DecidableEq

namespace BPlusTreePage

/-- `GetParentPageId`. -/
def GetParentPageId : BPlusTreePage → page_id_t
  | leaf l => l.parent_page_id
  | internal n => n.parent_page_id

/-- `SetParentPageId`. -/
def SetParentPageId : BPlusTreePage → page_id_t → BPlusTreePage
  | leaf l, p => leaf { l with parent_page_id := p }
  | internal n, p => internal { n with parent_page_id := p }

/-- `IsRootPage`: the parent page-id is `INVALID_PAGE_ID`. -/
def IsRootPage (p : BPlusTreePage) : Bool := p.GetParentPageId == INVALID_PAGE_ID

end BPlusTreePage

/-! ## B+ tree (`src/storage/index/b_plus_tree.cpp`) -/

/-- State of a `BPlusTree` together with the pages it keeps in the buffer pool.
Modelled from the spec: the buffer pool as seen by the index (never exhausted):
`NewPage` hands out the next page-id, `FetchPage` returns the stored page,
`DeletePage` discards it. Latches and the header-page record of the root id
carry no information beyond `root_page_id` and are left out. -/
structure BPlusTree where
  root_page_id : page_id_t
  leaf_max_size : Nat
  internal_max_size : Nat
  pages : List (page_id_t × BPlusTreePage)
  next_page_id : page_id_t
deriving DecidableEq

namespace BPlusTree

/-- The constructor: an empty tree; page 0 is the header page. -/
def new (leaf_max_size internal_max_size : Nat) : BPlusTree :=
  { root_page_id := INVALID_PAGE_ID, leaf_max_size := leaf_max_size,
    internal_max_size := internal_max_size, pages := [], next_page_id := 1 }

/-- `IsEmpty`. -/
def IsEmpty (t : BPlusTree) : Bool := t.root_page_id == INVALID_PAGE_ID

/-- `FetchPage`. -/
def FetchPage (t : BPlusTree) (p : page_id_t) : Option BPlusTreePage :=
  (t.pages.find? (fun e => e.1 == p)).map (fun e => e.2)

/-- Write a page back (the source mutates the pinned frame in place). -/
def put (t : BPlusTree) (p : page_id_t) (pg : BPlusTreePage) : BPlusTree :=
  { t with pages := (t.pages.filter (fun e => e.1 != p)) ++ [(p, pg)] }

/-- `NewPage`: the next page-id. -/
def NewPage (t : BPlusTree) : page_id_t × BPlusTree :=
  (t.next_page_id, { t with next_page_id := t.next_page_id + 1 })

/-- `DeletePage` of an unpinned page. -/
def DeletePage (t : BPlusTree) (p : page_id_t) : BPlusTree :=
  { t with pages := t.pages.filter (fun e => e.1 != p) }

/-- `SetParentPageId` on the page `p` of the pool, when it exists. -/
def setParent (t : BPlusTree) (p parent : page_id_t) : BPlusTree :=
  { t with pages := t.pages.map (fun e => if e.1 == p then (e.1, e.2.SetParentPageId parent) else e) }

/-- Modelled from the spec: children moved between internal pages have their
parent page-id reassigned. -/
def reparent (t : BPlusTree) (children : List page_id_t) (parent : page_id_t) : BPlusTree :=
  children.foldl (fun acc c => acc.setParent c parent) t

/-- `FindLeafPage`: descend from page `p` by `Lookup` until a leaf is reached;
one page per unit of fuel. -/
def FindLeafPage : Nat → BPlusTree → page_id_t → KeyType → Option BPlusTreeLeafPage
  | 0, _, _, _ => none
  | fuel + 1, t, p, key =>
    match t.FetchPage p with
    | none => none
    | some (BPlusTreePage.leaf l) => some l
    | some (BPlusTreePage.internal n) => FindLeafPage fuel t (n.Lookup key) key

/-- `GetValue`: the descent is the loop of `FindLeafPage` under shared latches. -/
def GetValue (fuel : Nat) (t : BPlusTree) (key : KeyType) (result : List ValueType) :
    Option (Bool × List ValueType) :=
  if t.IsEmpty then some (false, result)
  else
    match FindLeafPage fuel t t.root_page_id key with
    | none => none
    | some leaf_node =>
      match leaf_node.Lookup key with
      | some value => some (true, result ++ [value])
      | none => some (false, result)

/-- `StartNewTree`. -/
def StartNewTree (t : BPlusTree) (key : KeyType) (value : ValueType) : BPlusTree :=
  let (root_id, t1) := t.NewPage
  let t2 := { t1 with root_page_id := root_id }
  let leaf_node := BPlusTreeLeafPage.Init root_id INVALID_PAGE_ID t2.leaf_max_size
  t2.put root_id (BPlusTreePage.leaf (leaf_node.Insert key value))

/-- `InsertIntoParent`, on the page-ids of `old_node` and `new_node`; one level
of the tree per unit of fuel. -/
def InsertIntoParent : Nat → BPlusTree → page_id_t → KeyType → page_id_t → Option BPlusTree
  | 0, _, _, _, _ => none
  | fuel + 1, t, old_id, key, new_id =>
    match t.FetchPage old_id with
    | none => none
    | some old_node =>
      if old_node.IsRootPage then
        let (root_id, t1) := t.NewPage
        let t2 := { t1 with root_page_id := root_id }
        let root_node := BPlusTreeInternalPage.Init root_id INVALID_PAGE_ID t2.internal_max_size
        let t3 := t2.setParent old_id root_id
        let t4 := t3.setParent new_id root_id
        some (t4.put root_id (BPlusTreePage.internal (root_node.PopulateNewRoot old_id key new_id)))
      else
        match t.FetchPage old_node.GetParentPageId with
        | some (BPlusTreePage.internal parent_node) =>
          if parent_node.GetSize < parent_node.max_size then
            some (t.put parent_node.page_id
              (BPlusTreePage.internal (parent_node.InsertNodeAfter old_id key new_id)))
          else
            let (new_page_id, t1) := t.NewPage
            let split0 := BPlusTreeInternalPage.Init new_page_id parent_node.parent_page_id
              t1.internal_max_size
            let (parent1, split1) := parent_node.MoveHalfTo split0
            let t2 := t1.reparent (split1.array.map (fun e => e.2)) new_page_id
            let new_key := split1.KeyAt 0
            let (parent2, split2) :=
              if IntComparator key new_key == -1 then
                (parent1.InsertNodeAfter old_id key new_id, split1)
              else (parent1, split1.InsertNodeAfter old_id key new_id)
            let t3 := (t2.put parent_node.page_id (BPlusTreePage.internal parent2)).put
              new_page_id (BPlusTreePage.internal split2)
            InsertIntoParent fuel t3 parent_node.page_id new_key new_page_id
        | _ => none

/-- `InsertIntoLeaf` (with `Split` of the leaf inlined). -/
def InsertIntoLeaf (fuel : Nat) (t : BPlusTree) (key : KeyType) (value : ValueType) :
    Option (Bool × BPlusTree) :=
  match FindLeafPage fuel t t.root_page_id key with
  | none => none
  | some leaf_node =>
    match leaf_node.Lookup key with
    | some _ => some (false, t)
    | none =>
      if leaf_node.GetSize < leaf_node.max_size then
        some (true, t.put leaf_node.page_id (BPlusTreePage.leaf (leaf_node.Insert key value)))
      else
        let (new_page_id, t1) := t.NewPage
        let new0 := BPlusTreeLeafPage.Init new_page_id leaf_node.parent_page_id t1.leaf_max_size
        let (leaf1, new1) := leaf_node.MoveHalfTo new0
        let leaf2 := { leaf1 with next_page_id := new1.page_id }
        let new_key := new1.KeyAt 0
        let (leaf3, new2) :=
          if IntComparator key new_key == -1 then (leaf2.Insert key value, new1)
          else (leaf2, new1.Insert key value)
        let t2 := (t1.put leaf_node.page_id (BPlusTreePage.leaf leaf3)).put
          new_page_id (BPlusTreePage.leaf new2)
        (InsertIntoParent fuel t2 leaf_node.page_id new_key new_page_id).map (fun t3 => (true, t3))

/-- `Insert`. -/
def Insert (fuel : Nat) (t : BPlusTree) (key : KeyType) (value : ValueType) :
    Option (Bool × BPlusTree) :=
  if t.IsEmpty then some (true, t.StartNewTree key value)
  else InsertIntoLeaf fuel t key value

/-- `CoalesceOrRedistribute` for a leaf `node` (the only instantiation that
`RemoveFromLeaf` uses), on the page-id of `node`. -/
def CoalesceOrRedistribute (t : BPlusTree) (node_id : page_id_t) : Option (Bool × BPlusTree) :=
  match t.FetchPage node_id with
  | some (BPlusTreePage.leaf node) =>
    if (BPlusTreePage.leaf node).IsRootPage then some (false, t)
    else
      match t.FetchPage node.parent_page_id with
      | some (BPlusTreePage.internal parent_node) =>
        let my_index : Int := parent_node.ValueIndex node.page_id
        -- borrow from the left sibling
        let left : Option (Option BPlusTreeLeafPage) :=
          if my_index > 0 then
            match t.FetchPage (parent_node.ValueAt (my_index - 1).toNat) with
            | some (BPlusTreePage.leaf l) => some (some l)
            | _ => none
          else some none
        match left with
        | none => none
        | some left_sibling =>
          let borrowLeft : Option BPlusTreeLeafPage :=
            match left_sibling with
            | some l => if l.GetSize + node.GetSize > node.max_size then some l else none
            | none => none
          match borrowLeft with
          | some left_sibling_node =>
            let (left1, node1) := left_sibling_node.MoveLastToFrontOf node
            let parent1 := parent_node.SetKeyAt my_index.toNat (node1.KeyAt 0)
            some (false,
              ((t.put left1.page_id (BPlusTreePage.leaf left1)).put node1.page_id
                (BPlusTreePage.leaf node1)).put parent1.page_id (BPlusTreePage.internal parent1))
          | none =>
            -- borrow from the right sibling
            let right : Option (Option BPlusTreeLeafPage) :=
              if my_index < (parent_node.GetSize : Int) - 1 then
                match t.FetchPage (parent_node.ValueAt (my_index + 1).toNat) with
                | some (BPlusTreePage.leaf r) => some (some r)
                | _ => none
              else some none
            match right with
            | none => none
            | some right_sibling =>
              let borrowRight : Option BPlusTreeLeafPage :=
                match right_sibling with
                | some r => if r.GetSize + node.GetSize > node.max_size then some r else none
                | none => none
              match borrowRight with
              | some right_sibling_node =>
                let (right1, node1) := right_sibling_node.MoveFirstToEndOf node
                let parent1 := parent_node.SetKeyAt (my_index + 1).toNat (node1.KeyAt 0)
                some (false,
                  ((t.put right1.page_id (BPlusTreePage.leaf right1)).put node1.page_id
                    (BPlusTreePage.leaf node1)).put parent1.page_id (BPlusTreePage.internal parent1))
              | none =>
                match left_sibling, right_sibling with
                | some left_sibling_node, _ =>
                  -- merge into the left sibling
                  let (node1, left1) := node.MoveAllTo left_sibling_node
                  let parent1 := parent_node.Remove my_index.toNat
                  some (true,
                    ((t.put node1.page_id (BPlusTreePage.leaf node1)).put left1.page_id
                      (BPlusTreePage.leaf left1)).put parent1.page_id (BPlusTreePage.internal parent1))
                | none, some right_sibling_node =>
                  -- the right sibling is merged into this node
                  let (right1, node1) := right_sibling_node.MoveAllTo node
                  let parent1 := parent_node.Remove (my_index + 1).toNat
                  some (true,
                    ((t.put right1.page_id (BPlusTreePage.leaf right1)).put node1.page_id
                      (BPlusTreePage.leaf node1)).put parent1.page_id (BPlusTreePage.internal parent1))
                | none, none => some (false, t)
      | _ => none
  | _ => none

/-- `RemoveFromLeaf`. -/
def RemoveFromLeaf (fuel : Nat) (t : BPlusTree) (key : KeyType) : Option BPlusTree :=
  match FindLeafPage fuel t t.root_page_id key with
  | none => none
  | some leaf_node =>
    let old_size := leaf_node.GetSize
    let leaf1 := leaf_node.RemoveAndDeleteRecord key
    let new_size := leaf1.GetSize
    if new_size = old_size then some t
    else
      let t1 := t.put leaf1.page_id (BPlusTreePage.leaf leaf1)
      if new_size = 0 then
        let t2 := t1.DeletePage leaf1.page_id
        some { t2 with root_page_id := INVALID_PAGE_ID }
      else if leaf1.GetSize < leaf1.GetMinSize then
        match CoalesceOrRedistribute t1 leaf1.page_id with
        | none => none
        | some (true, t2) => some (t2.DeletePage leaf1.page_id)
        | some (false, t2) => some t2
      else some t1

/-- `Remove`. -/
def Remove (fuel : Nat) (t : BPlusTree) (key : KeyType) : Option BPlusTree :=
  if t.IsEmpty then some t else RemoveFromLeaf fuel t key

end BPlusTree

/-! ## Index iterator (`src/storage/index/index_iterator.cpp`) -/

/-- An `IndexIterator`: the leaf it points into (by page-id; `none` is the null
pointer) and `key_index`. -/
structure IndexIterator where
  leaf_page : Option page_id_t
  key_index : Nat
deriving DecidableEq

namespace BPlusTree

/-- `End()`. -/
def End : IndexIterator := { leaf_page := none, key_index := 0 }

/-- The descent of `Begin()`: always child 0. -/
def leftmostLeaf : Nat → BPlusTree → page_id_t → Option BPlusTreeLeafPage
  | 0, _, _ => none
  | fuel + 1, t, p =>
    match t.FetchPage p with
    | none => none
    | some (BPlusTreePage.leaf l) => some l
    | some (BPlusTreePage.internal n) => leftmostLeaf fuel t (n.ValueAt 0)

/-- `Begin()`. -/
def Begin (fuel : Nat) (t : BPlusTree) : Option IndexIterator :=
  if t.IsEmpty then some End
  else
    match leftmostLeaf fuel t t.root_page_id with
    | none => none
    | some leaf_node => some { leaf_page := some leaf_node.page_id, key_index := 0 }

/-- `Begin(key)`. -/
def BeginAt (fuel : Nat) (t : BPlusTree) (key : KeyType) : Option IndexIterator :=
  if t.IsEmpty then some End
  else
    match FindLeafPage fuel t t.root_page_id key with
    | none => none
    | some leaf_node =>
      let key_index := leaf_node.KeyIndex key
      let key_index1 :=
        if key_index > 0 && IntComparator (leaf_node.KeyAt (key_index - 1)) key == 0
        then key_index - 1 else key_index
      some { leaf_page := some leaf_node.page_id, key_index := key_index1 }

end BPlusTree

namespace IndexIterator

/-- `operator==`. -/
def eq (a b : IndexIterator) : Bool :=
  match a.leaf_page, b.leaf_page with
  | none, none => true
  | none, some _ => false
  | some _, none => false
  | some p, some q => a.key_index == b.key_index && p == q

/-- `operator*`. -/
def deref (t : BPlusTree) (it : IndexIterator) : Option (KeyType × ValueType) :=
  match it.leaf_page with
  | none => none
  | some p =>
    match t.FetchPage p with
    | some (BPlusTreePage.leaf l) => some (l.GetItem it.key_index)
    | _ => none

/-- `operator++`. -/
def next (t : BPlusTree) (it : IndexIterator) : Option IndexIterator :=
  match it.leaf_page with
  | none => some it
  | some p =>
    match t.FetchPage p with
    | some (BPlusTreePage.leaf l) =>
      let key_index := it.key_index + 1
      if key_index ≥ l.GetSize then
        if l.next_page_id = INVALID_PAGE_ID then some { leaf_page := none, key_index := 0 }
        else
          match t.FetchPage l.next_page_id with
          | some (BPlusTreePage.leaf l2) => some { leaf_page := some l2.page_id, key_index := 0 }
          | _ => none
      else some { it with key_index := key_index }
    | _ => none

/-- `IsEnd`. -/
def IsEnd (t : BPlusTree) (it : IndexIterator) : Option Bool :=
  match it.leaf_page with
  | none => some true
  | some p =>
    match t.FetchPage p with
    | some (BPlusTreePage.leaf l) =>
      if l.page_id = INVALID_PAGE_ID then some true
      else if l.next_page_id = INVALID_PAGE_ID ∧ (it.key_index : Int) = (l.GetSize : Int) - 1 then
        some true
      else some false
    | _ => none

end IndexIterator

namespace BPlusTree

/-- The keys visited by `for (it = Begin(); it != End(); ++it)`, at most `fuel`
of them. -/
def collect : Nat → BPlusTree → IndexIterator → Option (List KeyType)
  | 0, _, _ => none
  | fuel + 1, t, it =>
    if it.eq End then some []
    else
      match it.deref t, it.next t with
      | some kv, some it1 => (collect fuel t it1).map (fun ks => kv.1 :: ks)
      | _, _ => none

/-- All keys enumerated from `Begin()` up to `End()`. -/
def keys (fuel : Nat) (t : BPlusTree) : Option (List KeyType) :=
  match Begin fuel t with
  | none => none
  | some it => collect fuel t it

/-- An operation of a test history. -/
inductive Op where
  | insert (key : KeyType) (value : ValueType)
  | remove (key : KeyType)
deriving DecidableEq

/-- Run a history of `Insert` and `Remove` calls in order; the verdicts of the
`Insert` calls are collected in order. -/
def run (fuel : Nat) : BPlusTree → List Op → Option (List Bool × BPlusTree)
  | t, [] => some ([], t)
  | t, Op.insert k v :: rest =>
    match Insert fuel t k v with
    | none => none
    | some (ok, t1) => (run fuel t1 rest).map (fun r => (ok :: r.1, r.2))
  | t, Op.remove k :: rest =>
    match Remove fuel t k with
    | none => none
    | some t1 => run fuel t1 rest

/-- The child page-ids listed by an internal page. -/
def children (n : BPlusTreeInternalPage) : List page_id_t := n.array.map (fun e => e.2)

/-- Well-formedness of the path above a node whose parent pointer is `parent`:
`chain` lists the ancestors from the parent up to the root. Every ancestor is
an allocated internal page stored under its own page-id, points to the next
ancestor, and no higher ancestor is one of its children. -/
def ancestorsOK (t : BPlusTree) : page_id_t → List page_id_t → Bool
  | parent, [] => parent == INVALID_PAGE_ID
  | parent, q :: rest =>
    match t.FetchPage q with
    | some (BPlusTreePage.internal n) =>
      parent == q && q != INVALID_PAGE_ID && decide (q < t.next_page_id) && !(rest.contains q)
        && n.page_id == q && rest.all (fun r => !((children n).contains r))
        && ancestorsOK t n.parent_page_id rest
    | _ => false

end BPlusTree

end bustub

namespace bustub

/-! ## Scenarios

Concrete states and histories on which the operations above are evaluated. -/

/-- A fresh pool of two frames, pages of four bytes, on a zeroed disk. -/
def pool2 : BufferPoolManagerInstance := BufferPoolManagerInstance.mk_instance 2 4 1 0 (zeroDisk 4)

/-- A fresh pool of one frame, pages of four bytes, on a zeroed disk. -/
def pool1 : BufferPoolManagerInstance := BufferPoolManagerInstance.mk_instance 1 4 1 0 (zeroDisk 4)

/-- Pool of one frame after `fetch(5)`, `unpin(5, false)`, `fetch(5)`: page 5 is
resident in frame 0 and pinned once. -/
def pinnedAgain : BufferPoolManagerInstance :=
  ((((pool1.FetchPgImp 5).2.UnpinPgImp 5 false).2).FetchPgImp 5).2

/-- The bytes written by the client in the write-back scenario. -/
def bytesAB : List Nat := [0xAB, 0xAB, 0xAB, 0xAB]

/-- Write-back scenario on a pool of one frame: `new_page` gives page 0 in
frame 0, the client writes `bytesAB`, then `unpin(0, true)`, `fetch(0)`,
`unpin(0, true)`. -/
def dirtyZero : BufferPoolManagerInstance :=
  (((((pool1.NewPgImp.2.writeData 0 bytesAB).UnpinPgImp 0 true).2).FetchPgImp 0).2.UnpinPgImp 0 true).2

/-- Pool of one frame after `fetch(5)`, `fetch(5)`, `unpin(5, true)`: page 5 is
resident with pin-count 1 and its dirty flag set. -/
def dirtyPinned : BufferPoolManagerInstance :=
  ((((pool1.FetchPgImp 5).2.FetchPgImp 5).2).UnpinPgImp 5 true).2

/-- Pool of one frame after `fetch(7)`: page 7 is resident with pin-count 1. -/
def sevenPinned : BufferPoolManagerInstance := (pool1.FetchPgImp 7).2

/-- Hash scenario: six pairwise distinct pairs. -/
def sixPairs : List (Int × Int) := [(0, 100), (2, 102), (4, 104), (1, 101), (3, 103), (7, 107)]

/-- Hash scenario: bucket capacity 2, the hash of a key is the key itself; the
result of inserting `sixPairs` into the empty table. -/
def sixInserted : Option (List Bool × ExtendibleHashTable) :=
  ExtendibleHashTable.insertAll 8 (ExtendibleHashTable.init 2 (fun k => k.toNat)) sixPairs

/-- Tree scenario: `leaf_max_size = 2`, `internal_max_size = 3`; insert the keys
10, 20 and 5 into the empty tree. -/
def threeKeys : Option (List Bool × BPlusTree) :=
  BPlusTree.run 5 (BPlusTree.new 2 3)
    [BPlusTree.Op.insert 10 110, BPlusTree.Op.insert 20 120, BPlusTree.Op.insert 5 105]

/-- Tree scenario continued: the same history followed by `Remove(20)`. -/
def threeKeysRemove20 : Option (List Bool × BPlusTree) :=
  BPlusTree.run 5 (BPlusTree.new 2 3)
    [BPlusTree.Op.insert 10 110, BPlusTree.Op.insert 20 120, BPlusTree.Op.insert 5 105,
     BPlusTree.Op.remove 20]

/-- The left leaf of the tree built by `threeKeys`. -/
def leafOne : BPlusTreeLeafPage :=
  { page_id := 1, parent_page_id := 3, next_page_id := 2, max_size := 2,
    array := [(5, 105), (10, 110)] }

/-- The tree built by `threeKeys`: root 3 over the leaves 1 and 2. -/
def threeKeysTree : BPlusTree :=
  { root_page_id := 3, leaf_max_size := 2, internal_max_size := 3,
    pages :=
      [(1, BPlusTreePage.leaf leafOne),
       (2, BPlusTreePage.leaf
          { page_id := 2, parent_page_id := 3, next_page_id := INVALID_PAGE_ID, max_size := 2,
            array := [(20, 120)] }),
       (3, BPlusTreePage.internal
          { page_id := 3, parent_page_id := INVALID_PAGE_ID, max_size := 3,
            array := [(0, 1), (20, 2)] })],
    next_page_id := 4 }

end bustub

namespace bustub

/-! ## Histories of buffer pool calls -/

/-- A call of the public buffer pool interface. -/
inductive PoolOp where
  | new_page
  | fetch (p : page_id_t)
  | unpin (p : page_id_t) (is_dirty : Bool)
  | delete_page (p : page_id_t)
  | flush (p : page_id_t)
deriving DecidableEq

namespace BufferPoolManagerInstance

/-- One call on the pool; `none` when the call has no result (see `DeletePgImp`). -/
def step (b : BufferPoolManagerInstance) : PoolOp → Option BufferPoolManagerInstance
  | PoolOp.new_page => some b.NewPgImp.2
  | PoolOp.fetch p => some (b.FetchPgImp p).2
  | PoolOp.unpin p d => some (b.UnpinPgImp p d).2
  | PoolOp.delete_page p => (b.DeletePgImp p).map (fun r => r.2)
  | PoolOp.flush p => some (b.FlushPgImp p).2

/-- Run a history of calls in order. -/
def runOps : BufferPoolManagerInstance → List PoolOp → Option BufferPoolManagerInstance
  | b, [] => some b
  | b, op :: rest =>
    match b.step op with
    | none => none
    | some b1 => runOps b1 rest

/-- The page-ids handed out by `AllocatePage` during a history, in order. The
only caller of `AllocatePage` is `NewPgImp`, which calls it once whenever it has
obtained a frame. A call without result ends the history. -/
def allocatedIds : BufferPoolManagerInstance → List PoolOp → List page_id_t
  | _, [] => []
  | b, PoolOp.new_page :: rest =>
    match b.NewPgImp with
    | (some (page_id, _), b1) => page_id :: allocatedIds b1 rest
    | (none, b1) => allocatedIds b1 rest
  | b, op :: rest =>
    match b.step op with
    | none => []
    | some b1 => allocatedIds b1 rest

/-- The right-hand side of the frame accounting equation: the length of the
free list, plus the frames with pin-count above 0, plus the frames with
pin-count 0 that hold a page. -/
def accounted (b : BufferPoolManagerInstance) : Nat :=
  b.free_list.length
  + (b.pages.filter (fun p => decide (p.pin_count > 0))).length
  + (b.pages.filter (fun p => decide (p.pin_count = 0) && (p.page_id != INVALID_PAGE_ID))).length

end BufferPoolManagerInstance

end bustub

namespace bustub
namespace BufferPoolManagerInstance

/-- The second half of `FetchPgImp` (lines 121-133), run on the pool `b1` from
which the frame `free_frame_id` has just been taken: write the frame back when
it is dirty, swap the page-table entries, reset the metadata, read the page
and pin it. It is the same text as in `FetchPgImp`, named for the proofs. -/
def fetchInstall (b1 : BufferPoolManagerInstance) (free_frame_id : frame_id_t)
    (page_id : page_id_t) : Option frame_id_t × BufferPoolManagerInstance :=
  let b2 := if (b1.frame free_frame_id).is_dirty
            then (b1.FlushPgImp (b1.frame free_frame_id).page_id).2 else b1
  let b3 := { b2 with page_table := b2.page_table.erase (b2.frame free_frame_id).page_id }
  let b4 := { b3 with page_table := b3.page_table.insert page_id free_frame_id }
  let p0 := b4.frame free_frame_id
  let p1 := { p0 with is_dirty := false }
  let p2 := { p1 with pin_count := 0 }
  let p3 := { p2 with page_id := page_id }
  let p4 := { p3 with data := b4.disk_manager.ReadPage page_id }
  let p5 := { p4 with pin_count := p4.pin_count + 1 }
  let b5 := b4.setFrame free_frame_id p5
  (some free_frame_id, { b5 with replacer := b5.replacer.Pin page_id })

end BufferPoolManagerInstance
end bustub

namespace bustub

/-! ## Histories of replacer calls and the replacer of the specification -/

/-- A call of the replacer interface. -/
inductive ReplacerOp where
  | pin (f : frame_id_t)
  | unpin (f : frame_id_t)
  | victim
deriving DecidableEq

namespace LRUReplacer

/-- One call on the replacer. The first component is what a `Victim` call
reports (`some (some f)` for true with `*frame_id = f`, `some none` for false)
and `none` for the other calls. -/
def step (r : LRUReplacer) : ReplacerOp → Option (Option frame_id_t) × LRUReplacer
  | ReplacerOp.pin f => (none, r.Pin f)
  | ReplacerOp.unpin f => (none, r.Unpin f)
  | ReplacerOp.victim => (some r.Victim.1, r.Victim.2)

/-- What a client observes along a history: for every call the report of `step`
and the value of `Size` right after the call. -/
def observe : LRUReplacer → List ReplacerOp → List (Option (Option frame_id_t) × Nat)
  | _, [] => []
  | r, op :: rest => ((r.step op).1, (r.step op).2.Size) :: observe (r.step op).2 rest

end LRUReplacer

/-- The replacer as the specification words it: the tracked frames, each with
the time of its most recent transition from untracked to tracked, and a clock
that ticks at every call. -/
structure TrackedFrames where
  clock : Nat
  since : List (frame_id_t × Nat)
deriving DecidableEq

namespace TrackedFrames

/-- Whether frame `f` is tracked. -/
def tracked (s : TrackedFrames) (f : frame_id_t) : Bool := s.since.any (fun e => e.1 == f)

/-- The entry with the smallest tracking time. -/
def oldest : List (frame_id_t × Nat) → Option (frame_id_t × Nat)
  | [] => none
  | e :: l =>
    match oldest l with
    | none => some e
    | some m => if e.2 ≤ m.2 then some e else some m

/-- Specification of `pin`: the frame becomes untracked. -/
def pin (s : TrackedFrames) (f : frame_id_t) : TrackedFrames :=
  { clock := s.clock + 1, since := s.since.filter (fun e => e.1 != f) }

/-- Specification of `unpin`: an untracked frame becomes tracked now; a tracked
frame keeps its tracking time. -/
def unpin (s : TrackedFrames) (f : frame_id_t) : TrackedFrames :=
  if s.tracked f then { clock := s.clock + 1, since := s.since }
  else { clock := s.clock + 1, since := s.since ++ [(f, s.clock)] }

/-- Specification of `victim`: none when nothing is tracked, otherwise the
tracked frame with the oldest tracking time, which becomes untracked. -/
def victim (s : TrackedFrames) : Option frame_id_t × TrackedFrames :=
  match oldest s.since with
  | none => (none, { clock := s.clock + 1, since := s.since })
  | some e => (some e.1, { clock := s.clock + 1, since := s.since.filter (fun x => x.1 != e.1) })

/-- Specification of `size`: the number of distinct tracked frames. -/
def size (s : TrackedFrames) : Nat := ((s.since.map (fun e => e.1)).dedup).length

/-- One call on the specification replacer. -/
def step (s : TrackedFrames) : ReplacerOp → Option (Option frame_id_t) × TrackedFrames
  | ReplacerOp.pin f => (none, s.pin f)
  | ReplacerOp.unpin f => (none, s.unpin f)
  | ReplacerOp.victim => (some s.victim.1, s.victim.2)

/-- What a client of the specification replacer observes along a history. -/
def observe : TrackedFrames → List ReplacerOp → List (Option (Option frame_id_t) × Nat)
  | _, [] => []
  | s, op :: rest => ((s.step op).1, (s.step op).2.size) :: observe (s.step op).2 rest

end TrackedFrames

/-- A history of replacer calls used to try the refinement. -/
def replacerHistory : List ReplacerOp :=
  [ReplacerOp.unpin 1, ReplacerOp.unpin 2, ReplacerOp.unpin 1, ReplacerOp.unpin 3,
   ReplacerOp.pin 2, ReplacerOp.victim, ReplacerOp.victim, ReplacerOp.victim]

end bustub

namespace bustub
namespace HashTableBucketPage

variable {K V : Type}

/-- The result of `get(key)` in the words of the specification: the values, in
increasing slot order, of the slots that are readable and whose key compares
equal to `key`. -/
def matchingValues (cap : Nat) (cmp : K → K → Int) (b : HashTableBucketPage K V) (key : K) :
    List V :=
  (List.range cap).filterMap
    (fun i => if b.IsReadable i && keyMatches cmp b i key then (b.PairAt i).map (fun e => e.2)
              else none)

end HashTableBucketPage
end bustub

namespace bustub

/-! ## Scenarios for the buffer pool histories -/

/-- Pool of one frame after `fetch(5)`, `unpin(5, false)`: page 5 is resident in
frame 0 with pin-count 0, and frame 0 is tracked by the replacer. -/
def fiveUnpinned : Option BufferPoolManagerInstance :=
  pool1.runOps [PoolOp.fetch 5, PoolOp.unpin 5 false]

/-- History that frees frame 0 twice through a page-table entry left by `unpin`
of a page that is not resident. -/
def freedTwice : Option BufferPoolManagerInstance :=
  pool1.runOps [PoolOp.fetch 7, PoolOp.unpin 7 false, PoolOp.unpin 3 false,
    PoolOp.delete_page 3, PoolOp.delete_page 7]

/-- History that frees frame 0 twice with calls on pages the client fetched:
`new_page` evicts page 7 without erasing its page-table entry, so pages 7 and 8
end up mapped to the same frame. -/
def freedTwiceStale : Option BufferPoolManagerInstance :=
  pool1.runOps [PoolOp.fetch 7, PoolOp.unpin 7 false, PoolOp.new_page, PoolOp.fetch 7,
    PoolOp.unpin 7 false, PoolOp.fetch 8, PoolOp.unpin 8 false, PoolOp.delete_page 8,
    PoolOp.delete_page 7]

/-- Pool of one frame after `fetch(5)`, `fetch(5)`, `unpin(5, false)`. -/
def unpinnedOnce : Option BufferPoolManagerInstance :=
  pool1.runOps [PoolOp.fetch 5, PoolOp.fetch 5, PoolOp.unpin 5 false]

/-- Pool of one frame after `fetch(5)`, `unpin(5, false)`, `delete_page(5)`. -/
def deletedFive : Option BufferPoolManagerInstance :=
  pool1.runOps [PoolOp.fetch 5, PoolOp.unpin 5 false, PoolOp.delete_page 5]

end bustub

namespace bustub

/-- Pool of one frame after `fetch(5)`, a client write of `bytesAB` into the
frame, and `unpin(5, true)`: page 5 is resident in frame 0, dirty, unpinned and
tracked by the replacer. -/
def dirtyFive : BufferPoolManagerInstance :=
  (((pool1.FetchPgImp 5).2.writeData 0 bytesAB).UnpinPgImp 5 true).2

end bustub

namespace bustub

/-! ## Scenarios for the bucket page -/

/-- The capacity of a bucket of `int` keys and `int` values on a 4096-byte page:
`4 * 4096 / (4 * 8 + 1)`. -/
def intBucketCapacity : Nat := 496

/-- A bucket of capacity 496 whose slots 0 to 487 hold the live pairs `(i, i)`
and whose last eight slots were never used. -/
def bucket488 : HashTableBucketPage Int Int :=
  { occupied := List.replicate 61 255 ++ [0]
    readable := List.replicate 61 255 ++ [0]
    array := (List.range 488).map (fun i => some ((i : Int), (i : Int))) ++ List.replicate 8 none }

end bustub

namespace bustub
namespace HashTableBucketPage

variable {K V : Type}

/-- Modelled from the spec: the page layout of a bucket of capacity `cap`. Each
bitmap has one bit per slot, `(cap - 1) / 8 + 1` bytes, every byte is a value
below 256, and the pair array has `cap` slots. -/
def layout (cap : Nat) (b : HashTableBucketPage K V) : Bool :=
  b.occupied.length == (cap - 1) / 8 + 1 && b.readable.length == (cap - 1) / 8 + 1
    && b.array.length == cap
    && b.occupied.all (fun x => decide (x < 256)) && b.readable.all (fun x => decide (x < 256))

end HashTableBucketPage
end bustub

namespace bustub

/-- A bucket of capacity 496 in which only slot 7 holds a live pair: the state
after eight inserts into the empty bucket followed by the removal of the first
seven pairs. -/
def bucketSlot7 : HashTableBucketPage Int Int :=
  { occupied := [255] ++ List.replicate 61 0
    readable := [1] ++ List.replicate 61 0
    array := (List.range 8).map (fun i => some ((i : Int), (i : Int))) ++ List.replicate 488 none }

/-- Insert the pairs `(0, 0), ..., (n - 1, n - 1)` in order. -/
def insertRange (cap : Nat) (b : HashTableBucketPage Int Int) (n : Nat) :
    Option (HashTableBucketPage Int Int) :=
  (List.range n).foldl
    (fun acc i =>
      acc.bind (fun c =>
        (HashTableBucketPage.Insert cap IntComparator c (i : Int) (i : Int)).map (fun r => r.2)))
    (some b)

/-- Remove the pairs `(0, 0), ..., (n - 1, n - 1)` in order. -/
def removeRange (cap : Nat) (b : HashTableBucketPage Int Int) (n : Nat) :
    HashTableBucketPage Int Int :=
  (List.range n).foldl
    (fun acc i => (HashTableBucketPage.Remove cap IntComparator acc (i : Int) (i : Int)).2) b

/-- The number of readable slots in the words of the specification: the slot
indices below the capacity whose readable bit is set. -/
def HashTableBucketPage.readableCount {K V : Type} (cap : Nat) (b : HashTableBucketPage K V) : Nat :=
  (List.range cap).countP (fun i => b.IsReadable i)

end bustub

namespace bustub
namespace ExtendibleHashTable

/-- `Remove`. The bucket's `Remove` runs first; when the bucket then reports
`IsEmpty`, its slot has a positive local depth and the split image has the same
local depth, the merge branch runs and the bucket page is deleted. The result
is `none` when the bucket page cannot be fetched. -/
def Remove (h : ExtendibleHashTable) (key value : Int) : Option (Bool × ExtendibleHashTable) :=
  let dir_node := h.dir
  let bucket_page_id := h.KeyToPageId key dir_node
  match h.FetchBucketPage bucket_page_id with
  | none => none
  | some bucket_node =>
    let removed := HashTableBucketPage.Remove h.cap IntComparator bucket_node key value
    let success := removed.1
    let h1 := h.putBucket bucket_page_id removed.2
    if removed.2.IsEmpty then
      let bucket_idx := h.KeyToDirectoryIndex key dir_node
      if dir_node.GetLocalDepth bucket_idx > 0 then
        let split_image_idx := dir_node.GetSplitImageIndex bucket_idx
        if dir_node.GetLocalDepth bucket_idx = dir_node.GetLocalDepth split_image_idx then
          let left_split_image_idx :=
            if bucket_idx ≥ (1 <<< (dir_node.GetLocalDepth bucket_idx - 1)) then split_image_idx
            else bucket_idx
          let right_split_image_idx :=
            if bucket_idx ≥ (1 <<< (dir_node.GetLocalDepth bucket_idx - 1)) then bucket_idx
            else split_image_idx
          let dir1 := dir_node.SetBucketPageId left_split_image_idx
            (dir_node.GetBucketPageId left_split_image_idx)
          let dir2 := dir1.DecrLocalDepth left_split_image_idx
          let dir3 := dir2.SetLocalDepth right_split_image_idx 0
          let dir4 := if dir3.CanShrink then dir3.DecrGlobalDepth else dir3
          some (success, { h1.DeletePage bucket_page_id with dir := dir4 })
        else some (success, h1)
      else some (success, h1)
    else some (success, h1)

/-- A call of a test history of the hash table. -/
inductive Op where
  | insert (key value : Int)
  | remove (key value : Int)
deriving DecidableEq

/-- Run a history of `Insert` and `Remove` calls in order; every `Insert` gets
`fuel` split iterations. The verdicts of the calls are collected in order. -/
def run (fuel : Nat) : ExtendibleHashTable → List Op → Option (List Bool × ExtendibleHashTable)
  | h, [] => some ([], h)
  | h, Op.insert k v :: rest =>
    match Insert fuel h k v with
    | none => none
    | some (ok, h1) => (run fuel h1 rest).map (fun r => (ok :: r.1, r.2))
  | h, Op.remove k v :: rest =>
    match Remove h k v with
    | none => none
    | some (ok, h1) => (run fuel h1 rest).map (fun r => (ok :: r.1, r.2))

end ExtendibleHashTable

/-- The directory invariant in the words of the specification: every slot of
the directory has a local depth of at most the global depth, and any two slots
that agree in the low `local_depth[i]` bits reference the same bucket page and
have the same local depth. -/
def HashTableDirectoryPage.invariant (d : HashTableDirectoryPage) : Bool :=
  (List.range d.Size).all (fun i =>
    decide (d.local_depths i ≤ d.global_depth)
    && (List.range d.Size).all (fun j =>
      if i % 2 ^ d.local_depths i = j % 2 ^ d.local_depths i then
        d.bucket_page_ids i == d.bucket_page_ids j && d.local_depths i == d.local_depths j
      else true))

end bustub

namespace bustub
namespace ExtendibleHashTable

/-- One iteration of the `while (bucket_node->IsFull())` loop of `Insert` (the
body of `splitLoop`): the table after the bucket `bucket_node` at page
`bucket_page_id` has been split. -/
def splitOnce (h : ExtendibleHashTable) (key : Int) (bucket_page_id : page_id_t)
    (bucket_node : HashTableBucketPage Int Int) : ExtendibleHashTable :=
  let bucket_idx := h.KeyToDirectoryIndex key h.dir
  let dir1 :=
    if h.dir.GetLocalDepth bucket_idx = h.dir.GetGlobalDepth then
      doubleDirectory h.dir.IncrGlobalDepth
    else h.dir
  let (new_page_id0, h1) := h.NewPage
  let (new_page_id1, h2) := h1.NewPage
  let dir2 := dir1.SetBucketPageId bucket_idx new_page_id0
  let dir3 := dir2.SetBucketPageId (bucket_idx + (1 <<< (dir2.GetGlobalDepth - 1))) new_page_id1
  let dir4 := dir3.IncrLocalDepth bucket_idx
  let dir5 := dir4.IncrLocalDepth (bucket_idx + (1 <<< (dir4.GetGlobalDepth - 1)))
  let (s0, s1) := redistribute h dir5 bucket_node new_page_id0
    (HashTableBucketPage.empty h.cap) (HashTableBucketPage.empty h.cap)
  let h3 := (h2.putBucket new_page_id0 s0).putBucket new_page_id1 s1
  let h4 := h3.DeletePage bucket_page_id
  { h4 with dir := dir5 }

end ExtendibleHashTable
end bustub

namespace bustub

/-- The directory of the table that started empty (global depth 0, one bucket
at page 1) after its first split: global depth 1, slot 0 references page 2 and
slot 1 references page 3. -/
def grownDirectory : HashTableDirectoryPage :=
  ((((ExtendibleHashTable.doubleDirectory
        (ExtendibleHashTable.init 2 (fun _ => 0)).dir.IncrGlobalDepth).SetBucketPageId 0
      2).SetBucketPageId 1 3).IncrLocalDepth 0).IncrLocalDepth 1

end bustub

namespace bustub
namespace ExtendibleHashTable

/-- The body of the redistribution loop of `Insert` for slot `i` of the old
bucket (one step of `redistribute`). -/
def redistributeStep (h : ExtendibleHashTable) (dir : HashTableDirectoryPage)
    (bucket_node : HashTableBucketPage Int Int) (new_page_id0 : page_id_t)
    (acc : HashTableBucketPage Int Int × HashTableBucketPage Int Int) (i : Nat) :
    HashTableBucketPage Int Int × HashTableBucketPage Int Int :=
  if bucket_node.IsReadable i then
    match bucket_node.PairAt i with
    | none => acc
    | some (k, v) =>
      let new_bucket_idx := h.KeyToDirectoryIndex k dir
      if dir.GetBucketPageId new_bucket_idx = new_page_id0 then
        match HashTableBucketPage.Insert h.cap IntComparator acc.1 k v with
        | some (_, s0) => (s0, acc.2)
        | none => acc
      else
        match HashTableBucketPage.Insert h.cap IntComparator acc.2 k v with
        | some (_, s1) => (acc.1, s1)
        | none => acc
  else acc

/-- The directory updates of one split iteration of `Insert` for the slot
`bucket_idx` and the two new pages. -/
def splitDirectory (dir : HashTableDirectoryPage) (bucket_idx : Nat)
    (new_page_id0 new_page_id1 : page_id_t) : HashTableDirectoryPage :=
  let dir1 :=
    if dir.GetLocalDepth bucket_idx = dir.GetGlobalDepth then
      doubleDirectory dir.IncrGlobalDepth
    else dir
  let dir2 := dir1.SetBucketPageId bucket_idx new_page_id0
  let dir3 := dir2.SetBucketPageId (bucket_idx + (1 <<< (dir2.GetGlobalDepth - 1))) new_page_id1
  let dir4 := dir3.IncrLocalDepth bucket_idx
  dir4.IncrLocalDepth (bucket_idx + (1 <<< (dir4.GetGlobalDepth - 1)))

end ExtendibleHashTable
end bustub
namespace bustub

/-! ## Scenarios for the hash table -/

/-- Hash scenario: bucket capacity 2, the hash of a key is the key itself; the
empty table. -/
def identityTable : ExtendibleHashTable := ExtendibleHashTable.init 2 (fun k => k.toNat)

/-- Hash scenario: three inserts give the buckets `{0, 2}` (slot 0) and `{1}`
(slot 1), both of local depth 1; then the only pair of the second bucket is
removed. -/
def lastPairRemoved : Option (List Bool × ExtendibleHashTable) :=
  ExtendibleHashTable.run 8 identityTable
    [ExtendibleHashTable.Op.insert 0 100, ExtendibleHashTable.Op.insert 2 102,
     ExtendibleHashTable.Op.insert 1 101, ExtendibleHashTable.Op.remove 1 101]

/-- Hash scenario: after `Insert(1)`, `Insert(3)`, `Remove(3)`, `Insert(5)` the
table has global depth 1; slot 0 references page 2, a bucket that was never
used, and slot 1 references page 3, which holds the pairs of the keys 1 and 5. -/
def leftBucketUnused : Option (List Bool × ExtendibleHashTable) :=
  ExtendibleHashTable.run 8 identityTable
    [ExtendibleHashTable.Op.insert 1 101, ExtendibleHashTable.Op.insert 3 103,
     ExtendibleHashTable.Op.remove 3 103, ExtendibleHashTable.Op.insert 5 105]

/-- Hash scenario continued: `leftBucketUnused` followed by `Remove(0, 0)`,
which finds the bucket of slot 0 empty and runs the merge branch. -/
def leftBucketMerged : Option (List Bool × ExtendibleHashTable) :=
  ExtendibleHashTable.run 8 identityTable
    [ExtendibleHashTable.Op.insert 1 101, ExtendibleHashTable.Op.insert 3 103,
     ExtendibleHashTable.Op.remove 3 103, ExtendibleHashTable.Op.insert 5 105,
     ExtendibleHashTable.Op.remove 0 0]

/-- Hash scenario: a table of global depth 2 with four buckets of local depth
2: slot 0 references page 6 (keys 0 and 8), slot 1 page 4 (keys 1 and 5),
slot 2 page 7 (never used) and slot 3 page 5 (key 3). -/
def fourBuckets : Option (List Bool × ExtendibleHashTable) :=
  ExtendibleHashTable.run 8 identityTable
    [ExtendibleHashTable.Op.insert 1 101, ExtendibleHashTable.Op.insert 3 103,
     ExtendibleHashTable.Op.insert 5 105, ExtendibleHashTable.Op.insert 0 100,
     ExtendibleHashTable.Op.insert 4 104, ExtendibleHashTable.Op.remove 4 104,
     ExtendibleHashTable.Op.insert 8 108]

/-- Hash scenario continued: `fourBuckets` followed by `Remove(2, 0)`, which
finds the bucket of slot 2 empty and runs the merge branch. -/
def rightBucketMerged : Option (List Bool × ExtendibleHashTable) :=
  ExtendibleHashTable.run 8 identityTable
    [ExtendibleHashTable.Op.insert 1 101, ExtendibleHashTable.Op.insert 3 103,
     ExtendibleHashTable.Op.insert 5 105, ExtendibleHashTable.Op.insert 0 100,
     ExtendibleHashTable.Op.insert 4 104, ExtendibleHashTable.Op.remove 4 104,
     ExtendibleHashTable.Op.insert 8 108, ExtendibleHashTable.Op.remove 2 0]

end bustub

namespace bustub

/-- Modelled from the spec: `min_size = ⌈max_size/2⌉` of an internal page. -/
def BPlusTreeInternalPage.GetMinSize (n : BPlusTreeInternalPage) : Nat := (n.max_size + 1) / 2

namespace BPlusTreePage

/-- `GetSize` of a tree page. -/
def GetSize : BPlusTreePage → Nat
  | leaf l => l.GetSize
  | internal n => n.GetSize

/-- `GetMinSize` of a tree page. -/
def GetMinSize : BPlusTreePage → Nat
  | leaf l => l.GetMinSize
  | internal n => n.GetMinSize

/-- `GetMaxSize` of a tree page. -/
def GetMaxSize : BPlusTreePage → Nat
  | leaf l => l.max_size
  | internal n => n.max_size

/-- The size bounds of a non-root node in the words of the specification:
`min_size ≤ size ≤ max_size`. -/
def sizeInBounds (p : BPlusTreePage) : Bool :=
  decide (p.GetMinSize ≤ p.GetSize) && decide (p.GetSize ≤ p.GetMaxSize)

end BPlusTreePage

namespace BPlusTree

/-- The nodes below page `p` (`p` itself excluded), found by following the child
page-ids of the internal pages; one level per unit of fuel. -/
def descendants : Nat → BPlusTree → page_id_t → List BPlusTreePage
  | 0, _, _ => []
  | fuel + 1, t, p =>
    match t.FetchPage p with
    | some (BPlusTreePage.internal n) =>
      ((children n).map (fun c =>
        match t.FetchPage c with
        | some pg => pg :: descendants fuel t c
        | none => [])).flatten
    | _ => []

/-- The node-size invariant in the words of the specification: every node of
the tree other than the root satisfies `min_size ≤ size ≤ max_size`. -/
def nodeSizesOK (fuel : Nat) (t : BPlusTree) : Bool :=
  (descendants fuel t t.root_page_id).all (fun pg => pg.sizeInBounds)

/-- The history that inserts the keys of `l` in order, key `k` with value `k + 100`. -/
def inserts (l : List KeyType) : List Op := l.map (fun k => Op.insert k (k + 100))

/-- The history that removes the keys of `l` in order. -/
def removes (l : List KeyType) : List Op := l.map (fun k => Op.remove k)

end BPlusTree

/-! ## Scenarios for the tree -/

/-- Tree scenario: `leaf_max_size = 4`, `internal_max_size = 4`; insert 10 to 50,
then remove 50, 40, 10 and 20. The root is an internal page with the single
child leaf 1, which holds the key 30 only. -/
def lonelyLeaf : Option (List Bool × BPlusTree) :=
  BPlusTree.run 6 (BPlusTree.new 4 4)
    (BPlusTree.inserts [10, 20, 30, 40, 50] ++ BPlusTree.removes [50, 40, 10, 20])

/-- Tree scenario: `leaf_max_size = 4`, `internal_max_size = 4`; insert 10, 20,
..., 110. The root (page 8) has the internal children 3 and 7; page 3 has the
leaves 1 `[10, 20]` and 2 `[30, 40]`. -/
def threeLevels : Option (List Bool × BPlusTree) :=
  BPlusTree.run 6 (BPlusTree.new 4 4)
    (BPlusTree.inserts [10, 20, 30, 40, 50, 60, 70, 80, 90, 100, 110])

/-- Tree scenario continued: `threeLevels` followed by `Remove(40)`, which
coalesces leaf 2 into leaf 1. -/
def threeLevelsRemove40 : Option (List Bool × BPlusTree) :=
  BPlusTree.run 6 (BPlusTree.new 4 4)
    (BPlusTree.inserts [10, 20, 30, 40, 50, 60, 70, 80, 90, 100, 110] ++ BPlusTree.removes [40])

/-- Tree scenario: `leaf_max_size = 2`; insert 1, 2 and 3: the root (page 3) has
the leaves 1 `[1]` and 2 `[2, 3]`. -/
def splitLeafOfTwo : Option (List Bool × BPlusTree) :=
  BPlusTree.run 6 (BPlusTree.new 2 3) (BPlusTree.inserts [1, 2, 3])

/-- Tree scenario continued: `splitLeafOfTwo` followed by `Remove(1)`. -/
def splitLeafOfTwoRemove1 : Option (List Bool × BPlusTree) :=
  BPlusTree.run 6 (BPlusTree.new 2 3) (BPlusTree.inserts [1, 2, 3] ++ BPlusTree.removes [1])

/-- Tree scenario: a single insert and the removal of that key; the leaf is the root. -/
def rootLeafEmptied : Option (List Bool × BPlusTree) :=
  BPlusTree.run 6 (BPlusTree.new 2 3) (BPlusTree.inserts [1] ++ BPlusTree.removes [1])

end bustub
namespace bustub

/-! ## States of the leaf-split scenario (`leaf_max_size = 3`) -/

/-- A leaf of the scenario: maximum size 3, key `k` stored with the value `k + 100`. -/
def scenarioLeaf (page_id parent_id next_id : page_id_t) (keys : List KeyType) : BPlusTreePage :=
  BPlusTreePage.leaf
    { page_id := page_id, parent_page_id := parent_id, next_page_id := next_id, max_size := 3,
      array := keys.map (fun k => (k, k + 100)) }

/-- The root of the scenario: the internal page 3 with maximum size `m`. -/
def scenarioRoot (m : Nat) (entries : List (KeyType × page_id_t)) : BPlusTreePage :=
  BPlusTreePage.internal
    { page_id := 3, parent_page_id := INVALID_PAGE_ID, max_size := m, array := entries }

/-- The tree whose root is the single leaf 1 holding `keys`. -/
def rootLeafTree (m : Nat) (keys : List KeyType) : BPlusTree :=
  { root_page_id := 1, leaf_max_size := 3, internal_max_size := m,
    pages := [(1, scenarioLeaf 1 INVALID_PAGE_ID INVALID_PAGE_ID keys)], next_page_id := 2 }

/-- After the inserts of 10, 20, 30, 40: root 3 with the single separator 30
over the leaves 1 `[10, 20]` and 2 `[30, 40]`, linked by `next`. -/
def afterFourInserts (m : Nat) : BPlusTree :=
  { root_page_id := 3, leaf_max_size := 3, internal_max_size := m,
    pages := [(1, scenarioLeaf 1 3 2 [10, 20]), (2, scenarioLeaf 2 3 INVALID_PAGE_ID [30, 40]),
              (3, scenarioRoot m [(0, 1), (30, 2)])],
    next_page_id := 4 }

/-- After the further insert of 25: leaf 1 holds `[10, 20, 25]`. -/
def afterFiveInserts (m : Nat) : BPlusTree :=
  { root_page_id := 3, leaf_max_size := 3, internal_max_size := m,
    pages := [(2, scenarioLeaf 2 3 INVALID_PAGE_ID [30, 40]),
              (3, scenarioRoot m [(0, 1), (30, 2)]), (1, scenarioLeaf 1 3 2 [10, 20, 25])],
    next_page_id := 4 }

/-- During the insert of 28: leaf 1 has been split into the leaves 1 and 4, and
the separator 25 has not yet been inserted into the parent. -/
def duringSecondSplit (m : Nat) : BPlusTree :=
  { root_page_id := 3, leaf_max_size := 3, internal_max_size := m,
    pages := [(2, scenarioLeaf 2 3 INVALID_PAGE_ID [30, 40]),
              (3, scenarioRoot m [(0, 1), (30, 2)]), (1, scenarioLeaf 1 3 4 [10, 20]),
              (4, scenarioLeaf 4 3 INVALID_PAGE_ID [25, 28])],
    next_page_id := 5 }

/-- After the further insert of 28 (second split): the leaves 1 `[10, 20]`,
4 `[25, 28]` and 2 `[30, 40]` under the separators 25 and 30. -/
def afterSixInserts (m : Nat) : BPlusTree :=
  { root_page_id := 3, leaf_max_size := 3, internal_max_size := m,
    pages := [(2, scenarioLeaf 2 3 INVALID_PAGE_ID [30, 40]), (1, scenarioLeaf 1 3 4 [10, 20]),
              (4, scenarioLeaf 4 3 INVALID_PAGE_ID [25, 28]),
              (3, scenarioRoot m [(0, 1), (25, 4), (30, 2)])],
    next_page_id := 5 }

/-- After `Remove(30)`: leaf 2 is gone, leaf 4 holds `[25, 28, 40]`, and the
root has the single separator 25. -/
def afterRemove30 (m : Nat) : BPlusTree :=
  { root_page_id := 3, leaf_max_size := 3, internal_max_size := m,
    pages := [(1, scenarioLeaf 1 3 4 [10, 20]), (4, scenarioLeaf 4 3 INVALID_PAGE_ID [25, 28, 40]),
              (3, scenarioRoot m [(0, 1), (25, 4)])],
    next_page_id := 5 }

end bustub

namespace bustub

/-! ## Buffer pool calls and latch calls of the read paths of the tree -/

/-- A call that the iterator makes on the buffer pool: `FetchPage(p)` pins the
page, `UnpinPage(p, false)` releases one pin. -/
inductive PinEvent where
  | fetch (p : page_id_t)
  | unpin (p : page_id_t)
deriving DecidableEq

/-- The pins still held on page `p` after the calls `events`: the number of
`FetchPage(p)` calls minus the number of `UnpinPage(p)` calls. -/
def pinBalance (p : page_id_t) (events : List PinEvent) : Int :=
  (events.count (PinEvent.fetch p) : Int) - (events.count (PinEvent.unpin p) : Int)

/-- A latch call on the page `p`. -/
inductive LatchEvent where
  | RLatch (p : page_id_t)
  | RUnlatch (p : page_id_t)
  | WLatch (p : page_id_t)
  | WUnlatch (p : page_id_t)
deriving DecidableEq

/-- The number of latches held after the latch calls `events`. -/
def latchesHeld : List LatchEvent → Int
  | [] => 0
  | LatchEvent.RLatch _ :: rest => latchesHeld rest + 1
  | LatchEvent.WLatch _ :: rest => latchesHeld rest + 1
  | LatchEvent.RUnlatch _ :: rest => latchesHeld rest - 1
  | LatchEvent.WUnlatch _ :: rest => latchesHeld rest - 1

namespace BPlusTree

/-- The `while (!lookup_node->IsLeafPage())` loop of `Begin()` together with
its buffer pool calls; the page `p` is fetched on entry, and an internal page
is unpinned before its child 0 is fetched. -/
def leftmostLeafPins : Nat → BPlusTree → page_id_t → Option (BPlusTreeLeafPage × List PinEvent)
  | 0, _, _ => none
  | fuel + 1, t, p =>
    match t.FetchPage p with
    | none => none
    | some (BPlusTreePage.leaf l) => some (l, [PinEvent.fetch p])
    | some (BPlusTreePage.internal n) =>
      (leftmostLeafPins fuel t (n.ValueAt 0)).map
        (fun r => (r.1, PinEvent.fetch p :: PinEvent.unpin p :: r.2))

/-- `Begin()` together with its buffer pool calls. -/
def BeginPins (fuel : Nat) (t : BPlusTree) : Option (IndexIterator × List PinEvent) :=
  if t.IsEmpty then some (End, [])
  else
    match leftmostLeafPins fuel t t.root_page_id with
    | none => none
    | some (leaf_node, events) =>
      some ({ leaf_page := some leaf_node.page_id, key_index := 0 }, events)

/-- The `while (!lookup_node->IsLeafPage())` loop of `GetValue` together with
its latch calls; the page `p` has been fetched and latched on entry. The result
is the leaf, the page-id under which it was fetched and the latch calls. -/
def GetValueDescent : Nat → BPlusTree → page_id_t → KeyType →
    Option (BPlusTreeLeafPage × page_id_t × List LatchEvent)
  | 0, _, _, _ => none
  | fuel + 1, t, p, key =>
    match t.FetchPage p with
    | none => none
    | some (BPlusTreePage.leaf l) => some (l, p, [])
    | some (BPlusTreePage.internal n) =>
      (GetValueDescent fuel t (n.Lookup key) key).map
        (fun r => (r.1, r.2.1,
          LatchEvent.RUnlatch p :: LatchEvent.RLatch (n.Lookup key) :: r.2.2))

/-- `GetValue` together with the latch calls it makes, in program order. -/
def GetValueLatches (fuel : Nat) (t : BPlusTree) (key : KeyType) (result : List ValueType) :
    Option ((Bool × List ValueType) × List LatchEvent) :=
  if t.IsEmpty then some ((false, result), [])
  else
    match GetValueDescent fuel t t.root_page_id key with
    | none => none
    | some (leaf_node, lookup_page_id, events) =>
      let trace := LatchEvent.RLatch t.root_page_id :: events ++ [LatchEvent.RUnlatch lookup_page_id]
      match leaf_node.Lookup key with
      | some value => some ((true, result ++ [value]), trace)
      | none => some ((false, result), trace)

end BPlusTree

namespace IndexIterator

/-- `operator++` together with its buffer pool calls. -/
def nextPins (t : BPlusTree) (it : IndexIterator) : Option (IndexIterator × List PinEvent) :=
  match it.leaf_page with
  | none => some (it, [])
  | some p =>
    match t.FetchPage p with
    | some (BPlusTreePage.leaf l) =>
      let key_index := it.key_index + 1
      if key_index ≥ l.GetSize then
        if l.next_page_id = INVALID_PAGE_ID then some ({ leaf_page := none, key_index := 0 }, [])
        else
          match t.FetchPage l.next_page_id with
          | some (BPlusTreePage.leaf l2) =>
            some ({ leaf_page := some l2.page_id, key_index := 0 },
              [PinEvent.fetch l.next_page_id, PinEvent.unpin l.page_id])
          | _ => none
      else some ({ it with key_index := key_index }, [])
    | _ => none

/-- The destructor `~IndexIterator` with its buffer pool calls. -/
def destroyPins (t : BPlusTree) (it : IndexIterator) : Option (List PinEvent) :=
  match it.leaf_page with
  | none => some []
  | some p =>
    match t.FetchPage p with
    | some (BPlusTreePage.leaf l) =>
      if l.page_id ≠ INVALID_PAGE_ID then some [PinEvent.unpin l.page_id] else some []
    | _ => none

/-- Apply `operator++` `n` times, collecting the buffer pool calls. -/
def advancePins : Nat → BPlusTree → IndexIterator → Option (IndexIterator × List PinEvent)
  | 0, _, it => some (it, [])
  | n + 1, t, it =>
    match it.nextPins t with
    | none => none
    | some (it1, events) => (advancePins n t it1).map (fun r => (r.1, events ++ r.2))

end IndexIterator

namespace BPlusTree

/-- The buffer pool calls over the life of an iterator: `Begin()`, `n`
increments, destruction. -/
def iteratorLife (fuel n : Nat) (t : BPlusTree) : Option (List PinEvent) :=
  match BeginPins fuel t with
  | none => none
  | some (it, events) =>
    match IndexIterator.advancePins n t it with
    | none => none
    | some (it1, events1) => (it1.destroyPins t).map (fun events2 => events ++ events1 ++ events2)

/-- The keys visited by `for (it = Begin(); !it.IsEnd(); ++it)`, at most `fuel`
of them, starting from the iterator `it`. -/
def collectIsEnd : Nat → BPlusTree → IndexIterator → Option (List KeyType)
  | 0, _, _ => none
  | fuel + 1, t, it =>
    match it.IsEnd t with
    | none => none
    | some true => some []
    | some false =>
      match it.deref t, it.next t with
      | some kv, some it1 => (collectIsEnd fuel t it1).map (fun ks => kv.1 :: ks)
      | _, _ => none

/-- All keys enumerated by the loop that tests `IsEnd()`. -/
def keysIsEnd (fuel : Nat) (t : BPlusTree) : Option (List KeyType) :=
  match Begin fuel t with
  | none => none
  | some it => collectIsEnd fuel t it

/-- The keys of all leaves below page `p` in child order, one level per unit
of fuel (the keys that are stored, whether or not the leaf chain reaches them). -/
def storedKeys : Nat → BPlusTree → page_id_t → List KeyType
  | 0, _, _ => []
  | fuel + 1, t, p =>
    match t.FetchPage p with
    | some (BPlusTreePage.leaf l) => l.array.map (fun e => e.1)
    | some (BPlusTreePage.internal n) => ((children n).map (fun c => storedKeys fuel t c)).flatten
    | none => []

/-- The separator invariant in the words of the specification: for every
internal page reachable from the root and every index `i ≥ 1`, `key[i]` is the
leftmost key of the subtree under `child[i]`. -/
def separatorsOK (fuel : Nat) (t : BPlusTree) : Bool :=
  (match t.FetchPage t.root_page_id with
   | some pg => pg :: descendants fuel t t.root_page_id
   | none => []).all (fun pg =>
    match pg with
    | BPlusTreePage.leaf _ => true
    | BPlusTreePage.internal n =>
      n.array.tail.all (fun e => (storedKeys fuel t e.2).head? == some e.1))

end BPlusTree

/-! ## Scenarios for the iterator and the leaf chain (`leaf_max_size = 3`) -/

/-- Tree scenario: a single key, the root is the leaf 1 `[10]`. -/
def oneKey : Option (List Bool × BPlusTree) :=
  BPlusTree.run 6 (BPlusTree.new 3 3) (BPlusTree.inserts [10])

/-- Tree scenario: insert 10, 20, 30, 40; the root (page 3) has the separator 30
over the leaves 1 `[10, 20]` and 2 `[30, 40]`. -/
def fourKeys : Option (List Bool × BPlusTree) :=
  BPlusTree.run 6 (BPlusTree.new 3 3) (BPlusTree.inserts [10, 20, 30, 40])

/-- Tree scenario: insert 10, 20, 30, 40, 50; the leaves are 1 `[10, 20]` and
2 `[30, 40, 50]`. -/
def fiveKeys : Option (List Bool × BPlusTree) :=
  BPlusTree.run 6 (BPlusTree.new 3 3) (BPlusTree.inserts [10, 20, 30, 40, 50])

/-- Tree scenario continued: `fiveKeys` followed by `Remove(10)`; leaf 1 has no
left sibling and borrows the first entry of its right sibling, leaf 2. -/
def fiveKeysRemove10 : Option (List Bool × BPlusTree) :=
  BPlusTree.run 6 (BPlusTree.new 3 3)
    (BPlusTree.inserts [10, 20, 30, 40, 50] ++ BPlusTree.removes [10])

/-- Tree scenario: insert 10, 20, 30, 40, 25 and remove 40; leaf 2 borrows the
last entry of its left sibling, leaf 1. -/
def borrowedFromLeft : Option (List Bool × BPlusTree) :=
  BPlusTree.run 6 (BPlusTree.new 3 3)
    (BPlusTree.inserts [10, 20, 30, 40, 25] ++ BPlusTree.removes [40])

/-- Tree scenario: the keys 40, 30, 20, 10 inserted in descending order; the
leaves are 1 `[10, 20, 30]` and 2 `[40]`, and leaf 1 is full. -/
def descendingFour : Option (List Bool × BPlusTree) :=
  BPlusTree.run 6 (BPlusTree.new 3 3) (BPlusTree.inserts [40, 30, 20, 10])

/-- Tree scenario continued: `descendingFour` followed by the insert of 5, which
splits leaf 1, a leaf that is not the last one of the chain. -/
def descendingFive : Option (List Bool × BPlusTree) :=
  BPlusTree.run 6 (BPlusTree.new 3 3) (BPlusTree.inserts [40, 30, 20, 10, 5])

end bustub

namespace bustub

namespace ExtendibleHashTable

/-- The directory indices that one iteration of the split loop of `Insert`
passes to `SetBucketPageId` and `IncrLocalDepth` for the key `key`:
`bucket_idx` and `bucket_idx + (1 << (GetGlobalDepth() - 1))`, the global depth
being read after the directory has been doubled when that was necessary. The
third component is the size of the directory, `2^global_depth`, at the time of
these calls. -/
def splitIndices (h : ExtendibleHashTable) (key : Int) : Nat × Nat × Nat :=
  let bucket_idx := h.KeyToDirectoryIndex key h.dir
  let dir1 :=
    if h.dir.GetLocalDepth bucket_idx = h.dir.GetGlobalDepth then
      doubleDirectory h.dir.IncrGlobalDepth
    else h.dir
  (bucket_idx, bucket_idx + (1 <<< (dir1.GetGlobalDepth - 1)), dir1.Size)

/-- The slots of the directory that reference the bucket page `p`. -/
def slotsOf (h : ExtendibleHashTable) (p : page_id_t) : List Nat :=
  (List.range h.dir.Size).filter (fun i => h.dir.GetBucketPageId i == p)

end ExtendibleHashTable

/-- Hash scenario: bucket capacity 2, identity hash; after the inserts of 0, 2,
4, 1, 3 the table has global depth 2, the slots 0 and 2 reference the pages 4
and 5 at local depth 2, and the slots 1 and 3 both reference page 3, a full
bucket of local depth 1. -/
def fiveInserted : Option (List Bool × ExtendibleHashTable) :=
  ExtendibleHashTable.insertAll 8 identityTable [(0, 100), (2, 102), (4, 104), (1, 101), (3, 103)]

/-- Hash scenario: after `Insert(0)`, `Insert(2)`, `Remove(2)`, `Insert(4)` the
table has global depth 1; slot 0 references page 2, which holds the pairs of the
keys 0 and 4, and slot 1 references page 3, a bucket that was never used. -/
def rightBucketUnused : Option (List Bool × ExtendibleHashTable) :=
  ExtendibleHashTable.run 8 identityTable
    [ExtendibleHashTable.Op.insert 0 100, ExtendibleHashTable.Op.insert 2 102,
     ExtendibleHashTable.Op.remove 2 102, ExtendibleHashTable.Op.insert 4 104]

end bustub

namespace bustub

/-! ## Lock manager (`src/concurrency/lock_manager.cpp`) -/

abbrev txn_id_t := Int

/-- `TransactionState`. -/
inductive TransactionState where
  | GROWING
  | SHRINKING
  | COMMITTED
  | ABORTED
deriving DecidableEq

/-- `IsolationLevel`. -/
inductive IsolationLevel where
  | READ_UNCOMMITTED
  | REPEATABLE_READ
  | READ_COMMITTED
deriving DecidableEq

/-- `LockMode`. -/
inductive LockMode where
  | SHARED
  | EXCLUSIVE
deriving DecidableEq

/-- A record identifier: page-id and slot number. -/
structure RID where
  page_id : page_id_t
  slot_num : Nat
deriving DecidableEq

/-- Modelled from the spec: the part of a `Transaction` that the lock manager
reads and writes through `GetState`/`SetState`, `GetIsolationLevel`,
`GetSharedLockSet` and `GetExclusiveLockSet` (the class is not part of the
sources at hand). A lock set is the list of its members. -/
structure Transaction where
  state : TransactionState
  isolation_level : IsolationLevel
  shared_lock_set : List RID
  exclusive_lock_set : List RID
deriving DecidableEq

/-- `LockRequest`: a freshly constructed request is not granted. -/
structure LockRequest where
  txn_id : txn_id_t
  lock_mode : LockMode
  granted : Bool
deriving DecidableEq

/-- State of the `LockManager`: the request queue of every record (`lock_table_`;
a record without an entry has the empty queue, which is what `lock_table_[rid]`
creates) and the transactions by id. Modelled from the spec:
`TransactionManager::GetTransaction(txn_id)` is the lookup in `txns`, and the
`Transaction *` passed to a call is the transaction registered under its id. -/
structure LockManager where
  lock_table : RID → List LockRequest
  txns : txn_id_t → Transaction

/-- `emplace` on a lock set. -/
def lockSetEmplace (l : List RID) (rid : RID) : List RID := if rid ∈ l then l else l ++ [rid]

/-- `erase` on a lock set. -/
def lockSetErase (l : List RID) (rid : RID) : List RID := l.filter (fun r => r != rid)

namespace LockManager

/-- Apply `f` to the transaction with id `t`. -/
def updateTxn (s : LockManager) (t : txn_id_t) (f : Transaction → Transaction) : LockManager :=
  { s with txns := fun j => if j = t then f (s.txns j) else s.txns j }

/-- Replace the request queue of the record `rid`. -/
def setQueue (s : LockManager) (rid : RID) (q : List LockRequest) : LockManager :=
  { s with lock_table := fun r => if r = rid then q else s.lock_table r }

/-- `SetState` on the transaction with id `t`. -/
def SetState (s : LockManager) (t : txn_id_t) (st : TransactionState) : LockManager :=
  s.updateTxn t (fun x => { x with state := st })

/-- The loop over the request queue of `rid` shared by the three lock calls:
every request selected by `sel` loses `granted_` and its transaction is set to
`ABORTED`. -/
def killRequests (sel : LockRequest → Bool) (s : LockManager) (rid : RID) : LockManager :=
  (s.lock_table rid).foldl
    (fun acc lr => if sel lr then acc.SetState lr.txn_id TransactionState.ABORTED else acc)
    (s.setQueue rid
      ((s.lock_table rid).map (fun lr => if sel lr then { lr with granted := false } else lr)))

/-- `ExistExclusive`. -/
def ExistExclusive (s : LockManager) (rid : RID) : Bool :=
  (s.lock_table rid).any (fun lr => lr.lock_mode == LockMode.EXCLUSIVE && lr.granted)

/-- `LockShared`. -/
def LockShared (s : LockManager) (t : txn_id_t) (rid : RID) : Bool × LockManager :=
  if (s.txns t).state ≠ TransactionState.GROWING then
    (false, s.SetState t TransactionState.ABORTED)
  else if (s.txns t).isolation_level = IsolationLevel.REPEATABLE_READ then
    let s1 := killRequests (fun lr => lr.lock_mode == LockMode.EXCLUSIVE && lr.granted) s rid
    let lr : LockRequest := { txn_id := t, lock_mode := LockMode.SHARED, granted := true }
    let s2 := s1.setQueue rid (s1.lock_table rid ++ [lr])
    (true, s2.updateTxn t (fun x => { x with shared_lock_set := lockSetEmplace x.shared_lock_set rid }))
  else (true, s)

/-- `LockExclusive`. -/
def LockExclusive (s : LockManager) (t : txn_id_t) (rid : RID) : Bool × LockManager :=
  if (s.txns t).state ≠ TransactionState.GROWING then
    (false, s.SetState t TransactionState.ABORTED)
  else if (s.txns t).isolation_level = IsolationLevel.REPEATABLE_READ then
    let s1 := killRequests (fun lr => lr.granted) s rid
    let lr : LockRequest := { txn_id := t, lock_mode := LockMode.EXCLUSIVE, granted := true }
    let s2 := s1.setQueue rid (s1.lock_table rid ++ [lr])
    (true, s2.updateTxn t
      (fun x => { x with exclusive_lock_set := lockSetEmplace x.exclusive_lock_set rid }))
  else (true, s)

/-- `LockUpgrade`. -/
def LockUpgrade (s : LockManager) (t : txn_id_t) (rid : RID) : Bool × LockManager :=
  if (s.txns t).state ≠ TransactionState.GROWING then
    (false, s.SetState t TransactionState.ABORTED)
  else if (s.txns t).isolation_level = IsolationLevel.REPEATABLE_READ then
    let s0 := s.setQueue rid ((s.lock_table rid).filter (fun lr => !(lr.txn_id == t)))
    let s1 := killRequests (fun lr => lr.granted) s0 rid
    let lr : LockRequest := { txn_id := t, lock_mode := LockMode.EXCLUSIVE, granted := true }
    let s2 := s1.setQueue rid (s1.lock_table rid ++ [lr])
    (true, s2.updateTxn t
      (fun x => { x with shared_lock_set := lockSetErase x.shared_lock_set rid
                         exclusive_lock_set :=
                           lockSetEmplace x.exclusive_lock_set rid }))
  else (true, s)

/-- `Unlock`. -/
def Unlock (s : LockManager) (t : txn_id_t) (rid : RID) : Bool × LockManager :=
  let s1 := s.updateTxn t
    (fun x => { x with shared_lock_set := lockSetErase x.shared_lock_set rid
                       exclusive_lock_set := lockSetErase x.exclusive_lock_set rid })
  let s2 :=
    if (s1.txns t).state = TransactionState.GROWING then s1.SetState t TransactionState.SHRINKING
    else s1
  if (s2.txns t).isolation_level = IsolationLevel.REPEATABLE_READ then
    let s3 := s2.setQueue rid ((s2.lock_table rid).filter (fun lr => !(lr.txn_id == t)))
    (true, s3.updateTxn t
      (fun x => { x with shared_lock_set := lockSetErase x.shared_lock_set rid
                         exclusive_lock_set := lockSetErase x.exclusive_lock_set rid }))
  else (true, s2)

/-- A call on the lock manager. -/
inductive Call where
  | lockShared (t : txn_id_t) (rid : RID)
  | lockExclusive (t : txn_id_t) (rid : RID)
  | lockUpgrade (t : txn_id_t) (rid : RID)
  | unlock (t : txn_id_t) (rid : RID)
deriving DecidableEq

/-- Perform one call. -/
def step (s : LockManager) : Call → Bool × LockManager
  | Call.lockShared t rid => s.LockShared t rid
  | Call.lockExclusive t rid => s.LockExclusive t rid
  | Call.lockUpgrade t rid => s.LockUpgrade t rid
  | Call.unlock t rid => s.Unlock t rid

/-- The state after a history of calls. -/
def runCalls : LockManager → List Call → LockManager
  | s, [] => s
  | s, c :: rest => runCalls (s.step c).2 rest

end LockManager

/-- Lock scenario: no request is queued; every transaction is `GROWING` under
`REPEATABLE_READ`, and transaction 1 holds the record (0, 0) in its shared set
and the record (0, 1) in its exclusive set. -/
def lockScenario : LockManager :=
  { lock_table := fun _ => []
    txns := fun t =>
      { state := TransactionState.GROWING, isolation_level := IsolationLevel.REPEATABLE_READ,
        shared_lock_set := if t = 1 then [{ page_id := 0, slot_num := 0 }] else [],
        exclusive_lock_set := if t = 1 then [{ page_id := 0, slot_num := 1 }] else [] } }

end bustub

namespace bustub

/-- The outcome `r` of a lock call made by transaction `t` in the state `s` is a
refusal: the call returns false, `t` is `ABORTED` afterwards, no request queue
has changed, the lock sets of `t` are the same as before and every other
transaction is untouched. -/
def LockManager.refusal (s : LockManager) (t : txn_id_t) (r : Bool × LockManager) : Prop :=
  r.1 = false
  ∧ (r.2.txns t).state = TransactionState.ABORTED
  ∧ r.2.lock_table = s.lock_table
  ∧ (r.2.txns t).shared_lock_set = (s.txns t).shared_lock_set
  ∧ (r.2.txns t).exclusive_lock_set = (s.txns t).exclusive_lock_set
  ∧ ∀ u, u ≠ t → r.2.txns u = s.txns u

/-- Lock scenario: a history of calls made after transaction 1 has released a
lock; it contains calls of transaction 1 itself and of transaction 2. -/
def laterCalls : List LockManager.Call :=
  [LockManager.Call.lockShared 2 { page_id := 0, slot_num := 1 },
   LockManager.Call.unlock 1 { page_id := 0, slot_num := 1 },
   LockManager.Call.lockExclusive 1 { page_id := 0, slot_num := 3 },
   LockManager.Call.lockUpgrade 2 { page_id := 0, slot_num := 1 }]

end bustub
namespace bustub

/-- Tree scenario: `leaf_max_size = 128`; the keys 1 to 100 inserted in
ascending order all sit in the root leaf. -/
def hundredKeys : Option (List Bool × BPlusTree) :=
  BPlusTree.run 4 (BPlusTree.new 128 128)
    (BPlusTree.inserts ((List.range 100).map (fun i => (i : Int) + 1)))

end bustub

namespace bustub

/-- Tree scenario: `leaf_max_size = 3`, `internal_max_size = 3`; the keys 1 to
10 inserted in ascending order. The insert of 8 splits the full internal page 3
and puts the entry of the new leaf 5 into the new internal page 6; the insert of
10 then splits leaf 5. -/
def tenKeys : Option (List Bool × BPlusTree) :=
  BPlusTree.run 8 (BPlusTree.new 3 3) (BPlusTree.inserts [1, 2, 3, 4, 5, 6, 7, 8, 9, 10])

/-- Tree scenario: `tenKeys` without the last insert. -/
def nineKeys : Option (List Bool × BPlusTree) :=
  BPlusTree.run 8 (BPlusTree.new 3 3) (BPlusTree.inserts [1, 2, 3, 4, 5, 6, 7, 8, 9])

/-- Pool of one frame after `fetch(7)`, `unpin(7, false)`, `new_page()`,
`fetch(7)`, a client write of `bytesAB` through the returned `Page *`, and
`unpin(7, true)`: frame 0 carries the page-id 0 handed out by `new_page`, is
dirty and unpinned, and the page table maps only page 7 to it. -/
def dirtyUnmapped : BufferPoolManagerInstance :=
  (((((((pool1.FetchPgImp 7).2.UnpinPgImp 7 false).2.NewPgImp).2.FetchPgImp 7).2.writeData 0
    bytesAB).UnpinPgImp 7 true).2)

end bustub

namespace bustub

namespace BPlusTree

/-- The pages that the descent for `key` from page `p` visits, in order: every
internal page is followed by the child that `Lookup` selects; one page per unit
of fuel. -/
def descentPath : Nat → BPlusTree → page_id_t → KeyType → List page_id_t
  | 0, _, _, _ => []
  | fuel + 1, t, p, key =>
    match t.FetchPage p with
    | none => []
    | some (BPlusTreePage.leaf _) => [p]
    | some (BPlusTreePage.internal n) => p :: descentPath fuel t (n.Lookup key) key

/-- The latch calls of a thread that visits the pages `path` in order and
releases the shared latch on each page before it latches the next one. -/
def handOverTrace : List page_id_t → List LatchEvent
  | [] => []
  | p :: rest => LatchEvent.RLatch p :: LatchEvent.RUnlatch p :: handOverTrace rest

end BPlusTree

end bustub

namespace bustub

/-- Every leaf page kept in the pool carries a valid page-id, holds at least one
entry and is the page stored under its page-id. -/
def BPlusTree.leavesOK (t : BPlusTree) : Bool :=
  t.pages.all (fun e =>
    match e.2 with
    | BPlusTreePage.leaf l =>
      l.page_id != INVALID_PAGE_ID && decide (0 < l.GetSize)
        && (t.FetchPage l.page_id == some (BPlusTreePage.leaf l))
    | BPlusTreePage.internal _ => true)

end bustub

namespace bustub

/-! ## Matrix primer (`src/include/primer/p0_starter.h`)

The templates are instantiated at a signed integer element type `T` of
`elem_bytes` bytes (`int`: 4, `long`: 8); a pointer has `ptr_bytes` bytes. -/

/-- How a call ends: it returns a value, throws an exception, or leaves defined
behaviour (a store outside an allocated block, signed overflow of an `int`). -/
inductive Outcome (α : Type) where
  | returned (a : α)
  | threw
  | undefined
deriving DecidableEq

/-- Sequencing of calls: what follows runs only after a return. -/
def Outcome.bind {α β : Type} (o : Outcome α) (f : α → Outcome β) : Outcome β :=
  match o with
  | Outcome.returned a => f a
  | Outcome.threw => Outcome.threw
  | Outcome.undefined => Outcome.undefined

/-- The value of a signed integer of `bytes` bytes holding `x` modulo
`2^(8 * bytes)`. -/
def wrapSigned (bytes : Nat) (x : Int) : Int :=
  (x + 2 ^ (8 * bytes - 1)) % 2 ^ (8 * bytes) - 2 ^ (8 * bytes - 1)

/-- A `RowMatrix<T>`: `rows_`, `cols_`, the flattened row-major array `linear_`
and the table of row pointers `data_`; a row pointer is the offset of the row
in `linear_`. -/
structure RowMatrix where
  rows_ : Int
  cols_ : Int
  linear_ : List Int
  data_ : List Nat
deriving DecidableEq

namespace RowMatrix

/-- The constructors `Matrix(rows, cols)` and `RowMatrix(rows, cols)`.
`Matrix` throws on a non-positive dimension and allocates `linear_` with
`rows * cols` elements (the product is an `int`; the fresh elements, which the
source leaves uninitialised, read as zero). `RowMatrix` then allocates the
block `new T[rows]`, of `rows * elem_bytes` bytes, casts it to `T **` and
stores the `rows` row pointers `&linear_[i * cols]` in it; the store of
`data_[i]` writes the bytes `i * ptr_bytes` up to `(i + 1) * ptr_bytes` of that
block. -/
def new (elem_bytes ptr_bytes : Nat) (rows cols : Int) : Outcome RowMatrix :=
  if rows ≤ 0 ∨ cols ≤ 0 then Outcome.threw
  else if rows * cols ≥ 2 ^ 31 then Outcome.undefined
  else
    let block_bytes := rows.toNat * elem_bytes
    if (List.range rows.toNat).all (fun i => decide ((i + 1) * ptr_bytes ≤ block_bytes)) then
      Outcome.returned
        { rows_ := rows, cols_ := cols, linear_ := List.replicate (rows * cols).toNat 0,
          data_ := (List.range rows.toNat).map (fun i => i * cols.toNat) }
    else Outcome.undefined

/-- `GetRowCount`. -/
def GetRowCount (m : RowMatrix) : Int := m.rows_

/-- `GetColumnCount`. -/
def GetColumnCount (m : RowMatrix) : Int := m.cols_

/-- `GetElement(i, j)`: throws `OUT_OF_RANGE` for an index outside the
dimensions, otherwise reads `data_[i][j]`. -/
def GetElement (m : RowMatrix) (i j : Int) : Outcome Int :=
  if i < 0 ∨ i ≥ m.GetRowCount ∨ j < 0 ∨ j ≥ m.GetColumnCount then Outcome.threw
  else
    match m.data_[i.toNat]? with
    | none => Outcome.undefined
    | some row =>
      match m.linear_[row + j.toNat]? with
      | none => Outcome.undefined
      | some val => Outcome.returned val

/-- `SetElement(i, j, val)`: throws `OUT_OF_RANGE` for an index outside the
dimensions, otherwise writes `data_[i][j]`. -/
def SetElement (m : RowMatrix) (i j : Int) (val : Int) : Outcome RowMatrix :=
  if i < 0 ∨ i ≥ m.GetRowCount ∨ j < 0 ∨ j ≥ m.GetColumnCount then Outcome.threw
  else
    match m.data_[i.toNat]? with
    | none => Outcome.undefined
    | some row =>
      if row + j.toNat < m.linear_.length then
        Outcome.returned { m with linear_ := m.linear_.set (row + j.toNat) val }
      else Outcome.undefined

end RowMatrix

namespace RowMatrixOperations

/-- The body of the two outer loops of `Multiply`: `entry` starts as
`A[i][0] * B[0][j]` and the loop over `k = 1, ..., cols - 1` adds
`A[i][k] * B[k][j]`, in the arithmetic of the element type. -/
def entryOf (elem_bytes : Nat) (matrixA matrixB : RowMatrix) (i j : Int) : Outcome Int :=
  (matrixA.GetElement i 0).bind (fun a0 =>
    (matrixB.GetElement 0 j).bind (fun b0 =>
      (List.range (matrixA.GetColumnCount.toNat - 1)).foldl
        (fun (acc : Outcome Int) (k1 : Nat) =>
          acc.bind (fun entry =>
            (matrixA.GetElement i ((k1 : Int) + 1)).bind (fun a =>
              (matrixB.GetElement ((k1 : Int) + 1) j).bind (fun b =>
                Outcome.returned
                  (wrapSigned elem_bytes (entry + wrapSigned elem_bytes (a * b)))))))
        (Outcome.returned (wrapSigned elem_bytes (a0 * b0)))))

/-- `Multiply(matrixA, matrixB)`; the value `none` is the null pointer. -/
def Multiply (elem_bytes ptr_bytes : Nat) (matrixA matrixB : RowMatrix) :
    Outcome (Option RowMatrix) :=
  if matrixA.GetColumnCount ≠ matrixB.GetRowCount then Outcome.returned none
  else
    (RowMatrix.new elem_bytes ptr_bytes matrixA.GetRowCount matrixB.GetColumnCount).bind
      (fun matrix_c0 =>
        ((List.range matrixA.GetRowCount.toNat).foldl
          (fun (acc : Outcome RowMatrix) (i : Nat) =>
            (List.range matrixB.GetColumnCount.toNat).foldl
              (fun (acc : Outcome RowMatrix) (j : Nat) =>
                acc.bind (fun c =>
                  (entryOf elem_bytes matrixA matrixB (i : Int) (j : Int)).bind (fun entry =>
                    c.SetElement (i : Int) (j : Int) entry)))
              acc)
          (Outcome.returned matrix_c0)).bind (fun matrix_c => Outcome.returned (some matrix_c)))

end RowMatrixOperations

/-- Matrix scenario: the 4 x 1 matrix with the rows `[1]`, `[2]`, `[3]`, `[4]`. -/
def matrix41 : RowMatrix :=
  { rows_ := 4, cols_ := 1, linear_ := [1, 2, 3, 4], data_ := [0, 1, 2, 3] }

/-- Matrix scenario: the 1 x 1 matrix `[2]`. -/
def matrix11 : RowMatrix := { rows_ := 1, cols_ := 1, linear_ := [2], data_ := [0] }

/-- Matrix scenario: the 2 x 3 matrix with the rows `[1, 2, 3]` and `[4, 5, 6]`. -/
def matrix23 : RowMatrix :=
  { rows_ := 2, cols_ := 3, linear_ := [1, 2, 3, 4, 5, 6], data_ := [0, 3] }

/-- Matrix scenario: the 3 x 2 matrix with the rows `[7, 8]`, `[9, 10]` and
`[11, 12]`. -/
def matrix32 : RowMatrix :=
  { rows_ := 3, cols_ := 2, linear_ := [7, 8, 9, 10, 11, 12], data_ := [0, 2, 4] }

end bustub

/-! # Theorems -/

namespace bustub

/-! ## Buffer pool manager -/

/-- Claim C1 fails on the code. On a fresh pool of two frames `new_page` returns
page 0 in frame 0 with a zeroed, clean frame, but the frame is left with
pin-count 0 (not 1) and the page table has no entry for page 0: a following
`unpin(0, false)` returns false and a following `fetch(0)` loads page 0 into
frame 1 instead of returning frame 0. -/
theorem NewPgImp_leaves_page_unpinned_and_unmapped :
    pool2.NewPgImp.1 = some (0, 0)
    ∧ (pool2.NewPgImp.2.frame 0).page_id = 0
    ∧ (pool2.NewPgImp.2.frame 0).is_dirty = false
    ∧ (pool2.NewPgImp.2.frame 0).data = [0, 0, 0, 0]
    ∧ (pool2.NewPgImp.2.frame 0).pin_count = 0
    ∧ pool2.NewPgImp.2.page_table.find 0 = none
    ∧ (pool2.NewPgImp.2.UnpinPgImp 0 false).1 = false
    ∧ (pool2.NewPgImp.2.FetchPgImp 0).1 = some 1 := by
  decide

/-- Claim C2 fails on the code. After `fetch(5)`, `unpin(5, false)`, `fetch(5)`
on a pool of one frame, the only frame is pinned (pin-count 1) yet it is still
tracked by the replacer, because `fetch` pins the page-id 5 instead of the
frame-id 0. `fetch(7)` for the non-resident page 7 then returns frame 0
(not `none`), evicting the pinned page 5, and `new_page` likewise takes the
pinned frame. -/
theorem pinned_frame_is_evicted :
    pinnedAgain.pages.map (fun p => p.pin_count) = [1]
    ∧ pinnedAgain.page_table.find 7 = none
    ∧ pinnedAgain.free_list = []
    ∧ pinnedAgain.replacer.unpinned_list = [0]
    ∧ (pinnedAgain.FetchPgImp 7).1 = some 0
    ∧ ((pinnedAgain.FetchPgImp 7).2.frame 0).page_id = 7
    ∧ (pinnedAgain.FetchPgImp 7).2.page_table.find 5 = none
    ∧ pinnedAgain.NewPgImp.1 = some (0, 0)
    ∧ (pinnedAgain.NewPgImp.2.frame 0).page_id = 0 := by
  decide

/-- Claim C3 fails on the code. Page 0 comes from `new_page`, the client writes
`bytesAB` and the page ends up unpinned and dirty in frame 0. The next
`new_page` reuses frame 0 for page 1 without writing page 0 back (the disk
image of page 0 is still zero), and the following `fetch(0)` succeeds and
returns a frame whose bytes are zero, not `bytesAB`. -/
theorem dirty_page_lost_when_new_page_evicts :
    pool1.NewPgImp.1 = some (0, 0)
    ∧ (dirtyZero.frame 0).page_id = 0
    ∧ (dirtyZero.frame 0).data = bytesAB
    ∧ (dirtyZero.frame 0).is_dirty = true
    ∧ (dirtyZero.frame 0).pin_count = 0
    ∧ dirtyZero.NewPgImp.1 = some (1, 0)
    ∧ dirtyZero.NewPgImp.2.disk_manager.ReadPage 0 = [0, 0, 0, 0]
    ∧ (dirtyZero.NewPgImp.2.FetchPgImp 0).1 = some 0
    ∧ ((dirtyZero.NewPgImp.2.FetchPgImp 0).2.frame 0).data = [0, 0, 0, 0] := by
  decide

/-- Claim C8 fails on the code. On a fresh pool of two frames `new_page` puts
page 0 in frame 0; `fetch(0)` issued while page 0 is still in frame 0 loads it
into frame 1, so two distinct frames hold page-id 0. -/
theorem fetch_after_new_page_duplicates_page :
    pool2.NewPgImp.1 = some (0, 0)
    ∧ (pool2.NewPgImp.2.FetchPgImp 0).1 = some 1
    ∧ ((pool2.NewPgImp.2.FetchPgImp 0).2.frame 0).page_id = 0
    ∧ ((pool2.NewPgImp.2.FetchPgImp 0).2.frame 1).page_id = 0 := by
  decide

/-- Claim C9 fails on the code. Page 5 is resident with pin-count 1 and its
dirty flag set; `unpin(5, false)` returns true and leaves pin-count 0, but it
overwrites the dirty flag with false instead of keeping it set. -/
theorem unpin_false_clears_dirty_flag :
    dirtyPinned.page_table.find 5 = some 0
    ∧ (dirtyPinned.frame 0).pin_count = 1
    ∧ (dirtyPinned.frame 0).is_dirty = true
    ∧ (dirtyPinned.UnpinPgImp 5 false).1 = true
    ∧ ((dirtyPinned.UnpinPgImp 5 false).2.frame 0).pin_count = 0
    ∧ ((dirtyPinned.UnpinPgImp 5 false).2.frame 0).is_dirty = false := by
  decide

/-- Claim C10 fails on the code. Page 7 is resident in frame 0 with pin-count 1
and page 3 is not resident; `unpin(3, false)` returns true, decrements the
pin-count of the frame of page 7 to 0, adds the page-table entry 3 ↦ 0 and hands
frame 0 to the replacer. -/
theorem unpin_of_absent_page_unpins_frame_zero :
    sevenPinned.page_table = [(7, 0)]
    ∧ (sevenPinned.frame 0).pin_count = 1
    ∧ sevenPinned.page_table.find 3 = none
    ∧ (sevenPinned.UnpinPgImp 3 false).1 = true
    ∧ ((sevenPinned.UnpinPgImp 3 false).2.frame 0).page_id = 7
    ∧ ((sevenPinned.UnpinPgImp 3 false).2.frame 0).pin_count = 0
    ∧ (sevenPinned.UnpinPgImp 3 false).2.page_table = [(7, 0), (3, 0)]
    ∧ (sevenPinned.UnpinPgImp 3 false).2.replacer.unpinned_list = [0] := by
  decide

/-! ## Extendible hash table -/

/-- Claim C7 fails on the code. With bucket capacity 2 and the identity hash,
the six distinct pairs of `sixPairs` are all inserted successfully; the last
insert splits a bucket whose local depth (1) is below the global depth (2) and
rewires only slot 3 and the out-of-range slot 5. Slot 1, the slot of key 1,
keeps referencing page 3, which has been deleted, while the pair (1, 101) sits
in page 7; `GetValue(1)` does not return 101. -/
theorem split_below_global_depth_loses_key :
    sixInserted.map (fun r => r.1) = some [true, true, true, true, true, true]
    ∧ sixInserted.map (fun r => r.2.dir.global_depth) = some 2
    ∧ sixInserted.map (fun r => r.2.KeyToDirectoryIndex 1 r.2.dir) = some 1
    ∧ sixInserted.map (fun r => r.2.dir.GetBucketPageId 1) = some 3
    ∧ sixInserted.map (fun r => r.2.buckets.map (fun e => e.1)) = some [5, 4, 7, 6]
    ∧ sixInserted.map (fun r => (r.2.FetchBucketPage 7).map (fun b => b.array))
        = some (some [some (1, 101), none])
    ∧ sixInserted.map (fun r => r.2.dir.GetBucketPageId 5) = some 7
    ∧ sixInserted.bind (fun r => r.2.GetValue 1 []) = none
    ∧ sixInserted.bind (fun r => r.2.GetValue 3 []) = some (true, [103]) := by
  decide

/-! ## B+ tree -/

/-- Claim C4 fails on the code. With `leaf_max_size = 2` the inserts of 10, 20
and 5 all succeed and `GetValue(5)` finds 105; `Remove(20)` then empties the
non-root leaf that holds 20, and the tree is marked empty (`root_page_id`
becomes `INVALID_PAGE_ID`), so `GetValue(5)` and `GetValue(10)` return false
although both keys were inserted and never removed. -/
theorem remove_last_key_of_leaf_empties_tree :
    threeKeys.map (fun r => r.1) = some [true, true, true]
    ∧ threeKeys.bind (fun r => BPlusTree.GetValue 5 r.2 5 []) = some (true, [105])
    ∧ threeKeysRemove20.map (fun r => r.2.root_page_id) = some INVALID_PAGE_ID
    ∧ threeKeysRemove20.bind (fun r => BPlusTree.GetValue 5 r.2 5 []) = some (false, [])
    ∧ threeKeysRemove20.bind (fun r => BPlusTree.GetValue 5 r.2 10 []) = some (false, []) := by
  decide

/-- Claim C5 fails on the code. After inserting 10, 20 and 5 the iteration from
`Begin()` to `End()` yields 5, 10, 20; after `Remove(20)` it yields nothing,
although the keys 5 and 10 are still present (inserted and not removed). -/
theorem iteration_skips_present_keys_after_remove :
    threeKeys.bind (fun r => BPlusTree.keys 5 r.2) = some [5, 10, 20]
    ∧ threeKeysRemove20.bind (fun r => BPlusTree.keys 5 r.2) = some [] := by
  decide

/-- The literal `threeKeysTree` is the state that the history `threeKeys` builds. -/
theorem threeKeys_builds_tree : threeKeys = some ([true, true, true], threeKeysTree) := by
  decide

end bustub


namespace bustub
namespace BPlusTree

/-! ### Page store lemmas -/

theorem find_filter_ne {β : Type} (l : List (page_id_t × β)) (p x : page_id_t) (h : x ≠ p) :
    (l.filter (fun e => e.1 != p)).find? (fun e => e.1 == x) = l.find? (fun e => e.1 == x) := by
  induction l with
  | nil => rfl
  | cons a l ih =>
    by_cases hp : a.1 = p
    · have hx : ¬ a.1 = x := fun hax => h (hax ▸ hp)
      have h1 : (a.1 != p) = false := by simp [hp]
      have h2 : (a.1 == x) = false := by simpa using hx
      rw [List.filter_cons, List.find?_cons]
      simp only [h1, h2, Bool.false_eq_true, if_false]
      exact ih
    · have h1 : (a.1 != p) = true := by simpa using hp
      rw [List.filter_cons, List.find?_cons]
      simp only [h1, if_true]
      rw [List.find?_cons, ih]

theorem find_filter_same {β : Type} (l : List (page_id_t × β)) (p : page_id_t) :
    (l.filter (fun e => e.1 != p)).find? (fun e => e.1 == p) = none := by
  induction l with
  | nil => rfl
  | cons a l ih =>
    by_cases hp : a.1 = p
    · have h1 : (a.1 != p) = false := by simp [hp]
      rw [List.filter_cons]
      simp only [h1, Bool.false_eq_true, if_false]
      exact ih
    · have h1 : (a.1 != p) = true := by simpa using hp
      have h2 : (a.1 == p) = false := by simpa using hp
      rw [List.filter_cons]
      simp only [h1, if_true]
      rw [List.find?_cons]
      simp only [h2, ih]

theorem FetchPage_put_same (t : BPlusTree) (p : page_id_t) (pg : BPlusTreePage) :
    (t.put p pg).FetchPage p = some pg := by
  simp [FetchPage, put, List.find?_append, find_filter_same]

theorem FetchPage_put_ne (t : BPlusTree) (p x : page_id_t) (pg : BPlusTreePage) (h : x ≠ p) :
    (t.put p pg).FetchPage x = t.FetchPage x := by
  have hpx : ¬ p = x := fun e => h e.symm
  simp [FetchPage, put, List.find?_append, find_filter_ne _ _ _ h, hpx]

theorem FetchPage_setParent_ne (t : BPlusTree) (c x par : page_id_t) (h : x ≠ c) :
    (t.setParent c par).FetchPage x = t.FetchPage x := by
  have key : ∀ l : List (page_id_t × BPlusTreePage),
      (l.map (fun e => if e.1 == c then (e.1, e.2.SetParentPageId par) else e)).find?
        (fun e => e.1 == x) = l.find? (fun e => e.1 == x) := by
    intro l
    induction l with
    | nil => rfl
    | cons a l ih =>
      rw [List.map_cons, List.find?_cons, List.find?_cons, ih]
      by_cases hc : a.1 = c
      · have hcx : (c == x) = false := by simpa using fun e : c = x => h e.symm
        simp [hc, hcx]
      · simp [hc]
  simp only [FetchPage, setParent, key]

theorem FetchPage_reparent_notin (cs : List page_id_t) (t : BPlusTree) (x par : page_id_t)
    (h : x ∉ cs) : (t.reparent cs par).FetchPage x = t.FetchPage x := by
  induction cs generalizing t with
  | nil => rfl
  | cons c cs ih =>
    have hc : x ≠ c := fun e => h (e ▸ List.mem_cons_self _ _)
    have hcs : x ∉ cs := fun e => h (List.mem_cons_of_mem _ e)
    show ((t.setParent c par).reparent cs par).FetchPage x = t.FetchPage x
    rw [ih _ hcs, FetchPage_setParent_ne _ _ _ _ hc]

theorem next_page_id_reparent (cs : List page_id_t) (t : BPlusTree) (par : page_id_t) :
    (t.reparent cs par).next_page_id = t.next_page_id := by
  induction cs generalizing t with
  | nil => rfl
  | cons c cs ih =>
    show ((t.setParent c par).reparent cs par).next_page_id = t.next_page_id
    rw [ih]
    rfl

theorem internal_max_size_reparent (cs : List page_id_t) (t : BPlusTree) (par : page_id_t) :
    (t.reparent cs par).internal_max_size = t.internal_max_size := by
  induction cs generalizing t with
  | nil => rfl
  | cons c cs ih =>
    show ((t.setParent c par).reparent cs par).internal_max_size = t.internal_max_size
    rw [ih]
    rfl

/-- Every ancestor of a well-formed path is an allocated page. -/
theorem ancestorsOK_lt (t : BPlusTree) :
    ∀ (chain : List page_id_t) (parent : page_id_t), ancestorsOK t parent chain = true →
      ∀ x ∈ chain, x < t.next_page_id := by
  intro chain
  induction chain with
  | nil => intro _ _ x hx; cases hx
  | cons q rest ih =>
    intro parent h x hx
    unfold ancestorsOK at h
    split at h
    · rename_i n hfetch
      simp only [Bool.and_eq_true, decide_eq_true_eq] at h
      rcases List.mem_cons.mp hx with rfl | hx
      · exact h.1.1.1.1.2
      · exact ih _ h.2 x hx
    · cases h

/-- A well-formed path stays well-formed when none of its pages changes and
the allocation counter does not go back. -/
theorem ancestorsOK_frame (t t2 : BPlusTree) (hnext : t.next_page_id ≤ t2.next_page_id) :
    ∀ (chain : List page_id_t) (parent : page_id_t),
      (∀ x ∈ chain, t2.FetchPage x = t.FetchPage x) →
      ancestorsOK t parent chain = true → ancestorsOK t2 parent chain = true := by
  intro chain
  induction chain with
  | nil => intro parent _ h; simpa [ancestorsOK] using h
  | cons q rest ih =>
    intro parent hsame h
    unfold ancestorsOK at h ⊢
    rw [hsame q (List.mem_cons_self _ _)]
    split at h
    · rename_i n hfetch
      simp only [Bool.and_eq_true, decide_eq_true_eq] at h ⊢
      refine ⟨⟨⟨⟨⟨⟨h.1.1.1.1.1.1, h.1.1.1.1.1.2⟩, lt_of_lt_of_le h.1.1.1.1.2 hnext⟩, h.1.1.1.2⟩,
        h.1.1.2⟩, h.1.2⟩, ?_⟩
      exact ih _ (fun x hx => hsame x (List.mem_cons_of_mem _ hx)) h.2
    · cases h

theorem InsertIntoParent_total :
    ∀ (chain : List page_id_t) (fuel : Nat) (t : BPlusTree) (old_id : page_id_t) (key : KeyType)
      (new_id : page_id_t) (node : BPlusTreePage),
      t.FetchPage old_id = some node →
      ancestorsOK t node.GetParentPageId chain = true →
      chain.length < fuel →
      ∃ t2, InsertIntoParent fuel t old_id key new_id = some t2 := by
  intro chain
  induction chain with
  | nil =>
    intro fuel t old_id key new_id node hfetch hok hfuel
    cases fuel with
    | zero => cases hfuel
    | succ f =>
      have hroot : node.IsRootPage = true := by
        simpa [ancestorsOK, BPlusTreePage.IsRootPage] using hok
      simp [InsertIntoParent, hfetch, hroot]
  | cons q rest ih =>
    intro fuel t old_id key new_id node hfetch hok hfuel
    cases fuel with
    | zero => cases hfuel
    | succ f =>
      unfold ancestorsOK at hok
      split at hok
      · rename_i n hq
        simp only [Bool.and_eq_true, decide_eq_true_eq, beq_iff_eq, bne_iff_ne, ne_eq,
          Bool.not_eq_true, List.all_eq_true] at hok
        obtain ⟨⟨⟨⟨⟨⟨hpar, hqinv⟩, hqlt⟩, hqnotin⟩, hnid⟩, hchild⟩, hrest⟩ := hok
        have hroot : node.IsRootPage = false := by
          simp [BPlusTreePage.IsRootPage, hpar, hqinv]
        have hparent : t.FetchPage node.GetParentPageId = some (BPlusTreePage.internal n) := by
          rw [hpar]; exact hq
        unfold InsertIntoParent
        simp only [hfetch, hroot, hparent]
        by_cases hroom : n.GetSize < n.max_size
        · simp [hroom]
        · simp only [hroom, if_false, Bool.false_eq_true]
          have hnew : n.page_id ≠ t.NewPage.1 := by
            rw [hnid]; exact ne_of_lt hqlt
          have hlt := ancestorsOK_lt t rest _ hrest
          refine ih f _ _ _ _ ?nd ?h1 ?h2 (by simpa using hfuel)
          case h1 => rw [FetchPage_put_ne _ _ _ _ hnew]; exact FetchPage_put_same _ _ _
          case h2 =>
            have hpp : ∀ (c : Bool) (a b : BPlusTreeInternalPage),
                (BPlusTreePage.internal
                  (if c = true then (a.InsertNodeAfter old_id key new_id, b)
                   else (a, b.InsertNodeAfter old_id key new_id)).1).GetParentPageId
                  = a.parent_page_id := by
              intro c a b
              cases c <;> rfl
            rw [hpp]
            apply ancestorsOK_frame t _ _ rest _ _ hrest
            · show t.next_page_id ≤ (t.NewPage.2.reparent _ _).next_page_id
              rw [next_page_id_reparent]
              exact Int.le_add_one (le_refl t.next_page_id)
            · intro x hx
              have hx1 : x ≠ t.NewPage.1 := ne_of_lt (hlt x hx)
              have hx2 : x ≠ n.page_id := by
                rw [hnid]
                intro e
                rw [e] at hx
                simp [hx] at hqnotin
              rw [FetchPage_put_ne _ _ _ _ hx1, FetchPage_put_ne _ _ _ _ hx2,
                FetchPage_reparent_notin]
              · rfl
              · intro hmem
                have hc := hchild x hx
                have : x ∈ children n := by
                  simp only [BPlusTreeInternalPage.MoveHalfTo, BPlusTreeInternalPage.Init,
                    List.nil_append, List.map_drop] at hmem
                  exact List.mem_of_mem_drop hmem
                simp [this] at hc
      · cases hok

theorem leaf_Insert_parent (l : BPlusTreeLeafPage) (k : KeyType) (v : ValueType) :
    (l.Insert k v).parent_page_id = l.parent_page_id := by
  unfold BPlusTreeLeafPage.Insert
  split <;> rfl

/-- Where the descent reaches the key. For every tree state and key `k`: if
`GetValue(k)` finds a value, `Insert(k, v2)` returns false and the whole tree
state (root page-id, every page, hence every later `GetValue`) is unchanged; if
the descent for `k` ends in a leaf that does not hold `k` and the path above
that leaf is well formed and within the fuel, `Insert(k, v2)` returns true. -/
theorem Insert_rejects_duplicate_accepts_new
    (fuel : Nat) (t : BPlusTree) (k : KeyType) (v2 : ValueType) :
    (∀ v, GetValue fuel t k [] = some (true, [v]) → Insert fuel t k v2 = some (false, t)) ∧
    (∀ (leaf : BPlusTreeLeafPage) (chain : List page_id_t),
        FindLeafPage fuel t t.root_page_id k = some leaf → leaf.Lookup k = none →
        ancestorsOK t leaf.parent_page_id chain = true → leaf.page_id ∉ chain →
        chain.length < fuel →
        ∃ t2, Insert fuel t k v2 = some (true, t2)) := by
  constructor
  · intro v h
    unfold GetValue at h
    by_cases hE : t.IsEmpty = true
    · simp [hE] at h
    · simp only [hE, if_false, Bool.false_eq_true] at h
      unfold Insert InsertIntoLeaf
      simp only [hE, if_false, Bool.false_eq_true]
      cases hleaf : FindLeafPage fuel t t.root_page_id k with
      | none => simp [hleaf] at h
      | some leaf =>
        simp only [hleaf] at h ⊢
        cases hl : leaf.Lookup k with
        | none => simp [hl] at h
        | some w => rfl
  · intro leaf chain hleaf hl hok hnot hfuel
    unfold Insert
    by_cases hE : t.IsEmpty = true
    · simp [hE]
    · simp only [hE, if_false, Bool.false_eq_true]
      unfold InsertIntoLeaf
      simp only [hleaf, hl]
      by_cases hroom : leaf.GetSize < leaf.max_size
      · simp [hroom]
      · simp only [hroom, if_false]
        have hlt := ancestorsOK_lt t chain _ hok
        have htot : ∀ (a b : BPlusTreePage), a.GetParentPageId = leaf.parent_page_id →
            b.GetParentPageId = leaf.parent_page_id → ∀ key,
            ∃ t3, InsertIntoParent fuel ((t.NewPage.2.put leaf.page_id a).put t.NewPage.1 b)
              leaf.page_id key t.NewPage.1 = some t3 := by
          intro a b ha hb key
          have hframe : ancestorsOK ((t.NewPage.2.put leaf.page_id a).put t.NewPage.1 b)
              leaf.parent_page_id chain = true := by
            apply ancestorsOK_frame t _ _ chain _ _ hok
            · exact Int.le_add_one (le_refl t.next_page_id)
            · intro x hx
              have hx1 : x ≠ t.NewPage.1 := ne_of_lt (hlt x hx)
              have hx2 : x ≠ leaf.page_id := fun e => hnot (e ▸ hx)
              rw [FetchPage_put_ne _ _ _ _ hx1, FetchPage_put_ne _ _ _ _ hx2]
              rfl
          by_cases hid : leaf.page_id = t.NewPage.1
          · refine InsertIntoParent_total chain fuel _ _ _ _ b ?_ (hb ▸ hframe) hfuel
            rw [hid]; exact FetchPage_put_same _ _ _
          · refine InsertIntoParent_total chain fuel _ _ _ _ a ?_ (ha ▸ hframe) hfuel
            rw [FetchPage_put_ne _ _ _ _ hid]; exact FetchPage_put_same _ _ _
        have hwrap : ∀ o : Option BPlusTree, (∃ t3, o = some t3) →
            ∃ t2, o.map (fun t3 => (true, t3)) = some (true, t2) := by
          intro o ho
          obtain ⟨t3, rfl⟩ := ho
          exact ⟨t3, rfl⟩
        apply hwrap
        apply htot
        · show BPlusTreeLeafPage.parent_page_id _ = leaf.parent_page_id
          split
          · exact leaf_Insert_parent _ _ _
          · rfl
        · show BPlusTreeLeafPage.parent_page_id _ = leaf.parent_page_id
          split
          · rfl
          · exact leaf_Insert_parent _ _ _

/-- An instance on the tree built by inserting 10, 20 and 5 with
`leaf_max_size = 2`: inserting the stored key 10 is rejected and changes
nothing, inserting the new key 7 (which splits the full leaf 1) is accepted. -/
theorem Insert_rejects_duplicate_accepts_new_witness :
    Insert 5 threeKeysTree 10 99 = some (false, threeKeysTree)
    ∧ ∃ t2, Insert 5 threeKeysTree 7 99 = some (true, t2) :=
  ⟨(Insert_rejects_duplicate_accepts_new 5 threeKeysTree 10 99).1 110 (by decide),
   (Insert_rejects_duplicate_accepts_new 5 threeKeysTree 7 99).2 leafOne [3]
     (by decide) (by decide) (by decide) (by decide) (by decide)⟩

end BPlusTree
end bustub

namespace bustub

/-! ## Buffer pool manager: fetch, delete, invariants -/

/-- Claim C11 fails on the code. After `fetch(5)`, `unpin(5, false)` page 5 is
resident in frame 0 and frame 0 is tracked by the replacer. `fetch(5)` returns
frame 0, raises its pin-count from 0 to 1 and leaves bytes and dirty flag
alone, but frame 0 is still tracked by the replacer afterwards: the code pins
the page-id 5 in the replacer, not the frame-id 0. -/
theorem fetch_resident_leaves_frame_tracked :
    fiveUnpinned.map (fun b => b.page_table.find 5) = some (some 0)
    ∧ fiveUnpinned.map (fun b => (b.frame 0).pin_count) = some 0
    ∧ fiveUnpinned.map (fun b => b.replacer.unpinned_list) = some [0]
    ∧ fiveUnpinned.map (fun b => (b.FetchPgImp 5).1) = some (some 0)
    ∧ fiveUnpinned.map (fun b => ((b.FetchPgImp 5).2.frame 0).pin_count) = some 1
    ∧ fiveUnpinned.map (fun b => decide (((b.FetchPgImp 5).2.frame 0).data = (b.frame 0).data))
        = some true
    ∧ fiveUnpinned.map (fun b => ((b.FetchPgImp 5).2.frame 0).is_dirty) = some false
    ∧ fiveUnpinned.map (fun b => (b.FetchPgImp 5).2.replacer.unpinned_list) = some [0] := by
  decide

/-- Claim C13 fails on the code. On a fresh pool page 5 is not resident, and
`delete_page(5)` has no result: the code dereferences the iterator returned by
`page_table_.find` before it tests it against `end()`. The claim says the call
returns true and changes nothing. -/
theorem delete_of_absent_page_has_no_result :
    pool1.page_table.find 5 = none ∧ (pool1.DeletePgImp 5).isNone = true := by
  decide

/-- The two outcomes of `delete_page` for a resident page hold as claimed in
C13: a pinned page is refused without any change; an unpinned page is removed
from the page table, its frame is reset and pushed on the free list. -/
theorem DeletePgImp_resident (b : BufferPoolManagerInstance) (p : page_id_t) (f : frame_id_t)
    (hres : b.page_table.find p = some f) :
    ((b.frame f).pin_count > 0 → b.DeletePgImp p = some (false, b))
    ∧ (¬ (b.frame f).pin_count > 0 →
        ∃ b2, b.DeletePgImp p = some (true, b2)
          ∧ b2.page_table = b.page_table.erase p
          ∧ b2.free_list = f :: b.free_list
          ∧ b2.replacer = b.replacer
          ∧ b2.pages = b.pages.set f.toNat
              { data := (b.frame f).data, page_id := INVALID_PAGE_ID, pin_count := 0,
                is_dirty := false }) := by
  constructor
  · intro h
    simp [BufferPoolManagerInstance.DeletePgImp, hres, h]
  · intro h
    simp only [BufferPoolManagerInstance.DeletePgImp, hres, h, if_false]
    exact ⟨_, rfl, rfl, rfl, rfl, rfl⟩

/-- Claim C15 fails on the code. Two histories on a pool of one frame end with
frame 0 twice in the free list, so the right-hand side of the accounting
equation is 2 while `pool_size` is 1. The first history uses the page-table
entry that `unpin(3, false)` creates for the non-resident page 3; the second
uses only pages the client fetched and relies on `new_page` leaving the entry
of the evicted page 7 in the page table. -/
theorem free_list_holds_frame_twice :
    freedTwice.map (fun b => b.pool_size) = some 1
    ∧ freedTwice.map (fun b => b.free_list) = some [0, 0]
    ∧ freedTwice.map (fun b => b.accounted) = some 2
    ∧ freedTwiceStale.map (fun b => b.pool_size) = some 1
    ∧ freedTwiceStale.map (fun b => b.free_list) = some [0, 0]
    ∧ freedTwiceStale.map (fun b => b.accounted) = some 2 := by
  decide

/-- Claim C16 fails on the code. After `fetch(5)`, `fetch(5)`, `unpin(5, false)`
frame 0 still has pin-count 1 and is tracked by the replacer; after `fetch(5)`,
`unpin(5, false)`, `delete_page(5)` frame 0 holds no page (page-id INVALID) and
is still tracked by the replacer. -/
theorem replacer_tracks_pinned_and_deleted_frames :
    unpinnedOnce.map (fun b => (b.frame 0).pin_count) = some 1
    ∧ unpinnedOnce.map (fun b => b.replacer.unpinned_list) = some [0]
    ∧ deletedFive.map (fun b => (b.frame 0).page_id) = some INVALID_PAGE_ID
    ∧ deletedFive.map (fun b => b.free_list) = some [0]
    ∧ deletedFive.map (fun b => b.replacer.unpinned_list) = some [0] := by
  decide

end bustub

namespace bustub
namespace BufferPoolManagerInstance

/-! ### Page-id allocation -/

theorem NewPgImp_allocator (b : BufferPoolManagerInstance) :
    b.NewPgImp.2.num_instances = b.num_instances
    ∧ (∀ pid f, b.NewPgImp.1 = some (pid, f) →
        pid = b.next_page_id ∧ b.NewPgImp.2.next_page_id = b.next_page_id + b.num_instances)
    ∧ (b.NewPgImp.1 = none → b.NewPgImp.2.next_page_id = b.next_page_id) := by
  unfold NewPgImp
  cases hfl : b.free_list with
  | cons f rest =>
    simp [AllocatePage, setFrame]
  | nil =>
    cases hul : b.replacer.unpinned_list with
    | nil => simp [LRUReplacer.Victim, hul]
    | cons f rest => simp [LRUReplacer.Victim, hul, AllocatePage, setFrame]

theorem FetchPgImp_allocator (b : BufferPoolManagerInstance) (p : page_id_t) :
    (b.FetchPgImp p).2.num_instances = b.num_instances
    ∧ (b.FetchPgImp p).2.next_page_id = b.next_page_id := by
  unfold FetchPgImp
  cases hfind : PageTable.find b.page_table p with
  | some f => simp [setFrame]
  | none =>
    cases hfl : b.free_list with
    | cons f rest =>
      simp only [setFrame, FlushPgImp]
      constructor <;> (repeat' split) <;> rfl
    | nil =>
      cases hul : b.replacer.unpinned_list with
      | nil => simp [LRUReplacer.Victim, hul]
      | cons f rest =>
        simp only [LRUReplacer.Victim, hul, setFrame, FlushPgImp]
        constructor <;> (repeat' split) <;> rfl

theorem step_allocator (b b1 : BufferPoolManagerInstance) (op : PoolOp)
    (hop : op ≠ PoolOp.new_page) (h : b.step op = some b1) :
    b1.num_instances = b.num_instances ∧ b1.next_page_id = b.next_page_id := by
  cases op with
  | new_page => exact absurd rfl hop
  | fetch p =>
    simp only [step, Option.some.injEq] at h
    subst h
    exact FetchPgImp_allocator b p
  | unpin p d =>
    simp only [step, Option.some.injEq] at h
    subst h
    unfold UnpinPgImp
    simp only [setFrame]
    constructor <;> (repeat' split) <;> rfl
  | delete_page p =>
    simp only [step, DeletePgImp] at h
    split at h
    · simp at h
    · split at h
      · simp only [Option.map_some', Option.some.injEq] at h
        subst h
        exact ⟨rfl, rfl⟩
      · simp only [Option.map_some', Option.some.injEq] at h
        subst h
        exact ⟨rfl, rfl⟩
  | flush p =>
    simp only [step, Option.some.injEq] at h
    subst h
    unfold FlushPgImp
    constructor <;> (repeat' split) <;> rfl

theorem allocatedIds_from (ops : List PoolOp) :
    ∀ b : BufferPoolManagerInstance, ∀ i : Nat, i < (allocatedIds b ops).length →
      (allocatedIds b ops)[i]? = some (b.next_page_id + (i : Int) * (b.num_instances : Int)) := by
  induction ops with
  | nil => intro b i hi; simp [allocatedIds] at hi
  | cons op rest ih =>
    intro b i hi
    cases op with
    | new_page =>
      have hN := NewPgImp_allocator b
      unfold allocatedIds at hi ⊢
      cases hr : b.NewPgImp with
      | mk res b1 =>
        rw [hr] at hN
        cases res with
        | none =>
          simp only [hr] at hi ⊢
          rw [ih b1 i hi, hN.2.2 rfl, hN.1]
        | some pf =>
          obtain ⟨pid, f⟩ := pf
          simp only [hr] at hi ⊢
          obtain ⟨hpid, hnext⟩ := hN.2.1 pid f rfl
          cases i with
          | zero => simp [hpid]
          | succ j =>
            have hj : j < (allocatedIds b1 rest).length := by simpa using hi
            rw [List.getElem?_cons_succ, ih b1 j hj, hnext, hN.1]
            congr 1
            push_cast
            ring
    | fetch p =>
      have key : ∀ b1, b.step (PoolOp.fetch p) = some b1 →
          allocatedIds b (PoolOp.fetch p :: rest) = allocatedIds b1 rest := by
        intro b1 h; simp [allocatedIds, h]
      have h1 : b.step (PoolOp.fetch p) = some (b.FetchPgImp p).2 := rfl
      rw [key _ h1] at hi ⊢
      have ha := step_allocator b _ _ (by simp) h1
      rw [ih _ i hi, ha.1, ha.2]
    | unpin p d =>
      have key : ∀ b1, b.step (PoolOp.unpin p d) = some b1 →
          allocatedIds b (PoolOp.unpin p d :: rest) = allocatedIds b1 rest := by
        intro b1 h; simp [allocatedIds, h]
      have h1 : b.step (PoolOp.unpin p d) = some (b.UnpinPgImp p d).2 := rfl
      rw [key _ h1] at hi ⊢
      have ha := step_allocator b _ _ (by simp) h1
      rw [ih _ i hi, ha.1, ha.2]
    | flush p =>
      have key : ∀ b1, b.step (PoolOp.flush p) = some b1 →
          allocatedIds b (PoolOp.flush p :: rest) = allocatedIds b1 rest := by
        intro b1 h; simp [allocatedIds, h]
      have h1 : b.step (PoolOp.flush p) = some (b.FlushPgImp p).2 := rfl
      rw [key _ h1] at hi ⊢
      have ha := step_allocator b _ _ (by simp) h1
      rw [ih _ i hi, ha.1, ha.2]
    | delete_page p =>
      cases h1 : b.step (PoolOp.delete_page p) with
      | none => simp [allocatedIds, h1] at hi
      | some b1 =>
        have key : allocatedIds b (PoolOp.delete_page p :: rest) = allocatedIds b1 rest := by
          simp [allocatedIds, h1]
        rw [key] at hi ⊢
        have ha := step_allocator b _ _ (by simp) h1
        rw [ih _ i hi, ha.1, ha.2]

/-- Claim C17. For an instance constructed with `num_instances = N > 0` and
`instance_index = k < N`, in every history of pool calls the `i`-th page-id
handed out by `AllocatePage` is `k + i * N`; every such id is congruent to `k`
modulo `N` (the `ValidatePageId` assertion holds), and the ids are strictly
increasing, so none is issued twice, also when `delete_page` calls are
interleaved. -/
theorem AllocatePage_progression (pool_size page_size N k : Nat) (disk : DiskManager)
    (ops : List PoolOp) (hN : 0 < N) (hk : k < N) :
    (∀ i : Nat, i < (allocatedIds (mk_instance pool_size page_size N k disk) ops).length →
      (allocatedIds (mk_instance pool_size page_size N k disk) ops)[i]?
        = some ((k : Int) + (i : Int) * (N : Int)))
    ∧ (∀ id ∈ allocatedIds (mk_instance pool_size page_size N k disk) ops, id % (N : Int) = k)
    ∧ (allocatedIds (mk_instance pool_size page_size N k disk) ops).Pairwise (fun a b => a < b) := by
  have h1 := allocatedIds_from ops (mk_instance pool_size page_size N k disk)
  have h1b : ∀ i : Nat, i < (allocatedIds (mk_instance pool_size page_size N k disk) ops).length →
      (allocatedIds (mk_instance pool_size page_size N k disk) ops)[i]?
        = some ((k : Int) + (i : Int) * (N : Int)) := h1
  refine ⟨h1b, ?_, ?_⟩
  · intro id hid
    obtain ⟨i, hi, hget⟩ := List.getElem_of_mem hid
    have h2 := h1b i hi
    rw [List.getElem?_eq_getElem hi, hget] at h2
    have h3 : id = (k : Int) + (i : Int) * (N : Int) := Option.some.inj h2
    rw [h3, Int.add_mul_emod_self]
    exact Int.emod_eq_of_lt (Int.ofNat_nonneg k) (by exact_mod_cast hk)
  · rw [List.pairwise_iff_getElem]
    intro i j hi hj hij
    have hi2 := h1b i hi
    have hj2 := h1b j hj
    rw [List.getElem?_eq_getElem hi] at hi2
    rw [List.getElem?_eq_getElem hj] at hj2
    rw [Option.some.inj hi2, Option.some.inj hj2]
    have hN2 : (0 : Int) < (N : Int) := by exact_mod_cast hN
    have hij2 : (i : Int) < (j : Int) := by exact_mod_cast hij
    have := mul_lt_mul_of_pos_right hij2 hN2
    linarith

/-- Witness for claim C17: three instances (`N = 3`), this one with index 1. -/
theorem AllocatePage_progression_witness :
    (∀ i : Nat, i < (allocatedIds (mk_instance 2 4 3 1 (zeroDisk 4))
        [PoolOp.new_page, PoolOp.new_page, PoolOp.unpin 1 false, PoolOp.delete_page 1,
          PoolOp.new_page]).length →
      (allocatedIds (mk_instance 2 4 3 1 (zeroDisk 4))
        [PoolOp.new_page, PoolOp.new_page, PoolOp.unpin 1 false, PoolOp.delete_page 1,
          PoolOp.new_page])[i]? = some (((1 : Nat) : Int) + (i : Int) * ((3 : Nat) : Int)))
    ∧ (∀ id ∈ allocatedIds (mk_instance 2 4 3 1 (zeroDisk 4))
        [PoolOp.new_page, PoolOp.new_page, PoolOp.unpin 1 false, PoolOp.delete_page 1,
          PoolOp.new_page], id % ((3 : Nat) : Int) = ((1 : Nat) : Int))
    ∧ (allocatedIds (mk_instance 2 4 3 1 (zeroDisk 4))
        [PoolOp.new_page, PoolOp.new_page, PoolOp.unpin 1 false, PoolOp.delete_page 1,
          PoolOp.new_page]).Pairwise (fun a b => a < b) :=
  AllocatePage_progression 2 4 3 1 (zeroDisk 4)
    [PoolOp.new_page, PoolOp.new_page, PoolOp.unpin 1 false, PoolOp.delete_page 1,
      PoolOp.new_page] (by decide) (by decide)

end BufferPoolManagerInstance
end bustub

namespace bustub

/-! ### Page table and frame lemmas -/

theorem PageTable.find_append (t u : PageTable) (x : page_id_t) :
    PageTable.find (t ++ u) x = (PageTable.find t x).or (PageTable.find u x) := by
  induction t with
  | nil => simp [PageTable.find]
  | cons a t ih =>
    obtain ⟨q, g⟩ := a
    by_cases h : q = x
    · simp [PageTable.find, h]
    · simp [PageTable.find, h, ih]

theorem PageTable.find_erase_same (t : PageTable) (q : page_id_t) :
    PageTable.find (PageTable.erase t q) q = none := by
  induction t with
  | nil => rfl
  | cons a t ih =>
    obtain ⟨r, g⟩ := a
    by_cases h : r = q
    · simpa [PageTable.erase, List.filter_cons, h] using ih
    · have ih2 : PageTable.find (List.filter (fun e => e.1 != q) t) q = none := ih
      simp [PageTable.erase, List.filter_cons, h, PageTable.find, ih2]

theorem PageTable.find_erase_ne (t : PageTable) (q x : page_id_t) (hx : x ≠ q) :
    PageTable.find (PageTable.erase t q) x = PageTable.find t x := by
  induction t with
  | nil => rfl
  | cons a t ih =>
    obtain ⟨r, g⟩ := a
    have ih2 : PageTable.find (List.filter (fun e => e.1 != q) t) x = PageTable.find t x := ih
    by_cases h : r = q
    · have hqx : ¬ q = x := fun e => hx e.symm
      simp [PageTable.erase, List.filter_cons, h, PageTable.find, ih2, hqx]
    · simp [PageTable.erase, List.filter_cons, h, PageTable.find, ih2]

theorem PageTable.find_insert_same (t : PageTable) (p : page_id_t) (f : frame_id_t)
    (h : PageTable.find t p = none) : PageTable.find (PageTable.insert t p f) p = some f := by
  simp [PageTable.insert, h, PageTable.find_append, PageTable.find]

theorem PageTable.find_insert_ne (t : PageTable) (p x : page_id_t) (f : frame_id_t)
    (hx : x ≠ p) : PageTable.find (PageTable.insert t p f) x = PageTable.find t x := by
  unfold PageTable.insert
  split
  · rfl
  · have hpx : ¬ p = x := fun e => hx e.symm
    simp [PageTable.find_append, PageTable.find, hpx]

namespace BufferPoolManagerInstance

theorem frame_setFrame (b : BufferPoolManagerInstance) (f : frame_id_t) (pg : Page)
    (h : f.toNat < b.pages.length) : (b.setFrame f pg).frame f = pg := by
  simp [frame, setFrame, List.getD_eq_getElem?_getD, h]

end BufferPoolManagerInstance
end bustub

namespace bustub
namespace BufferPoolManagerInstance

/-! ### Flush -/

theorem FlushPgImp_pages (b : BufferPoolManagerInstance) (q : page_id_t) :
    (b.FlushPgImp q).2.pages = b.pages := by
  unfold FlushPgImp; (repeat' split) <;> rfl

theorem FlushPgImp_page_table (b : BufferPoolManagerInstance) (q : page_id_t) :
    (b.FlushPgImp q).2.page_table = b.page_table := by
  unfold FlushPgImp; (repeat' split) <;> rfl

theorem FlushPgImp_free_list (b : BufferPoolManagerInstance) (q : page_id_t) :
    (b.FlushPgImp q).2.free_list = b.free_list := by
  unfold FlushPgImp; (repeat' split) <;> rfl

theorem FlushPgImp_replacer (b : BufferPoolManagerInstance) (q : page_id_t) :
    (b.FlushPgImp q).2.replacer = b.replacer := by
  unfold FlushPgImp; (repeat' split) <;> rfl

theorem FlushPgImp_disk_written (b : BufferPoolManagerInstance) (q : page_id_t) (f : frame_id_t)
    (hq : q ≠ INVALID_PAGE_ID) (hf : b.page_table.find q = some f) :
    (b.FlushPgImp q).2.disk_manager.ReadPage q = (b.frame f).data := by
  simp [FlushPgImp, hq, hf, DiskManager.ReadPage, DiskManager.WritePage]

/-! ### Fetch of a page that is not resident -/

theorem FetchPgImp_free (b : BufferPoolManagerInstance) (p : page_id_t)
    (f : frame_id_t) (rest : List frame_id_t)
    (hnon : b.page_table.find p = none) (hfl : b.free_list = f :: rest) :
    b.FetchPgImp p = fetchInstall { b with free_list := rest } f p := by
  unfold FetchPgImp
  simp only [hnon, hfl]
  rfl

theorem FetchPgImp_victim (b : BufferPoolManagerInstance) (p : page_id_t)
    (f : frame_id_t) (rest : List frame_id_t)
    (hnon : b.page_table.find p = none) (hfl : b.free_list = [])
    (hul : b.replacer.unpinned_list = f :: rest) :
    b.FetchPgImp p = fetchInstall { b with replacer := { unpinned_list := rest } } f p := by
  unfold FetchPgImp
  simp only [hnon, hfl, LRUReplacer.Victim, hul]
  rfl

theorem frame_of_pages (c : BufferPoolManagerInstance) (f : frame_id_t) (pg : Page)
    (l : List Page) (hl : c.pages = l.set f.toNat pg) (hrange : f.toNat < l.length) :
    c.frame f = pg := by
  simp [frame, hl, List.getD_eq_getElem?_getD, hrange]

theorem fetchInstall_fields (c : BufferPoolManagerInstance) (f : frame_id_t) (p : page_id_t) :
    (fetchInstall c f p).2.free_list = c.free_list
    ∧ (fetchInstall c f p).2.page_table = (c.page_table.erase (c.frame f).page_id).insert p f
    ∧ (fetchInstall c f p).2.pages
        = c.pages.set f.toNat
            { data := (fetchInstall c f p).2.disk_manager.ReadPage p, page_id := p,
              pin_count := 1, is_dirty := false }
    ∧ (fetchInstall c f p).2.disk_manager
        = (if (c.frame f).is_dirty = true then (c.FlushPgImp (c.frame f).page_id).2.disk_manager
           else c.disk_manager) := by
  unfold fetchInstall
  by_cases hd : (c.frame f).is_dirty = true
  · simp only [hd, if_true]
    refine ⟨?_, ?_, ?_, ?_⟩
    · simp [setFrame, FlushPgImp_free_list]
    · simp [setFrame, frame, FlushPgImp_page_table, FlushPgImp_pages]
    · simp [setFrame, FlushPgImp_pages]
    · simp [setFrame]
  · simp only [hd, if_false, Bool.false_eq_true]
    refine ⟨rfl, rfl, ?_, rfl⟩
    simp [setFrame]

theorem fetchInstall_spec (c : BufferPoolManagerInstance) (f : frame_id_t) (p : page_id_t)
    (hnon : c.page_table.find p = none) (hrange : f.toNat < c.pages.length) :
    (fetchInstall c f p).1 = some f
    ∧ (fetchInstall c f p).2.free_list = c.free_list
    ∧ (fetchInstall c f p).2.page_table.find p = some f
    ∧ ((c.frame f).page_id ≠ p →
        (fetchInstall c f p).2.page_table.find (c.frame f).page_id = none)
    ∧ ((fetchInstall c f p).2.frame f).page_id = p
    ∧ ((fetchInstall c f p).2.frame f).pin_count = 1
    ∧ ((fetchInstall c f p).2.frame f).is_dirty = false
    ∧ ((fetchInstall c f p).2.frame f).data = (fetchInstall c f p).2.disk_manager.ReadPage p
    ∧ ((c.frame f).is_dirty = true → (c.frame f).page_id ≠ INVALID_PAGE_ID →
        c.page_table.find (c.frame f).page_id = some f →
        (fetchInstall c f p).2.disk_manager.ReadPage (c.frame f).page_id = (c.frame f).data) := by
  obtain ⟨hfree, htable, hpages, hdisk⟩ := fetchInstall_fields c f p
  have hframe := frame_of_pages _ f _ _ hpages hrange
  refine ⟨rfl, hfree, ?_, ?_, ?_, ?_, ?_, ?_, ?_⟩
  · rw [htable]
    apply PageTable.find_insert_same
    by_cases hq : (c.frame f).page_id = p
    · rw [hq]; exact PageTable.find_erase_same _ _
    · rw [PageTable.find_erase_ne _ _ _ (fun e => hq e.symm)]; exact hnon
  · intro hq
    rw [htable, PageTable.find_insert_ne _ _ _ _ hq]
    exact PageTable.find_erase_same _ _
  · rw [hframe]
  · rw [hframe]
  · rw [hframe]
  · rw [hframe]
  · intro hd hq hmap
    rw [hdisk]
    simp only [hd, if_true]
    exact FlushPgImp_disk_written c _ f hq hmap

end BufferPoolManagerInstance
end bustub

namespace bustub
namespace BufferPoolManagerInstance

/-- Fetch of a page that is not resident, with the write-back under a
consistent mapping. Let page `p` be not resident and let `f` be the frame that is
obtainable: the front of the free list when the free list is non-empty,
otherwise the front of the replacer (its victim). Then `fetch(p)` returns `f`
(and takes it off the free list in the first case); afterwards the page table
maps `p` to `f`, the page-id that `f` carried before is no longer mapped, `f`
has page-id `p`, pin-count 1, dirty = false and its bytes are the disk contents
of `p`; and if `f` was dirty and held page `q` (it carried `q` and the page
table mapped `q` to `f`), the disk contents of `q` are the old bytes of `f`. -/
theorem FetchPgImp_nonresident (b : BufferPoolManagerInstance) (p : page_id_t) (f : frame_id_t)
    (hnon : b.page_table.find p = none) (hrange : f.toNat < b.pages.length)
    (hpick : b.free_list.head? = some f
      ∨ (b.free_list = [] ∧ b.replacer.unpinned_list.head? = some f)) :
    (b.FetchPgImp p).1 = some f
    ∧ (b.free_list ≠ [] → (b.FetchPgImp p).2.free_list = b.free_list.tail)
    ∧ (b.FetchPgImp p).2.page_table.find p = some f
    ∧ ((b.frame f).page_id ≠ p → (b.FetchPgImp p).2.page_table.find (b.frame f).page_id = none)
    ∧ ((b.FetchPgImp p).2.frame f).page_id = p
    ∧ ((b.FetchPgImp p).2.frame f).pin_count = 1
    ∧ ((b.FetchPgImp p).2.frame f).is_dirty = false
    ∧ ((b.FetchPgImp p).2.frame f).data = (b.FetchPgImp p).2.disk_manager.ReadPage p
    ∧ ((b.frame f).is_dirty = true → (b.frame f).page_id ≠ INVALID_PAGE_ID →
        b.page_table.find (b.frame f).page_id = some f →
        (b.FetchPgImp p).2.disk_manager.ReadPage (b.frame f).page_id = (b.frame f).data) := by
  rcases hpick with hfl | ⟨hfl, hul⟩
  · cases hl : b.free_list with
    | nil => rw [hl] at hfl; cases hfl
    | cons g rest =>
      rw [hl] at hfl
      have hg : g = f := by simpa using hfl
      subst hg
      rw [FetchPgImp_free b p g rest hnon hl]
      obtain ⟨h1, h2, h3, h4, h5, h6, h7, h8, h9⟩ :=
        fetchInstall_spec ({ b with free_list := rest } : BufferPoolManagerInstance) g p hnon hrange
      exact ⟨h1, fun _ => h2, h3, h4, h5, h6, h7, h8, h9⟩
  · cases hl : b.replacer.unpinned_list with
    | nil => rw [hl] at hul; cases hul
    | cons g rest =>
      rw [hl] at hul
      have hg : g = f := by simpa using hul
      subst hg
      rw [FetchPgImp_victim b p g rest hnon hfl hl]
      obtain ⟨h1, h2, h3, h4, h5, h6, h7, h8, h9⟩ :=
        fetchInstall_spec ({ b with replacer := { unpinned_list := rest } } :
          BufferPoolManagerInstance) g p hnon hrange
      exact ⟨h1, fun h => absurd hfl h, h3, h4, h5, h6, h7, h8, h9⟩

/-- An instance: page 5 sits dirty in the only frame with the bytes
`bytesAB`; `fetch(9)` takes that frame as the victim of the replacer, maps page
9 to it, unmaps page 5 and has written the bytes of page 5 to disk. -/
theorem FetchPgImp_nonresident_witness :
    (dirtyFive.FetchPgImp 9).1 = some 0
    ∧ (dirtyFive.FetchPgImp 9).2.page_table.find 9 = some 0
    ∧ (dirtyFive.FetchPgImp 9).2.page_table.find 5 = none
    ∧ ((dirtyFive.FetchPgImp 9).2.frame 0).pin_count = 1
    ∧ (dirtyFive.FetchPgImp 9).2.disk_manager.ReadPage 5 = bytesAB :=
  have h := FetchPgImp_nonresident dirtyFive 9 0 (by decide) (by decide)
    (Or.inr ⟨by decide, by decide⟩)
  ⟨h.1, h.2.2.1, h.2.2.2.1 (by decide), h.2.2.2.2.2.1,
    h.2.2.2.2.2.2.2.2 (by decide) (by decide) (by decide)⟩

end BufferPoolManagerInstance
end bustub

namespace bustub
namespace BufferPoolManagerInstance

/-- Claim C14. `flush(p)` returns true exactly when `p` is not INVALID and is
resident; when `p` is resident in frame `f`, the disk contents of `p`
afterwards are the bytes of `f`, whatever the dirty flag; the frames, the page
table, the free list and the replacer are unchanged and no other disk page is
written; a second `flush(p)` leaves every disk page as the first one left it. -/
theorem FlushPgImp_contract (b : BufferPoolManagerInstance) (p : page_id_t) :
    ((b.FlushPgImp p).1 = true ↔ (p ≠ INVALID_PAGE_ID ∧ ∃ f, b.page_table.find p = some f))
    ∧ (∀ f, p ≠ INVALID_PAGE_ID → b.page_table.find p = some f →
        (b.FlushPgImp p).2.disk_manager.ReadPage p = (b.frame f).data)
    ∧ (b.FlushPgImp p).2.pages = b.pages
    ∧ (b.FlushPgImp p).2.page_table = b.page_table
    ∧ (b.FlushPgImp p).2.free_list = b.free_list
    ∧ (b.FlushPgImp p).2.replacer = b.replacer
    ∧ (∀ q, q ≠ p → (b.FlushPgImp p).2.disk_manager.ReadPage q = b.disk_manager.ReadPage q)
    ∧ (∀ q, ((b.FlushPgImp p).2.FlushPgImp p).2.disk_manager.ReadPage q
        = (b.FlushPgImp p).2.disk_manager.ReadPage q) := by
  refine ⟨?_, fun f hp hf => FlushPgImp_disk_written b p f hp hf, FlushPgImp_pages b p,
    FlushPgImp_page_table b p, FlushPgImp_free_list b p, FlushPgImp_replacer b p, ?_, ?_⟩
  · unfold FlushPgImp
    by_cases hp : p = INVALID_PAGE_ID
    · simp [hp]
    · cases hf : PageTable.find b.page_table p with
      | none => simp [hp]
      | some f => simp [hp]
  · intro q hq
    unfold FlushPgImp
    by_cases hp : p = INVALID_PAGE_ID
    · simp [hp]
    · cases hf : PageTable.find b.page_table p with
      | none => simp [hp]
      | some f => simp [hp, DiskManager.ReadPage, DiskManager.WritePage, hq]
  · intro q
    by_cases hp : p = INVALID_PAGE_ID
    · simp [FlushPgImp, hp]
    · cases hf : PageTable.find b.page_table p with
      | none => simp [FlushPgImp, hp, hf]
      | some f =>
        by_cases hq : q = p
        · have h2 : ((b.FlushPgImp p).2).page_table.find p = some f := by
            rw [FlushPgImp_page_table]; exact hf
          rw [hq, FlushPgImp_disk_written _ p f hp h2, FlushPgImp_disk_written b p f hp hf]
          simp [frame, FlushPgImp_pages]
        · simp [FlushPgImp, hp, hf, DiskManager.ReadPage, DiskManager.WritePage, hq, frame]

/-- Witness for claim C14: page 5 is resident in frame 0 with the bytes
`bytesAB`; `flush(5)` returns true and the disk then holds `bytesAB` for page 5. -/
theorem FlushPgImp_contract_witness :
    (dirtyFive.FlushPgImp 5).1 = true
    ∧ (dirtyFive.FlushPgImp 5).2.disk_manager.ReadPage 5 = bytesAB :=
  have h := FlushPgImp_contract dirtyFive 5
  ⟨h.1.mpr ⟨by decide, 0, by decide⟩, h.2.1 0 (by decide) (by decide)⟩

end BufferPoolManagerInstance
end bustub

namespace bustub

/-! ## Replacer -/

theorem TrackedFrames.oldest_mem :
    ∀ (l : List (frame_id_t × Nat)) (m : frame_id_t × Nat),
      TrackedFrames.oldest l = some m → m ∈ l := by
  intro l
  induction l with
  | nil => intro m h; cases h
  | cons e l ih =>
    intro m h
    unfold TrackedFrames.oldest at h
    cases ho : TrackedFrames.oldest l with
    | none =>
      rw [ho] at h
      cases h
      exact List.mem_cons_self _ _
    | some m2 =>
      rw [ho] at h
      by_cases hle : e.2 ≤ m2.2
      · simp only [hle, if_true, Option.some.injEq] at h
        subst h; exact List.mem_cons_self _ _
      · simp only [hle, if_false, Option.some.injEq] at h
        subst h; exact List.mem_cons_of_mem _ (ih _ ho)

theorem TrackedFrames.oldest_of_increasing (e : frame_id_t × Nat) (l : List (frame_id_t × Nat))
    (h : (e :: l).Pairwise (fun a b => a.2 < b.2)) : TrackedFrames.oldest (e :: l) = some e := by
  unfold TrackedFrames.oldest
  cases ho : TrackedFrames.oldest l with
  | none => rfl
  | some m =>
    have hm := TrackedFrames.oldest_mem l m ho
    have hlt : e.2 < m.2 := (List.pairwise_cons.mp h).1 m hm
    simp [Nat.le_of_lt hlt]

/-- One call preserves the link between the list of the code and the tracked
set of the specification (same frames in the same order, tracking times
strictly increasing and below the clock, no frame twice), and both report the
same. -/
theorem LRUReplacer.refines_step (r : LRUReplacer) (s : TrackedFrames) (op : ReplacerOp)
    (hlist : r.unpinned_list = s.since.map (fun e => e.1))
    (hinc : s.since.Pairwise (fun a b => a.2 < b.2))
    (hclock : ∀ e ∈ s.since, e.2 < s.clock)
    (hnodup : (s.since.map (fun e => e.1)).Nodup) :
    (r.step op).1 = (s.step op).1
    ∧ (r.step op).2.Size = (s.step op).2.size
    ∧ (r.step op).2.unpinned_list = (s.step op).2.since.map (fun e => e.1)
    ∧ (s.step op).2.since.Pairwise (fun a b => a.2 < b.2)
    ∧ (∀ e ∈ (s.step op).2.since, e.2 < (s.step op).2.clock)
    ∧ ((s.step op).2.since.map (fun e => e.1)).Nodup := by
  have hsize : ∀ (r2 : LRUReplacer) (s2 : TrackedFrames),
      r2.unpinned_list = s2.since.map (fun e => e.1) → (s2.since.map (fun e => e.1)).Nodup →
      r2.Size = s2.size := by
    intro r2 s2 h1 h2
    simp [LRUReplacer.Size, TrackedFrames.size, h1, h2.dedup]
  have hfinish : ∀ (o : Option (Option frame_id_t)) (r2 : LRUReplacer) (s2 : TrackedFrames),
      r.step op = (o, r2) → s.step op = (o, s2) →
      r2.unpinned_list = s2.since.map (fun e => e.1) →
      s2.since.Pairwise (fun a b => a.2 < b.2) →
      (∀ e ∈ s2.since, e.2 < s2.clock) →
      (s2.since.map (fun e => e.1)).Nodup →
      (r.step op).1 = (s.step op).1
      ∧ (r.step op).2.Size = (s.step op).2.size
      ∧ (r.step op).2.unpinned_list = (s.step op).2.since.map (fun e => e.1)
      ∧ (s.step op).2.since.Pairwise (fun a b => a.2 < b.2)
      ∧ (∀ e ∈ (s.step op).2.since, e.2 < (s.step op).2.clock)
      ∧ ((s.step op).2.since.map (fun e => e.1)).Nodup := by
    intro o r2 s2 hr hs h1 h2 h3 h4
    rw [hr, hs]
    exact ⟨rfl, hsize r2 s2 h1 h4, h1, h2, h3, h4⟩
  cases op with
  | pin f =>
    refine hfinish none (r.Pin f) (s.pin f) rfl rfl ?_ ?_ ?_ ?_
    · simp [LRUReplacer.Pin, TrackedFrames.pin, hlist, List.filter_map, Function.comp_def]
    · exact hinc.filter _
    · intro e he
      have := hclock e (List.mem_of_mem_filter he)
      show e.2 < s.clock + 1
      omega
    · show ((s.since.filter (fun e => e.1 != f)).map (fun e => e.1)).Nodup
      have : (s.since.filter (fun e => e.1 != f)).map (fun e => e.1)
          = (s.since.map (fun e => e.1)).filter (fun x => x != f) := by
        simp [List.filter_map, Function.comp_def]
      rw [this]
      exact hnodup.filter _
  | unpin f =>
    by_cases hmem : f ∈ r.unpinned_list
    · have htr : s.tracked f = true := by
        rw [hlist] at hmem
        obtain ⟨e, he, hef⟩ := List.mem_map.mp hmem
        simp only [TrackedFrames.tracked, List.any_eq_true]
        exact ⟨e, he, by simp [hef]⟩
      have h1 : r.step (ReplacerOp.unpin f) = (none, r) := by
        simp [LRUReplacer.step, LRUReplacer.Unpin, hmem]
      have h2 : s.step (ReplacerOp.unpin f)
          = (none, { clock := s.clock + 1, since := s.since }) := by
        simp [TrackedFrames.step, TrackedFrames.unpin, htr]
      exact hfinish none r _ h1 h2 hlist hinc
        (fun e he => Nat.lt_succ_of_lt (hclock e he)) hnodup
    · have htr : s.tracked f = false := by
        rw [hlist] at hmem
        cases hb : s.tracked f with
        | false => rfl
        | true =>
          exfalso
          simp only [TrackedFrames.tracked, List.any_eq_true] at hb
          obtain ⟨e, he, hef⟩ := hb
          exact hmem (List.mem_map.mpr ⟨e, he, by simpa using hef⟩)
      have h1 : r.step (ReplacerOp.unpin f)
          = (none, { unpinned_list := r.unpinned_list ++ [f] }) := by
        simp [LRUReplacer.step, LRUReplacer.Unpin, hmem]
      have h2 : s.step (ReplacerOp.unpin f)
          = (none, { clock := s.clock + 1, since := s.since ++ [(f, s.clock)] }) := by
        simp [TrackedFrames.step, TrackedFrames.unpin, htr]
      refine hfinish none _ _ h1 h2 ?_ ?_ ?_ ?_
      · simp [hlist]
      · rw [List.pairwise_append]
        refine ⟨hinc, List.pairwise_singleton _ _, ?_⟩
        intro a ha b hb
        rw [List.mem_singleton] at hb
        subst hb
        exact hclock a ha
      · intro e he
        rcases List.mem_append.mp he with h | h
        · exact Nat.lt_succ_of_lt (hclock e h)
        · rw [List.mem_singleton] at h
          subst h
          exact Nat.lt_succ_self _
      · rw [hlist] at hmem
        simp only [List.map_append, List.map_cons, List.map_nil]
        rw [List.nodup_append]
        refine ⟨hnodup, List.nodup_singleton _, ?_⟩
        intro a ha hb
        rw [List.mem_singleton] at hb
        subst hb
        exact hmem ha
  | victim =>
    cases hs : s.since with
    | nil =>
      have hr : r.unpinned_list = [] := by simp [hlist, hs]
      have h1 : r.step ReplacerOp.victim = (some none, r) := by
        simp [LRUReplacer.step, LRUReplacer.Victim, hr]
      have h2 : s.step ReplacerOp.victim
          = (some none, { clock := s.clock + 1, since := s.since }) := by
        simp [TrackedFrames.step, TrackedFrames.victim, hs, TrackedFrames.oldest]
      exact hfinish _ r _ h1 h2 hlist hinc
        (fun e he => Nat.lt_succ_of_lt (hclock e he)) hnodup
    | cons e l =>
      have hr : r.unpinned_list = e.1 :: l.map (fun x => x.1) := by simp [hlist, hs]
      have hold : TrackedFrames.oldest s.since = some e := by
        rw [hs]; exact TrackedFrames.oldest_of_increasing e l (hs ▸ hinc)
      have hnd : e.1 ∉ l.map (fun x => x.1) ∧ (l.map (fun x => x.1)).Nodup := by
        rw [hs] at hnodup
        simpa using hnodup
      have hfilter : s.since.filter (fun x => x.1 != e.1) = l := by
        rw [hs, List.filter_cons]
        simp only [bne_self_eq_false, Bool.false_eq_true, if_false]
        apply List.filter_eq_self.mpr
        intro a ha
        have : a.1 ≠ e.1 := fun h => hnd.1 (List.mem_map.mpr ⟨a, ha, h⟩)
        simpa using this
      have h1 : r.step ReplacerOp.victim
          = (some (some e.1), { unpinned_list := l.map (fun x => x.1) }) := by
        simp [LRUReplacer.step, LRUReplacer.Victim, hr]
      have h2 : s.step ReplacerOp.victim
          = (some (some e.1), { clock := s.clock + 1, since := l }) := by
        simp [TrackedFrames.step, TrackedFrames.victim, hold, hfilter]
      refine hfinish _ _ _ h1 h2 rfl ?_ ?_ hnd.2
      · rw [hs] at hinc; exact (List.pairwise_cons.mp hinc).2
      · intro a ha
        exact Nat.lt_succ_of_lt (hclock a (hs ▸ List.mem_cons_of_mem _ ha))

theorem LRUReplacer.refines_observe (ops : List ReplacerOp) :
    ∀ (r : LRUReplacer) (s : TrackedFrames),
      r.unpinned_list = s.since.map (fun e => e.1) →
      s.since.Pairwise (fun a b => a.2 < b.2) →
      (∀ e ∈ s.since, e.2 < s.clock) →
      (s.since.map (fun e => e.1)).Nodup →
      r.observe ops = s.observe ops := by
  induction ops with
  | nil => intro r s _ _ _ _; rfl
  | cons op rest ih =>
    intro r s h1 h2 h3 h4
    obtain ⟨g1, g2, g3, g4, g5, g6⟩ := LRUReplacer.refines_step r s op h1 h2 h3 h4
    unfold LRUReplacer.observe TrackedFrames.observe
    rw [g1, g2, ih _ _ g3 g4 g5 g6]

/-- Claim C18. Along every history of `Pin` / `Unpin` / `Victim` calls on a
fresh replacer, the code reports exactly what the replacer of the specification
reports: `Victim` returns the tracked frame whose most recent transition from
untracked to tracked is oldest and untracks it, and `Size` is the number of
distinct tracked frames. In every state `Victim` fails exactly when no frame is
tracked and then changes nothing, and `Unpin` of a tracked frame changes
neither the tracked frames nor their order. -/
theorem LRUReplacer_refines_specification :
    (∀ ops : List ReplacerOp,
      LRUReplacer.observe { unpinned_list := [] } ops
        = TrackedFrames.observe { clock := 0, since := [] } ops)
    ∧ (∀ r : LRUReplacer, (r.Victim.1 = none ↔ r.unpinned_list = [])
        ∧ (r.unpinned_list = [] → r.Victim = (none, r)))
    ∧ (∀ (r : LRUReplacer) (f : frame_id_t), f ∈ r.unpinned_list → r.Unpin f = r) := by
  refine ⟨?_, ?_, ?_⟩
  · intro ops
    exact LRUReplacer.refines_observe ops _ _ rfl List.Pairwise.nil
      (fun e he => by cases he) List.nodup_nil
  · intro r
    cases h : r.unpinned_list with
    | nil => simp [LRUReplacer.Victim, h]
    | cons f rest => simp [LRUReplacer.Victim, h]
  · intro r f hf
    simp [LRUReplacer.Unpin, hf]

/-- Witness for claim C18: on `replacerHistory` frame 1 is unpinned twice and
stays in front of frame 3; the three `Victim` calls report 1, 3 and failure. -/
theorem LRUReplacer_refines_specification_witness :
    LRUReplacer.observe { unpinned_list := [] } replacerHistory
      = TrackedFrames.observe { clock := 0, since := [] } replacerHistory
    ∧ (({ unpinned_list := [1, 2] } : LRUReplacer).Unpin 1 = { unpinned_list := [1, 2] }) :=
  ⟨LRUReplacer_refines_specification.1 replacerHistory,
   LRUReplacer_refines_specification.2.2 { unpinned_list := [1, 2] } 1 (by decide)⟩

/-- The observations of the code on `replacerHistory`, evaluated. -/
theorem replacerHistory_observed :
    LRUReplacer.observe { unpinned_list := [] } replacerHistory
      = [(none, 1), (none, 2), (none, 2), (none, 3), (none, 2),
         (some (some 1), 1), (some (some 3), 0), (some none, 0)] := by
  decide

end bustub

namespace bustub

/-! ## Hash bucket page -/

set_option maxRecDepth 100000 in
/-- Claim C19 fails on the code. With the capacity 496 of an `int`/`int`
bucket, `bucket488` has eight slots whose occupied bit is clear and holds no
pair with key 1000, yet `IsFull` is true (it skips the last byte of the bitmap
when the capacity is a multiple of 8) and `Insert(1000, 1000)` returns false.
On the empty bucket `Insert(1, 1)` returns true and `GetValue(1)` then contains
1, but `NumReadable` is 0 before and 0 after the insert. -/
theorem bucket_insert_rejected_with_free_slots :
    bucket488.IsOccupied 488 = false
    ∧ HashTableBucketPage.IsFull intBucketCapacity bucket488 = true
    ∧ HashTableBucketPage.Insert intBucketCapacity IntComparator bucket488 1000 1000
        = some (false, bucket488)
    ∧ HashTableBucketPage.NumReadable intBucketCapacity
        (HashTableBucketPage.empty intBucketCapacity : HashTableBucketPage Int Int) = 0
    ∧ (HashTableBucketPage.Insert intBucketCapacity IntComparator
          (HashTableBucketPage.empty intBucketCapacity) 1 1).map
        (fun r => (r.1, HashTableBucketPage.NumReadable intBucketCapacity r.2,
          (HashTableBucketPage.GetValue intBucketCapacity IntComparator r.2 1 []).2))
        = some (true, 0, [1]) := by
  decide

end bustub

namespace bustub
namespace HashTableBucketPage

variable {K V : Type}

theorem GetValue_scan (cmp : K → K → Int) (b : HashTableBucketPage K V) (key : K)
    (l : List Nat) :
    ∀ result : List V,
      l.foldl
        (fun acc i =>
          if b.IsReadable i && keyMatches cmp b i key then
            match b.PairAt i with
            | some (_, v) => acc ++ [v]
            | none => acc
          else acc) result
      = result ++ l.filterMap
          (fun i => if b.IsReadable i && keyMatches cmp b i key
                    then (b.PairAt i).map (fun e => e.2) else none) := by
  induction l with
  | nil => intro result; simp
  | cons i l ih =>
    intro result
    rw [List.foldl_cons, ih, List.filterMap_cons]
    by_cases hc : (b.IsReadable i && keyMatches cmp b i key) = true
    · simp only [hc, if_true]
      cases hp : b.PairAt i with
      | none => simp
      | some e => obtain ⟨k, v⟩ := e; simp
    · simp only [hc, if_false, Bool.false_eq_true]

theorem matchingValues_ne_nil (cap : Nat) (cmp : K → K → Int) (b : HashTableBucketPage K V)
    (key : K) :
    matchingValues cap cmp b key ≠ []
      ↔ ∃ i, i < cap ∧ b.IsReadable i = true ∧ keyMatches cmp b i key = true := by
  unfold matchingValues
  constructor
  · intro h
    obtain ⟨v, hv⟩ := List.exists_mem_of_ne_nil _ h
    obtain ⟨i, hi, hiv⟩ := List.mem_filterMap.mp hv
    refine ⟨i, List.mem_range.mp hi, ?_⟩
    by_cases hc : (b.IsReadable i && keyMatches cmp b i key) = true
    · simpa using hc
    · simp [hc] at hiv
  · rintro ⟨i, hi, hr, hk⟩
    have hp : ∃ e, b.PairAt i = some e := by
      unfold keyMatches at hk
      cases hp : b.PairAt i with
      | none => simp [hp] at hk
      | some e => exact ⟨e, rfl⟩
    obtain ⟨e, he⟩ := hp
    have hmem : e.2 ∈ (List.range cap).filterMap
        (fun i => if b.IsReadable i && keyMatches cmp b i key
                  then (b.PairAt i).map (fun e => e.2) else none) := by
      refine List.mem_filterMap.mpr ⟨i, List.mem_range.mpr hi, ?_⟩
      simp [hr, hk, he]
    exact List.ne_nil_of_mem hmem

/-- Claim C20 as amended. For every bucket page, key and incoming result
vector, `GetValue` appends to the result exactly the values of the readable
slots whose key compares equal to the key, in increasing slot order, and
returns true exactly when the result vector is non-empty afterwards; when the
result vector is empty on entry it returns true exactly when such a slot
exists. The bucket is only read. -/
theorem GetValue_appends_matching (cap : Nat) (cmp : K → K → Int) (b : HashTableBucketPage K V)
    (key : K) (result : List V) :
    (GetValue cap cmp b key result).2 = result ++ matchingValues cap cmp b key
    ∧ ((GetValue cap cmp b key result).1 = true
        ↔ (result ≠ [] ∨ ∃ i, i < cap ∧ b.IsReadable i = true ∧ keyMatches cmp b i key = true))
    ∧ (result = [] →
        ((GetValue cap cmp b key result).1 = true
          ↔ ∃ i, i < cap ∧ b.IsReadable i = true ∧ keyMatches cmp b i key = true)) := by
  have h2 : (GetValue cap cmp b key result).2 = result ++ matchingValues cap cmp b key := by
    unfold GetValue matchingValues
    exact GetValue_scan cmp b key (List.range cap) result
  have h1 : (GetValue cap cmp b key result).1
      = decide ((GetValue cap cmp b key result).2.length > 0) := rfl
  have h3 : (GetValue cap cmp b key result).1 = true
      ↔ (result ≠ [] ∨ ∃ i, i < cap ∧ b.IsReadable i = true ∧ keyMatches cmp b i key = true) := by
    rw [h1, h2, ← matchingValues_ne_nil]
    simp only [decide_eq_true_eq, List.length_append, gt_iff_lt]
    constructor
    · intro h
      by_cases hr : result = []
      · right
        intro hm
        simp [hr, hm] at h
      · exact Or.inl hr
    · rintro (h | h)
      · have := List.length_pos.mpr h
        omega
      · have := List.length_pos.mpr h
        omega
  refine ⟨h2, h3, ?_⟩
  intro hr
  rw [h3]
  simp [hr]

/-- Claim C20 as stated fails. On an empty bucket of capacity 2 no slot is
readable, yet `GetValue(5)` called with the result vector `[7]` returns true
(and leaves the vector as it was). -/
theorem GetValue_true_without_match :
    (∀ i, i < 2 → (empty 2 : HashTableBucketPage Int Int).IsReadable i = false)
    ∧ GetValue 2 IntComparator (empty 2 : HashTableBucketPage Int Int) 5 [7] = (true, [7]) := by
  decide

/-- Witness for the amended claim C20: the bucket holding `(0, 100)` and
`(2, 102)` answers `GetValue(2)` on an empty result vector with true. -/
theorem GetValue_appends_matching_witness :
    (GetValue 2 IntComparator
      ({ occupied := [192], readable := [192], array := [some (0, 100), some (2, 102)] } :
        HashTableBucketPage Int Int) 2 []).1 = true :=
  ((GetValue_appends_matching 2 IntComparator
      ({ occupied := [192], readable := [192], array := [some (0, 100), some (2, 102)] } :
        HashTableBucketPage Int Int) 2 []).2.2 rfl).mpr ⟨1, by decide, by decide, by decide⟩

end HashTableBucketPage
end bustub

namespace bustub

/-! ## Bitmap bytes -/

theorem mask_testBit (x k : Nat) : ((x &&& (1 <<< k)) != 0) = x.testBit k := by
  rw [Nat.one_shiftLeft]
  cases h : x.testBit k with
  | true =>
    have h1 : (x &&& 2 ^ k).testBit k = true := by
      rw [Nat.testBit_and, h, Nat.testBit_two_pow_self]; rfl
    have h2 : x &&& 2 ^ k ≠ 0 := by
      intro h0
      rw [h0, Nat.zero_testBit] at h1
      exact Bool.noConfusion h1
    simpa using h2
  | false =>
    have h2 : x &&& 2 ^ k = 0 := by
      apply Nat.eq_of_testBit_eq
      intro i
      rw [Nat.testBit_and, Nat.zero_testBit, Nat.testBit_two_pow]
      by_cases hki : k = i
      · subst hki; simp [h]
      · simp [hki]
    simp [h2]

theorem setBit_testBit (x k j : Nat) (hj : j < 8) :
    (((x ||| (1 <<< k)) % 256).testBit j) = (x.testBit j || decide (j = k)) := by
  have h256 : (256 : Nat) = 2 ^ 8 := by norm_num
  rw [h256, Nat.testBit_mod_two_pow, Nat.testBit_or, Nat.one_shiftLeft, Nat.testBit_two_pow]
  have : decide (k = j) = decide (j = k) := by
    by_cases h : k = j
    · subst h; simp
    · have h2 : ¬ j = k := fun e => h e.symm
      simp [h, h2]
  simp [hj, this]

theorem clearMask_testBit (k j : Nat) (hk : k < 8) :
    ((1 <<< 8) - 1 - (1 <<< k)).testBit j = (decide (j < 8) && !decide (j = k)) := by
  by_cases hj : j < 8
  · have key : ∀ k, k < 8 → ∀ j, j < 8 →
        ((1 <<< 8) - 1 - (1 <<< k)).testBit j = (decide (j < 8) && !decide (j = k)) := by
      decide
    exact key k hk j hj
  · have hlt : (1 <<< 8) - 1 - (1 <<< k) < 2 ^ j := by
      have h1 : (1 <<< 8) - 1 - (1 <<< k) < 2 ^ 8 := by
        rw [Nat.one_shiftLeft, Nat.one_shiftLeft]
        have : 0 < 2 ^ k := Nat.two_pow_pos k
        omega
      exact lt_of_lt_of_le h1 (Nat.pow_le_pow_right (by norm_num) (by omega))
    rw [Nat.testBit_lt_two_pow hlt]
    simp [hj]

theorem clearBit_testBit (x k j : Nat) (hk : k < 8) :
    ((x &&& ((1 <<< 8) - 1 - (1 <<< k))).testBit j)
      = (x.testBit j && decide (j < 8) && !decide (j = k)) := by
  rw [Nat.testBit_and, clearMask_testBit k j hk, Bool.and_assoc]

theorem byte_testBit_high (x j : Nat) (hx : x < 256) (hj : ¬ j < 8) : x.testBit j = false := by
  apply Nat.testBit_lt_two_pow
  have h1 : (2 : Nat) ^ 8 ≤ 2 ^ j := Nat.pow_le_pow_right (by norm_num) (by omega)
  have h2 : (2 : Nat) ^ 8 = 256 := by norm_num
  omega

theorem setBit_lt (x k : Nat) : (x ||| (1 <<< k)) % 256 < 256 := Nat.mod_lt _ (by norm_num)

theorem clearBit_lt (x k : Nat) (hx : x < 256) : x &&& ((1 <<< 8) - 1 - (1 <<< k)) < 256 :=
  lt_of_le_of_lt Nat.and_le_left hx

theorem setBit_eq_or (x k : Nat) (hx : x < 256) (hk : k < 8) :
    (x ||| (1 <<< k)) % 256 = x ||| (1 <<< k) := by
  apply Nat.mod_eq_of_lt
  have h1 : (1 <<< k) < 2 ^ 8 := by
    rw [Nat.one_shiftLeft]
    exact Nat.pow_lt_pow_right (by norm_num) hk
  have h2 : x < 2 ^ 8 := by norm_num; exact hx
  have := Nat.or_lt_two_pow h2 h1
  norm_num at this
  exact this

theorem clear_after_set (x k : Nat) (hx : x < 256) (hk : k < 8) (hbit : x.testBit k = false) :
    ((x ||| (1 <<< k)) % 256) &&& ((1 <<< 8) - 1 - (1 <<< k)) = x := by
  apply Nat.eq_of_testBit_eq
  intro j
  rw [clearBit_testBit _ k j hk]
  by_cases hj : j < 8
  · rw [setBit_testBit x k j hj]
    by_cases hjk : j = k
    · subst hjk; simp [hbit]
    · simp [hjk, hj]
  · rw [byte_testBit_high x j hx hj]
    simp [hj]

end bustub

namespace bustub

theorem getD_set_eq {α : Type} (l : List α) (i j : Nat) (v d : α) :
    (l.set i v).getD j d = if j = i ∧ i < l.length then v else l.getD j d := by
  rw [List.getD_eq_getElem?_getD, List.getD_eq_getElem?_getD, List.getElem?_set]
  by_cases hji : j = i
  · subst hji
    by_cases hlt : j < l.length
    · simp [hlt]
    · have : l[j]? = none := List.getElem?_eq_none (by omega)
      simp [hlt, this]
  · have hij : ¬ i = j := fun e => hji e.symm
    simp [hji, hij]

theorem getD_set_byte (l : List Nat) (i j v : Nat) :
    (l.set i v).getD j 0 = if j = i ∧ i < l.length then v else l.getD j 0 :=
  getD_set_eq l i j v 0

theorem set_getD_self (l : List Nat) (i : Nat) : l.set i (l.getD i 0) = l := by
  induction l generalizing i with
  | nil => rfl
  | cons a l ih =>
    cases i with
    | zero => rfl
    | succ i =>
      have := ih i
      simp only [List.set_cons_succ, List.getD_cons_succ]
      rw [this]

theorem slot_eq_iff (i j : Nat) : (j / 8 = i / 8 ∧ 7 - j % 8 = 7 - i % 8) ↔ j = i := by
  constructor
  · rintro ⟨h1, h2⟩
    have := Nat.mod_lt i (by norm_num : 8 > 0)
    have := Nat.mod_lt j (by norm_num : 8 > 0)
    have := Nat.div_add_mod i 8
    have := Nat.div_add_mod j 8
    omega
  · rintro rfl
    exact ⟨rfl, rfl⟩

theorem find_range_none (p : Nat → Bool) (n : Nat) :
    (List.range n).find? p = none ↔ ∀ j, j < n → p j = false := by
  rw [List.find?_eq_none]
  constructor
  · intro h j hj
    have := h j (List.mem_range.mpr hj)
    simpa using this
  · intro h j hj
    have := h j (List.mem_range.mp hj)
    simp [this]

theorem find_range_some (p : Nat → Bool) (n i : Nat) :
    (List.range n).find? p = some i ↔ (i < n ∧ p i = true ∧ ∀ j, j < i → p j = false) := by
  induction n generalizing i with
  | zero => simp
  | succ n ih =>
    rw [List.range_succ, List.find?_append]
    cases hf : (List.range n).find? p with
    | some k =>
      have hk := (ih k).mp hf
      rw [Option.or_some]
      constructor
      · intro h
        have hki : k = i := Option.some.inj h
        subst hki
        exact ⟨by omega, hk.2.1, hk.2.2⟩
      · rintro ⟨_, h2, h3⟩
        rcases Nat.lt_trichotomy k i with hlt | heq | hgt
        · have := h3 k hlt
          rw [hk.2.1] at this
          exact Bool.noConfusion this
        · rw [heq]
        · have := hk.2.2 i hgt
          rw [h2] at this
          exact Bool.noConfusion this
    | none =>
      have hnone := (find_range_none p n).mp hf
      rw [Option.none_or]
      by_cases hpn : p n = true
      · rw [List.find?_cons_of_pos _ hpn]
        constructor
        · intro h
          have hni : n = i := Option.some.inj h
          subst hni
          exact ⟨by omega, hpn, hnone⟩
        · rintro ⟨h1, h2, _⟩
          have : i = n := by
            by_contra hne
            have hlt : i < n := by omega
            have := hnone i hlt
            rw [h2] at this
            exact Bool.noConfusion this
          rw [this]
      · rw [List.find?_cons_of_neg _ hpn, List.find?_nil]
        constructor
        · intro h; exact Option.noConfusion h
        · rintro ⟨h1, h2, _⟩
          exfalso
          by_cases hin : i = n
          · subst hin; exact hpn h2
          · have := hnone i (by omega)
            rw [h2] at this
            exact Bool.noConfusion this

end bustub

namespace bustub
namespace HashTableBucketPage

variable {K V : Type}

/-! ### Bitmap accessors -/

theorem IsOccupied_bit (b : HashTableBucketPage K V) (i : Nat) :
    b.IsOccupied i = (b.occupied.getD (i / 8) 0).testBit (7 - i % 8) := by
  unfold IsOccupied
  exact mask_testBit _ _

theorem IsReadable_bit (b : HashTableBucketPage K V) (i : Nat) :
    b.IsReadable i = (b.readable.getD (i / 8) 0).testBit (7 - i % 8) := by
  unfold IsReadable
  exact mask_testBit _ _

theorem layout_bytes (cap : Nat) (b : HashTableBucketPage K V) (h : b.layout cap = true) :
    b.occupied.length = (cap - 1) / 8 + 1 ∧ b.readable.length = (cap - 1) / 8 + 1
    ∧ b.array.length = cap ∧ (∀ j, b.occupied.getD j 0 < 256) ∧ (∀ j, b.readable.getD j 0 < 256) := by
  unfold layout at h
  simp only [Bool.and_eq_true, beq_iff_eq, List.all_eq_true, decide_eq_true_eq] at h
  obtain ⟨⟨⟨⟨h1, h2⟩, h3⟩, h4⟩, h5⟩ := h
  have key : ∀ (l : List Nat), (∀ x ∈ l, x < 256) → ∀ j, l.getD j 0 < 256 := by
    intro l hl j
    rw [List.getD_eq_getElem?_getD]
    cases hj : l[j]? with
    | none => simp
    | some x => exact hl x (List.getElem?_mem hj)
  exact ⟨h1, h2, h3, key _ h4, key _ h5⟩

theorem slot_byte_lt (cap i : Nat) (hi : i < cap) : i / 8 < (cap - 1) / 8 + 1 := by
  have : i / 8 ≤ (cap - 1) / 8 := Nat.div_le_div_right (by omega)
  omega

theorem set_bits_low (l : List Nat) (i j k : Nat) (hi : i / 8 < l.length) (hk : k < 8) :
    ((l.set (i / 8) ((l.getD (i / 8) 0 ||| (1 <<< (7 - i % 8))) % 256)).getD j 0).testBit k
      = ((l.getD j 0).testBit k || (decide (j = i / 8) && decide (k = 7 - i % 8))) := by
  rw [getD_set_byte]
  by_cases hj : j = i / 8
  · subst hj
    simp only [hi, and_self, if_true, decide_True, Bool.true_and]
    exact setBit_testBit _ _ _ hk
  · simp [hj]

theorem set_bits (l : List Nat) (i j k : Nat) (hi : i / 8 < l.length)
    (hl : ∀ j, l.getD j 0 < 256) :
    ((l.set (i / 8) ((l.getD (i / 8) 0 ||| (1 <<< (7 - i % 8))) % 256)).getD j 0).testBit k
      = ((l.getD j 0).testBit k || (decide (j = i / 8) && decide (k = 7 - i % 8))) := by
  by_cases hk : k < 8
  · exact set_bits_low l i j k hi hk
  · rw [getD_set_byte]
    have hne : ¬ k = 7 - i % 8 := by omega
    by_cases hj : j = i / 8
    · subst hj
      simp only [hi, and_self, if_true]
      rw [byte_testBit_high _ k (setBit_lt _ _) hk, byte_testBit_high _ k (hl _) hk]
      simp [hne]
    · simp [hj]

theorem clear_bits_low (l : List Nat) (i j k : Nat) (hk : k < 8) :
    ((l.set (i / 8) (l.getD (i / 8) 0 &&& ((1 <<< 8) - 1 - (1 <<< (7 - i % 8))))).getD j 0).testBit k
      = ((l.getD j 0).testBit k && !(decide (j = i / 8) && decide (k = 7 - i % 8))) := by
  rw [getD_set_byte]
  by_cases hj : j = i / 8
  · subst hj
    by_cases hi : i / 8 < l.length
    · simp only [hi, and_self, if_true, decide_True, Bool.true_and]
      rw [clearBit_testBit _ _ _ (by omega)]
      simp [hk]
    · have h1 : l[i / 8]? = none := List.getElem?_eq_none (by omega)
      simp [hi, h1]
  · simp [hj]

theorem clear_bits (l : List Nat) (i j k : Nat) (hl : ∀ j, l.getD j 0 < 256) :
    ((l.set (i / 8) (l.getD (i / 8) 0 &&& ((1 <<< 8) - 1 - (1 <<< (7 - i % 8))))).getD j 0).testBit k
      = ((l.getD j 0).testBit k && !(decide (j = i / 8) && decide (k = 7 - i % 8))) := by
  by_cases hk : k < 8
  · exact clear_bits_low l i j k hk
  · have hlt : (l.set (i / 8) (l.getD (i / 8) 0 &&& ((1 <<< 8) - 1 - (1 <<< (7 - i % 8))))).getD j 0
        < 256 := by
      rw [getD_set_byte]
      split
      · exact clearBit_lt _ _ (hl _)
      · exact hl _
    rw [byte_testBit_high _ k hlt hk, byte_testBit_high _ k (hl _) hk]
    rfl

theorem slot_bit_decide (i j : Nat) :
    (decide (j / 8 = i / 8) && decide (7 - j % 8 = 7 - i % 8)) = decide (j = i) := by
  by_cases h : j = i
  · subst h; simp
  · have : ¬ (j / 8 = i / 8 ∧ 7 - j % 8 = 7 - i % 8) := fun hc => h ((slot_eq_iff i j).mp hc)
    by_cases h1 : j / 8 = i / 8
    · have h2 : ¬ 7 - j % 8 = 7 - i % 8 := fun e => this ⟨h1, e⟩
      simp [h, h1, h2]
    · simp [h, h1]

theorem IsReadable_RemoveReadable (b : HashTableBucketPage K V) (i j : Nat) :
    (b.RemoveReadable i).IsReadable j = (b.IsReadable j && !decide (j = i)) := by
  rw [IsReadable_bit, IsReadable_bit, ← slot_bit_decide]
  exact clear_bits_low b.readable i (j / 8) (7 - j % 8) (by omega)

theorem IsReadable_SetReadable (b : HashTableBucketPage K V) (i j : Nat)
    (hi : i / 8 < b.readable.length) :
    (b.SetReadable i).IsReadable j = (b.IsReadable j || decide (j = i)) := by
  rw [IsReadable_bit, IsReadable_bit, ← slot_bit_decide]
  exact set_bits_low b.readable i (j / 8) (7 - j % 8) hi (by omega)

theorem IsOccupied_SetOccupied (b : HashTableBucketPage K V) (i j : Nat)
    (hi : i / 8 < b.occupied.length) :
    (b.SetOccupied i).IsOccupied j = (b.IsOccupied j || decide (j = i)) := by
  rw [IsOccupied_bit, IsOccupied_bit, ← slot_bit_decide]
  exact set_bits_low b.occupied i (j / 8) (7 - j % 8) hi (by omega)

theorem clear_set_list (l : List Nat) (i : Nat) (hi : i / 8 < l.length)
    (hl : ∀ j, l.getD j 0 < 256) (hbit : (l.getD (i / 8) 0).testBit (7 - i % 8) = false) :
    (l.set (i / 8) ((l.getD (i / 8) 0 ||| (1 <<< (7 - i % 8))) % 256)).set (i / 8)
        ((l.set (i / 8) ((l.getD (i / 8) 0 ||| (1 <<< (7 - i % 8))) % 256)).getD (i / 8) 0
          &&& ((1 <<< 8) - 1 - (1 <<< (7 - i % 8))))
      = l := by
  rw [getD_set_byte]
  simp only [hi, and_self, if_true]
  rw [clear_after_set _ _ (hl _) (by omega) hbit, List.set_set]
  exact set_getD_self l (i / 8)

end HashTableBucketPage
end bustub

namespace bustub
namespace HashTableBucketPage

variable {K V : Type}

/-- Claim C24. In a bucket page of capacity `cap` and a slot index `i < cap`:
`IsOccupied(i)` and `IsReadable(i)` return bit `7 - i mod 8` (mask
`1 << (7 - i mod 8)`) of byte `i / 8` of their bitmap; `SetOccupied(i)` and
`SetReadable(i)` replace that byte by itself or-ed with the mask, which sets
that bit and changes no other bit of the bitmap, and leave the other bitmap and
the pairs alone; `RemoveOccupied(i)` and `RemoveReadable(i)` clear that bit and
change nothing else; and a Remove after a Set on a clear bit gives back the
page as it was. -/
theorem bitmap_is_msb_first (cap : Nat) (b : HashTableBucketPage K V) (i : Nat)
    (hwf : b.layout cap = true) (hi : i < cap) :
    b.IsOccupied i = (b.occupied.getD (i / 8) 0).testBit (7 - i % 8)
    ∧ b.IsReadable i = (b.readable.getD (i / 8) 0).testBit (7 - i % 8)
    ∧ (b.SetOccupied i).occupied
        = b.occupied.set (i / 8) (b.occupied.getD (i / 8) 0 ||| (1 <<< (7 - i % 8)))
    ∧ (∀ j k, ((b.SetOccupied i).occupied.getD j 0).testBit k
        = ((b.occupied.getD j 0).testBit k || (decide (j = i / 8) && decide (k = 7 - i % 8))))
    ∧ (b.SetOccupied i).readable = b.readable ∧ (b.SetOccupied i).array = b.array
    ∧ (b.SetReadable i).readable
        = b.readable.set (i / 8) (b.readable.getD (i / 8) 0 ||| (1 <<< (7 - i % 8)))
    ∧ (∀ j k, ((b.SetReadable i).readable.getD j 0).testBit k
        = ((b.readable.getD j 0).testBit k || (decide (j = i / 8) && decide (k = 7 - i % 8))))
    ∧ (b.SetReadable i).occupied = b.occupied ∧ (b.SetReadable i).array = b.array
    ∧ (∀ j k, ((b.RemoveOccupied i).occupied.getD j 0).testBit k
        = ((b.occupied.getD j 0).testBit k && !(decide (j = i / 8) && decide (k = 7 - i % 8))))
    ∧ (b.RemoveOccupied i).readable = b.readable ∧ (b.RemoveOccupied i).array = b.array
    ∧ (∀ j k, ((b.RemoveReadable i).readable.getD j 0).testBit k
        = ((b.readable.getD j 0).testBit k && !(decide (j = i / 8) && decide (k = 7 - i % 8))))
    ∧ (b.RemoveReadable i).occupied = b.occupied ∧ (b.RemoveReadable i).array = b.array
    ∧ (b.IsOccupied i = false → (b.SetOccupied i).RemoveOccupied i = b)
    ∧ (b.IsReadable i = false → (b.SetReadable i).RemoveReadable i = b) := by
  obtain ⟨ho, hr, _, hob, hrb⟩ := layout_bytes cap b hwf
  have hio : i / 8 < b.occupied.length := by rw [ho]; exact slot_byte_lt cap i hi
  have hir : i / 8 < b.readable.length := by rw [hr]; exact slot_byte_lt cap i hi
  have hbit : 7 - i % 8 < 8 := by omega
  refine ⟨IsOccupied_bit b i, IsReadable_bit b i, ?_, ?_, rfl, rfl, ?_, ?_, rfl, rfl, ?_, rfl, rfl,
    ?_, rfl, rfl, ?_, ?_⟩
  · show b.occupied.set _ _ = _
    rw [setBit_eq_or _ _ (hob _) hbit]
  · intro j k
    exact set_bits b.occupied i j k hio hob
  · show b.readable.set _ _ = _
    rw [setBit_eq_or _ _ (hrb _) hbit]
  · intro j k
    exact set_bits b.readable i j k hir hrb
  · intro j k
    exact clear_bits b.occupied i j k hob
  · intro j k
    exact clear_bits b.readable i j k hrb
  · intro h
    rw [IsOccupied_bit] at h
    have := clear_set_list b.occupied i hio hob h
    cases b
    simp only [SetOccupied, RemoveOccupied] at this ⊢
    simp only [this]
  · intro h
    rw [IsReadable_bit] at h
    have := clear_set_list b.readable i hir hrb h
    cases b
    simp only [SetReadable, RemoveReadable] at this ⊢
    simp only [this]

/-- Witness for claim C24: in a bucket of capacity 10 whose bitmaps are the
bytes `0xA0, 0x40`, slot 9 lies in byte 1, bit 6, and it is occupied. -/
theorem bitmap_is_msb_first_witness :
    ({ occupied := [160, 64], readable := [160, 64],
       array := List.replicate 10 none } : HashTableBucketPage Int Int).IsOccupied 9
      = (([160, 64] : List Nat).getD (9 / 8) 0).testBit (7 - 9 % 8) :=
  (bitmap_is_msb_first 10
    ({ occupied := [160, 64], readable := [160, 64],
       array := List.replicate 10 none } : HashTableBucketPage Int Int) 9
    (by decide) (by decide)).1

end HashTableBucketPage
end bustub

namespace bustub
namespace HashTableBucketPage

variable {K V : Type}

/-! ### Remove -/

theorem Insert_true_slot [DecidableEq V] (cap : Nat) (cmp : K → K → Int)
    (b b1 : HashTableBucketPage K V) (key : K) (value : V)
    (h : Insert cap cmp b key value = some (true, b1)) :
    (∀ j, j < cap → (b.IsReadable j && pairMatches cmp b j key value) = false)
    ∧ ∃ i, i < cap ∧ b.IsOccupied i = false
        ∧ b1 = (({ b with array := b.array.set i (some (key, value)) } :
            HashTableBucketPage K V).SetOccupied i).SetReadable i := by
  unfold Insert at h
  by_cases hdup : (List.range cap).any (fun i => b.IsReadable i && pairMatches cmp b i key value)
      = true
  · rw [if_pos hdup] at h
    simp at h
  · rw [if_neg hdup] at h
    have hnodup : ∀ j, j < cap → (b.IsReadable j && pairMatches cmp b j key value) = false := by
      intro j hj
      cases hc : (b.IsReadable j && pairMatches cmp b j key value) with
      | false => rfl
      | true =>
        exfalso
        apply hdup
        exact List.any_eq_true.mpr ⟨j, List.mem_range.mpr hj, hc⟩
    refine ⟨hnodup, ?_⟩
    by_cases hfull : IsFull cap b = true
    · rw [if_pos hfull] at h
      simp at h
    · rw [if_neg hfull] at h
      cases hf : (List.range cap).find? (fun i => !b.IsOccupied i) with
      | none => rw [hf] at h; simp at h
      | some i =>
        rw [hf] at h
        have hi := (find_range_some _ cap i).mp hf
        refine ⟨i, hi.1, by simpa using hi.2.1, ?_⟩
        simp only [Option.some.injEq, Prod.mk.injEq, true_and] at h
        exact h.symm

theorem PairAt_set (b : HashTableBucketPage K V) (i j : Nat) (e : K × V)
    (hi : i < b.array.length) :
    PairAt ((({ b with array := b.array.set i (some e) } : HashTableBucketPage K V).SetOccupied
        i).SetReadable i) j
      = if j = i then some e else b.PairAt j := by
  show (b.array.set i (some e)).getD j none = _
  rw [getD_set_eq]
  by_cases hj : j = i
  · simp [hj, hi]
  · simp [hj, PairAt]

/-- Claim C21. For every bucket page, key and value: `Remove` returns true
exactly when some readable slot holds a key equal to the key together with the
value; when it returns false the page is unchanged; when it returns true the
readable bit of the lowest-index such slot is cleared, no other readable bit
changes, and the occupied bitmap and the stored pairs are as before. Hence, in
a page with the bucket layout and a comparator that finds a key equal to itself,
after a successful `Insert(k, v)` the call `Remove(k, v)` returns true and
`GetValue(k)` does not contain `v` afterwards. -/
theorem Remove_clears_first_match [DecidableEq V] (cap : Nat) (cmp : K → K → Int)
    (b : HashTableBucketPage K V) (key : K) (value : V) :
    ((Remove cap cmp b key value).1 = true
      ↔ ∃ i, i < cap ∧ b.IsReadable i = true ∧ pairMatches cmp b i key value = true)
    ∧ ((Remove cap cmp b key value).1 = false → (Remove cap cmp b key value).2 = b)
    ∧ ((Remove cap cmp b key value).1 = true →
        ∃ i, i < cap ∧ b.IsReadable i = true ∧ pairMatches cmp b i key value = true
          ∧ (∀ j, j < i → ¬ (b.IsReadable j = true ∧ pairMatches cmp b j key value = true))
          ∧ (Remove cap cmp b key value).2 = b.RemoveReadable i
          ∧ (Remove cap cmp b key value).2.occupied = b.occupied
          ∧ (Remove cap cmp b key value).2.array = b.array
          ∧ ∀ j, (Remove cap cmp b key value).2.IsReadable j
              = (b.IsReadable j && !decide (j = i)))
    ∧ (∀ b1, b.layout cap = true → cmp key key = 0 →
        Insert cap cmp b key value = some (true, b1) →
        (Remove cap cmp b1 key value).1 = true
        ∧ value ∉ (GetValue cap cmp (Remove cap cmp b1 key value).2 key []).2) := by
  have hsome : ∀ (c : HashTableBucketPage K V) (i : Nat),
      (List.range cap).find? (fun i => c.IsReadable i && pairMatches cmp c i key value) = some i →
      Remove cap cmp c key value = (true, c.RemoveReadable i) := by
    intro c i hf
    unfold Remove
    rw [hf]
  have hnone : ∀ (c : HashTableBucketPage K V),
      (List.range cap).find? (fun i => c.IsReadable i && pairMatches cmp c i key value) = none →
      Remove cap cmp c key value = (false, c) := by
    intro c hf
    unfold Remove
    rw [hf]
  refine ⟨?_, ?_, ?_, ?_⟩
  · cases hf : (List.range cap).find? (fun i => b.IsReadable i && pairMatches cmp b i key value) with
    | none =>
      rw [hnone b hf]
      have hall := (find_range_none _ cap).mp hf
      constructor
      · intro h; exact Bool.noConfusion h
      · rintro ⟨i, hi, hr, hp⟩
        have := hall i hi
        simp [hr, hp] at this
    | some i =>
      rw [hsome b i hf]
      have hi := (find_range_some _ cap i).mp hf
      have h2 := hi.2.1
      simp only [Bool.and_eq_true] at h2
      exact ⟨fun _ => ⟨i, hi.1, h2.1, h2.2⟩, fun _ => rfl⟩
  · cases hf : (List.range cap).find? (fun i => b.IsReadable i && pairMatches cmp b i key value) with
    | none => rw [hnone b hf]; intro _; rfl
    | some i => rw [hsome b i hf]; intro h; exact Bool.noConfusion h
  · cases hf : (List.range cap).find? (fun i => b.IsReadable i && pairMatches cmp b i key value) with
    | none => rw [hnone b hf]; intro h; exact Bool.noConfusion h
    | some i =>
      rw [hsome b i hf]
      intro _
      have hi := (find_range_some _ cap i).mp hf
      have h2 := hi.2.1
      simp only [Bool.and_eq_true] at h2
      refine ⟨i, hi.1, h2.1, h2.2, ?_, rfl, rfl, rfl, fun j => IsReadable_RemoveReadable b i j⟩
      intro j hj hc
      have := hi.2.2 j hj
      simp [hc.1, hc.2] at this
  · intro b1 hwf hrefl hins
    obtain ⟨hnodup, i, hi, _, hb1⟩ := Insert_true_slot cap cmp b b1 key value hins
    obtain ⟨_, hr, ha, _, _⟩ := layout_bytes cap b hwf
    have hir : i / 8 < b.readable.length := by rw [hr]; exact slot_byte_lt cap i hi
    have hia : i < b.array.length := by rw [ha]; exact hi
    have hread : ∀ j, b1.IsReadable j = (b.IsReadable j || decide (j = i)) := by
      intro j
      rw [hb1]
      exact IsReadable_SetReadable _ i j hir
    have hpair : ∀ j, b1.PairAt j = if j = i then some (key, value) else b.PairAt j := by
      intro j
      rw [hb1]
      exact PairAt_set b i j (key, value) hia
    have hmatch_i : pairMatches cmp b1 i key value = true := by
      unfold pairMatches
      rw [hpair i]
      simp [hrefl]
    have hmatch_ne : ∀ j, j ≠ i → pairMatches cmp b1 j key value = pairMatches cmp b j key value := by
      intro j hj
      unfold pairMatches
      rw [hpair j]
      simp [hj]
    have hfind : (List.range cap).find?
        (fun j => b1.IsReadable j && pairMatches cmp b1 j key value) = some i := by
      rw [find_range_some]
      refine ⟨hi, ?_, ?_⟩
      · rw [hread i, hmatch_i]; simp
      · intro j hj
        have hji : j ≠ i := by omega
        rw [hread j, hmatch_ne j hji]
        simpa [hji] using hnodup j (by omega)
    rw [hsome b1 i hfind]
    refine ⟨rfl, ?_⟩
    intro hmem
    have hscan : (GetValue cap cmp (b1.RemoveReadable i) key []).2
        = [] ++ (List.range cap).filterMap
          (fun j => if (b1.RemoveReadable i).IsReadable j && keyMatches cmp (b1.RemoveReadable i) j key
                    then ((b1.RemoveReadable i).PairAt j).map (fun e => e.2) else none) := by
      unfold GetValue
      exact GetValue_scan cmp (b1.RemoveReadable i) key (List.range cap) []
    rw [hscan, List.nil_append] at hmem
    obtain ⟨j, hj, hjv⟩ := List.mem_filterMap.mp hmem
    have hjc := List.mem_range.mp hj
    by_cases hc : ((b1.RemoveReadable i).IsReadable j && keyMatches cmp (b1.RemoveReadable i) j key)
        = true
    · rw [if_pos hc] at hjv
      simp only [Bool.and_eq_true] at hc
      have hrj := hc.1
      rw [IsReadable_RemoveReadable, hread j] at hrj
      have hji : j ≠ i := by
        intro e
        simp [e] at hrj
      have hbr : b.IsReadable j = true := by simpa [hji] using hrj
      have hpj : (b1.RemoveReadable i).PairAt j = b.PairAt j := by
        show b1.PairAt j = _
        rw [hpair j]
        simp [hji]
      have hkm := hc.2
      unfold keyMatches at hkm
      rw [hpj] at hkm hjv
      have hpm : pairMatches cmp b j key value = true := by
        unfold pairMatches
        cases hp : b.PairAt j with
        | none => rw [hp] at hkm; simp at hkm
        | some e =>
          obtain ⟨k, v⟩ := e
          rw [hp] at hkm hjv
          simp only [Option.map_some', Option.some.injEq] at hjv
          simp only at hkm
          simp [hkm, hjv]
      have := hnodup j hjc
      simp [hbr, hpm] at this
    · rw [if_neg hc] at hjv
      exact Option.noConfusion hjv

/-- Witness for claim C21: on the empty bucket of capacity 10, `Insert(3, 30)`
succeeds and fills slot 0; `Remove(3, 30)` then returns true and `GetValue(3)`
no longer contains 30. -/
theorem Remove_clears_first_match_witness :
    Insert 10 IntComparator (empty 10 : HashTableBucketPage Int Int) 3 30
      = some (true, { occupied := [128, 0], readable := [128, 0],
                      array := some (3, 30) :: List.replicate 9 none })
    ∧ (Remove 10 IntComparator
        ({ occupied := [128, 0], readable := [128, 0],
           array := some (3, 30) :: List.replicate 9 none } : HashTableBucketPage Int Int)
        3 30).1 = true
    ∧ (30 : Int) ∉ (GetValue 10 IntComparator
        (Remove 10 IntComparator
          ({ occupied := [128, 0], readable := [128, 0],
             array := some (3, 30) :: List.replicate 9 none } : HashTableBucketPage Int Int)
          3 30).2 3 []).2 :=
  ⟨by decide,
    (Remove_clears_first_match 10 IntComparator (empty 10 : HashTableBucketPage Int Int) 3 30).2.2.2
      { occupied := [128, 0], readable := [128, 0],
        array := some (3, 30) :: List.replicate 9 none } (by decide) (by decide) (by decide)⟩

end HashTableBucketPage
end bustub

namespace bustub

set_option maxRecDepth 100000 in
/-- Claim C22 fails on the code. With the capacity 496 of an `int`/`int` bucket
the byte loop of `IsFull` runs over the bytes 0 to 60 only and its bit loop
over `496 % 8 = 0` slots, so the last byte of the bitmap is never looked at: in
`bucket488` the occupied bits of the slots 488 to 495 are clear and `IsFull`
is true. With capacity 8 even the empty bucket is reported full. -/
theorem IsFull_ignores_last_byte :
    HashTableBucketPage.IsFull intBucketCapacity bucket488 = true
    ∧ (∀ i, i < 8 → bucket488.IsOccupied (488 + i) = false)
    ∧ HashTableBucketPage.IsFull 8 (HashTableBucketPage.empty 8 : HashTableBucketPage Int Int) = true
    ∧ (∀ i, i < 8 →
        (HashTableBucketPage.empty 8 : HashTableBucketPage Int Int).IsOccupied i = false) := by
  decide

set_option maxRecDepth 1000000 in
/-- The literal `bucketSlot7` is the state reached from the empty bucket of
capacity 496 by inserting the pairs `(0, 0)` to `(7, 7)` and then removing the
pairs `(0, 0)` to `(6, 6)`. -/
theorem bucketSlot7_reached :
    (insertRange intBucketCapacity (HashTableBucketPage.empty intBucketCapacity) 8).map
      (fun b => removeRange intBucketCapacity b 7) = some bucketSlot7 := by
  decide

set_option maxRecDepth 100000 in
/-- Claim C23 fails on the code. In `bucketSlot7` (capacity 496) exactly one
slot, slot 7, is readable, but `NumReadable` returns 61: its inner loop tests
`readable_[j] & (1 << j)` for `j` from 0 to 7, that is bit `j` of byte `j`,
once for each of the 61 rounds of the outer loop. -/
theorem NumReadable_counts_wrong_bits :
    HashTableBucketPage.readableCount intBucketCapacity bucketSlot7 = 1
    ∧ bucketSlot7.IsReadable 7 = true
    ∧ (∀ i, i < intBucketCapacity → i ≠ 7 → bucketSlot7.IsReadable i = false)
    ∧ HashTableBucketPage.NumReadable intBucketCapacity bucketSlot7 = 61 := by
  decide

end bustub

namespace bustub
namespace ExtendibleHashTable

/-! ### Directory growth -/

theorem IntComparator_eq_zero (a b : Int) : IntComparator a b = 0 ↔ a = b := by
  unfold IntComparator
  constructor
  · intro h
    by_cases h1 : a < b
    · rw [if_pos h1] at h; exact absurd h (by decide)
    · rw [if_neg h1] at h
      by_cases h2 : a > b
      · rw [if_pos h2] at h; exact absurd h (by decide)
      · omega
  · rintro rfl
    simp

theorem index_depth0 (h : ExtendibleHashTable) (key : Int) (dir : HashTableDirectoryPage)
    (hd : dir.global_depth = 0) : h.KeyToDirectoryIndex key dir = 0 := by
  unfold KeyToDirectoryIndex HashTableDirectoryPage.GetGlobalDepthMask
  rw [hd]
  simp

theorem index_depth1 (h : ExtendibleHashTable) (key : Int) (dir : HashTableDirectoryPage)
    (hd : dir.global_depth = 1) : h.KeyToDirectoryIndex key dir = h.hash_fn key % 2 := by
  unfold KeyToDirectoryIndex HashTableDirectoryPage.GetGlobalDepthMask Hash
  rw [hd, Nat.one_shiftLeft, Nat.and_pow_two_sub_one_eq_mod]
  omega

theorem range2 : List.range 2 = [0, 1] := rfl

theorem Insert_at (cap : Nat) (b b1 : HashTableBucketPage Int Int) (key value : Int) (i : Nat)
    (hdup : (List.range cap).any
      (fun i => b.IsReadable i && HashTableBucketPage.pairMatches IntComparator b i key value)
        = false)
    (hfull : HashTableBucketPage.IsFull cap b = false)
    (hfree : (List.range cap).find? (fun i => !b.IsOccupied i) = some i)
    (hres : (({ b with array := b.array.set i (some (key, value)) } :
        HashTableBucketPage Int Int).SetOccupied i).SetReadable i = b1) :
    HashTableBucketPage.Insert cap IntComparator b key value = some (true, b1) := by
  unfold HashTableBucketPage.Insert
  rw [hdup, hfull, hfree, ← hres]
  rfl

theorem bitmaps_only (o r : List Nat) (a : List (Option (Int × Int))) :
    (∀ i, HashTableBucketPage.IsReadable
        ({ occupied := o, readable := r, array := a } : HashTableBucketPage Int Int) i
      = HashTableBucketPage.IsReadable
        ({ occupied := o, readable := r, array := [] } : HashTableBucketPage Int Int) i)
    ∧ (∀ i, HashTableBucketPage.IsOccupied
        ({ occupied := o, readable := r, array := a } : HashTableBucketPage Int Int) i
      = HashTableBucketPage.IsOccupied
        ({ occupied := o, readable := r, array := [] } : HashTableBucketPage Int Int) i)
    ∧ (∀ cap, HashTableBucketPage.IsFull cap
        ({ occupied := o, readable := r, array := a } : HashTableBucketPage Int Int)
      = HashTableBucketPage.IsFull cap
        ({ occupied := o, readable := r, array := [] } : HashTableBucketPage Int Int)) :=
  ⟨fun _ => rfl, fun _ => rfl, fun _ => rfl⟩

theorem bucket_first (k v : Int) :
    HashTableBucketPage.Insert 2 IntComparator (HashTableBucketPage.empty 2) k v
      = some (true, { occupied := [128], readable := [128], array := [some (k, v), none] }) := by
  have e : (HashTableBucketPage.empty 2 : HashTableBucketPage Int Int)
      = { occupied := [0], readable := [0], array := [none, none] } := rfl
  rw [e]
  obtain ⟨hr, ho, hf⟩ := bitmaps_only [0] [0] [none, none]
  refine Insert_at 2 _ _ k v 0 ?_ ?_ ?_ ?_
  · rw [range2]
    simp only [List.any_cons, List.any_nil, hr]
    rw [show HashTableBucketPage.IsReadable
        ({ occupied := [0], readable := [0], array := [] } : HashTableBucketPage Int Int) 0 = false
        from by decide,
      show HashTableBucketPage.IsReadable
        ({ occupied := [0], readable := [0], array := [] } : HashTableBucketPage Int Int) 1 = false
        from by decide]
    rfl
  · rw [hf]; decide
  · simp only [ho]; decide
  · have h1 : ([0] : List Nat).set (0 / 8)
        ((([0] : List Nat).getD (0 / 8) 0 ||| 1 <<< (7 - 0 % 8)) % 256) = [128] := by decide
    show ({ occupied := ([0] : List Nat).set (0 / 8)
              ((([0] : List Nat).getD (0 / 8) 0 ||| 1 <<< (7 - 0 % 8)) % 256),
            readable := ([0] : List Nat).set (0 / 8)
              ((([0] : List Nat).getD (0 / 8) 0 ||| 1 <<< (7 - 0 % 8)) % 256),
            array := [some (k, v), none] } : HashTableBucketPage Int Int) = _
    rw [h1]

theorem bucket_second (k1 v1 k2 v2 : Int) (hne : k1 ≠ k2) :
    HashTableBucketPage.Insert 2 IntComparator
        { occupied := [128], readable := [128], array := [some (k1, v1), none] } k2 v2
      = some (true, { occupied := [192], readable := [192],
                      array := [some (k1, v1), some (k2, v2)] }) := by
  have hc : (IntComparator k1 k2 == 0) = false := by
    have := (IntComparator_eq_zero k1 k2).not.mpr hne
    simpa using this
  obtain ⟨hr, ho, hf⟩ := bitmaps_only [128] [128] [some (k1, v1), none]
  have hp : HashTableBucketPage.pairMatches IntComparator
      ({ occupied := [128], readable := [128], array := [some (k1, v1), none] } :
        HashTableBucketPage Int Int) 0 k2 v2 = false := by
    show (IntComparator k1 k2 == 0 && v1 == v2) = false
    rw [hc]
    rfl
  refine Insert_at 2 _ _ k2 v2 1 ?_ ?_ ?_ ?_
  · rw [range2]
    simp only [List.any_cons, List.any_nil, hp, hr]
    rw [show HashTableBucketPage.IsReadable
        ({ occupied := [128], readable := [128], array := [] } : HashTableBucketPage Int Int) 1
          = false from by decide]
    simp
  · rw [hf]; decide
  · simp only [ho]; decide
  · have h1 : ([128] : List Nat).set (1 / 8)
        ((([128] : List Nat).getD (1 / 8) 0 ||| 1 <<< (7 - 1 % 8)) % 256) = [192] := by decide
    show ({ occupied := ([128] : List Nat).set (1 / 8)
              ((([128] : List Nat).getD (1 / 8) 0 ||| 1 <<< (7 - 1 % 8)) % 256),
            readable := ([128] : List Nat).set (1 / 8)
              ((([128] : List Nat).getD (1 / 8) 0 ||| 1 <<< (7 - 1 % 8)) % 256),
            array := [some (k1, v1), some (k2, v2)] } : HashTableBucketPage Int Int) = _
    rw [h1]

theorem Insert_of_loop (fuel : Nat) (h h1 : ExtendibleHashTable) (key value : Int)
    (pid : page_id_t) (b : HashTableBucketPage Int Int)
    (hloop : splitLoop fuel h key (h.KeyToPageId key h.dir) = some (h1, pid))
    (hb : h1.FetchBucketPage pid = some b) :
    Insert fuel h key value
      = (HashTableBucketPage.Insert h1.cap IntComparator b key value).map
          (fun r => (r.1, h1.putBucket pid r.2)) := by
  unfold Insert
  simp only [hloop, hb]
  cases HashTableBucketPage.Insert h1.cap IntComparator b key value with
  | none => rfl
  | some r => rfl

theorem splitLoop_done (fuel : Nat) (h : ExtendibleHashTable) (key : Int) (pid : page_id_t)
    (b : HashTableBucketPage Int Int) (hb : h.FetchBucketPage pid = some b)
    (hfull : HashTableBucketPage.IsFull h.cap b = false) :
    splitLoop (fuel + 1) h key pid = some (h, pid) := by
  unfold splitLoop
  simp only [hb, hfull, Bool.not_false, if_true]

theorem splitLoop_split (fuel : Nat) (h : ExtendibleHashTable) (key : Int) (pid : page_id_t)
    (b : HashTableBucketPage Int Int) (hb : h.FetchBucketPage pid = some b)
    (hfull : HashTableBucketPage.IsFull h.cap b = true) :
    splitLoop (fuel + 1) h key pid
      = splitLoop fuel (splitOnce h key pid b) key
          ((splitOnce h key pid b).KeyToPageId key (splitOnce h key pid b).dir) := by
  rw [splitLoop]
  simp only [hb, hfull, Bool.not_true, Bool.false_eq_true, if_false]
  rfl

theorem redistribute_fold (h : ExtendibleHashTable) (dir : HashTableDirectoryPage)
    (b : HashTableBucketPage Int Int) (p0 : page_id_t)
    (s0 s1 : HashTableBucketPage Int Int) :
    redistribute h dir b p0 s0 s1
      = (List.range h.cap).foldl (redistributeStep h dir b p0) (s0, s1) := rfl

theorem redistributeStep_left (h : ExtendibleHashTable) (dir : HashTableDirectoryPage)
    (b : HashTableBucketPage Int Int) (p0 : page_id_t)
    (acc : HashTableBucketPage Int Int × HashTableBucketPage Int Int) (i : Nat) (k v : Int)
    (ok : Bool) (s : HashTableBucketPage Int Int)
    (hr : b.IsReadable i = true) (hp : b.PairAt i = some (k, v))
    (hidx : dir.GetBucketPageId (h.KeyToDirectoryIndex k dir) = p0)
    (hins : HashTableBucketPage.Insert h.cap IntComparator acc.1 k v = some (ok, s)) :
    redistributeStep h dir b p0 acc i = (s, acc.2) := by
  unfold redistributeStep
  simp only [hr, hp, hidx, hins, if_true]

theorem splitOnce_eq (h : ExtendibleHashTable) (key : Int) (pid : page_id_t)
    (b : HashTableBucketPage Int Int) (idx : Nat) (d : HashTableDirectoryPage)
    (s : HashTableBucketPage Int Int × HashTableBucketPage Int Int)
    (hidx : h.KeyToDirectoryIndex key h.dir = idx)
    (hd : splitDirectory h.dir idx h.NewPage.1 h.NewPage.2.NewPage.1 = d)
    (hs : redistribute h d b h.NewPage.1 (HashTableBucketPage.empty h.cap)
      (HashTableBucketPage.empty h.cap) = s) :
    splitOnce h key pid b
      = { ((h.NewPage.2.NewPage.2.putBucket h.NewPage.1 s.1).putBucket
            h.NewPage.2.NewPage.1 s.2).DeletePage pid with dir := d } := by
  subst hidx hd hs
  rfl

end ExtendibleHashTable
end bustub

namespace bustub
namespace ExtendibleHashTable

theorem Insert_not_full (fuel : Nat) (h : ExtendibleHashTable) (key value : Int)
    (b : HashTableBucketPage Int Int)
    (hb : h.FetchBucketPage (h.KeyToPageId key h.dir) = some b)
    (hfull : HashTableBucketPage.IsFull h.cap b = false) :
    Insert (fuel + 1) h key value
      = (HashTableBucketPage.Insert h.cap IntComparator b key value).map
          (fun r => (r.1, h.putBucket (h.KeyToPageId key h.dir) r.2)) :=
  Insert_of_loop (fuel + 1) h h key value _ b (splitLoop_done fuel h key _ b hb hfull) hb

theorem growth_first (fuel : Nat) (f : Int → Nat) (k1 v1 : Int) :
    Insert (fuel + 1) (init 2 f) k1 v1
      = some (true, { cap := 2, hash_fn := f, directory_page_id := 0,
                      dir := (init 2 f).dir,
                      buckets := [(1, { occupied := [128], readable := [128],
                                        array := [some (k1, v1), none] })],
                      next_page_id := 2 }) := by
  have hnot : HashTableBucketPage.IsFull 2
      (HashTableBucketPage.empty 2 : HashTableBucketPage Int Int) = false := by decide
  rw [Insert_not_full fuel (init 2 f) k1 v1 (HashTableBucketPage.empty 2) rfl hnot]
  rw [show (init 2 f).cap = 2 from rfl, bucket_first]
  rfl

theorem growth_second (fuel : Nat) (f : Int → Nat) (k1 v1 k2 v2 : Int) (hne : k1 ≠ k2) :
    Insert (fuel + 1)
        { cap := 2, hash_fn := f, directory_page_id := 0, dir := (init 2 f).dir,
          buckets := [(1, { occupied := [128], readable := [128],
                            array := [some (k1, v1), none] })],
          next_page_id := 2 } k2 v2
      = some (true, { cap := 2, hash_fn := f, directory_page_id := 0,
                      dir := (init 2 f).dir,
                      buckets := [(1, { occupied := [192], readable := [192],
                                        array := [some (k1, v1), some (k2, v2)] })],
                      next_page_id := 2 }) := by
  have hnot : HashTableBucketPage.IsFull 2
      ({ occupied := [128], readable := [128], array := [some (k1, v1), none] } :
        HashTableBucketPage Int Int) = false := by
    rw [(bitmaps_only _ _ _).2.2]; decide
  have hins := Insert_not_full fuel
    { cap := 2, hash_fn := f, directory_page_id := 0, dir := (init 2 f).dir,
      buckets := [(1, { occupied := [128], readable := [128],
                        array := [some (k1, v1), none] })],
      next_page_id := 2 } k2 v2
    { occupied := [128], readable := [128], array := [some (k1, v1), none] } rfl hnot
  rw [hins]
  have hb := bucket_second k1 v1 k2 v2 hne
  exact (congrArg (Option.map _) hb).trans rfl

theorem growth_redistribute (h : ExtendibleHashTable) (dir : HashTableDirectoryPage)
    (k1 v1 k2 v2 : Int) (hne : k1 ≠ k2) (hcap : h.cap = 2)
    (h1 : dir.GetBucketPageId (h.KeyToDirectoryIndex k1 dir) = 2)
    (h2 : dir.GetBucketPageId (h.KeyToDirectoryIndex k2 dir) = 2) :
    redistribute h dir
        { occupied := [192], readable := [192], array := [some (k1, v1), some (k2, v2)] } 2
        (HashTableBucketPage.empty 2) (HashTableBucketPage.empty 2)
      = ({ occupied := [192], readable := [192], array := [some (k1, v1), some (k2, v2)] },
         HashTableBucketPage.empty 2) := by
  obtain ⟨hr, _, _⟩ := bitmaps_only [192] [192] [some (k1, v1), some (k2, v2)]
  have r0 : HashTableBucketPage.IsReadable
      ({ occupied := [192], readable := [192], array := [some (k1, v1), some (k2, v2)] } :
        HashTableBucketPage Int Int) 0 = true := by
    rw [hr]; decide
  have r1 : HashTableBucketPage.IsReadable
      ({ occupied := [192], readable := [192], array := [some (k1, v1), some (k2, v2)] } :
        HashTableBucketPage Int Int) 1 = true := by
    rw [hr]; decide
  have s0 := redistributeStep_left h dir
    { occupied := [192], readable := [192], array := [some (k1, v1), some (k2, v2)] } 2
    (HashTableBucketPage.empty 2, HashTableBucketPage.empty 2) 0 k1 v1 true
    { occupied := [128], readable := [128], array := [some (k1, v1), none] } r0 rfl h1
    (by rw [hcap]; exact bucket_first k1 v1)
  have s1 := redistributeStep_left h dir
    { occupied := [192], readable := [192], array := [some (k1, v1), some (k2, v2)] } 2
    ({ occupied := [128], readable := [128], array := [some (k1, v1), none] },
      HashTableBucketPage.empty 2) 1 k2 v2 true
    { occupied := [192], readable := [192], array := [some (k1, v1), some (k2, v2)] } r1 rfl h2
    (by rw [hcap]; exact bucket_second k1 v1 k2 v2 hne)
  rw [redistribute_fold, hcap, range2, List.foldl_cons, List.foldl_cons, List.foldl_nil, s0, s1]

theorem growth_splitOnce (f : Int → Nat) (k1 v1 k2 v2 key : Int) (hne : k1 ≠ k2)
    (h1 : f k1 % 2 = 0) (h2 : f k2 % 2 = 0) :
    splitOnce
        { cap := 2, hash_fn := f, directory_page_id := 0, dir := (init 2 f).dir,
          buckets := [(1, { occupied := [192], readable := [192],
                            array := [some (k1, v1), some (k2, v2)] })],
          next_page_id := 2 } key 1
        { occupied := [192], readable := [192], array := [some (k1, v1), some (k2, v2)] }
      = { cap := 2, hash_fn := f, directory_page_id := 0, dir := grownDirectory,
          buckets := [(2, { occupied := [192], readable := [192],
                            array := [some (k1, v1), some (k2, v2)] }),
                      (3, HashTableBucketPage.empty 2)],
          next_page_id := 4 } := by
  have hgd : grownDirectory.global_depth = 1 := by decide
  have g0 : grownDirectory.GetBucketPageId 0 = 2 := by decide
  have hred := growth_redistribute
    { cap := 2, hash_fn := f, directory_page_id := 0, dir := (init 2 f).dir,
      buckets := [(1, { occupied := [192], readable := [192],
                        array := [some (k1, v1), some (k2, v2)] })],
      next_page_id := 2 } grownDirectory k1 v1 k2 v2 hne rfl
    (by rw [index_depth1 _ k1 grownDirectory hgd]
        exact (congrArg grownDirectory.GetBucketPageId h1).trans g0)
    (by rw [index_depth1 _ k2 grownDirectory hgd]
        exact (congrArg grownDirectory.GetBucketPageId h2).trans g0)
  have hidx := index_depth0
    { cap := 2, hash_fn := f, directory_page_id := 0, dir := (init 2 f).dir,
      buckets := [(1, { occupied := [192], readable := [192],
                        array := [some (k1, v1), some (k2, v2)] })],
      next_page_id := 2 } key (init 2 f).dir rfl
  have hdir : splitDirectory (init 2 f).dir 0 2 3 = grownDirectory := rfl
  rw [splitOnce_eq _ key 1 _ 0 grownDirectory _ hidx hdir hred]
  rfl

theorem growth_third (fuel : Nat) (f : Int → Nat) (k1 v1 k2 v2 k3 v3 : Int) (hne : k1 ≠ k2)
    (h1 : f k1 % 2 = 0) (h2 : f k2 % 2 = 0) (h3 : f k3 % 2 = 1) :
    Insert (fuel + 2)
        { cap := 2, hash_fn := f, directory_page_id := 0, dir := (init 2 f).dir,
          buckets := [(1, { occupied := [192], readable := [192],
                            array := [some (k1, v1), some (k2, v2)] })],
          next_page_id := 2 } k3 v3
      = some (true,
          { cap := 2, hash_fn := f, directory_page_id := 0, dir := grownDirectory,
            buckets := [(2, { occupied := [192], readable := [192],
                              array := [some (k1, v1), some (k2, v2)] }),
                        (3, { occupied := [128], readable := [128],
                              array := [some (k3, v3), none] })],
            next_page_id := 4 }) := by
  have hgd : grownDirectory.global_depth = 1 := by decide
  have hpid : ∀ (t : ExtendibleHashTable), t.hash_fn = f →
      t.KeyToPageId k3 grownDirectory = 3 := by
    intro t ht
    unfold KeyToPageId
    rw [index_depth1 _ k3 grownDirectory hgd, ht, h3]
    decide
  have hfull : HashTableBucketPage.IsFull 2
      ({ occupied := [192], readable := [192], array := [some (k1, v1), some (k2, v2)] } :
        HashTableBucketPage Int Int) = true := by
    rw [(bitmaps_only _ _ _).2.2]; decide
  have hnot : HashTableBucketPage.IsFull 2
      (HashTableBucketPage.empty 2 : HashTableBucketPage Int Int) = false := by decide
  have hdone := splitLoop_done fuel
    { cap := 2, hash_fn := f, directory_page_id := 0, dir := grownDirectory,
      buckets := [(2, { occupied := [192], readable := [192],
                        array := [some (k1, v1), some (k2, v2)] }),
                  (3, HashTableBucketPage.empty 2)],
      next_page_id := 4 } k3 3 (HashTableBucketPage.empty 2) rfl hnot
  have hsplit := splitLoop_split (fuel + 1)
    { cap := 2, hash_fn := f, directory_page_id := 0, dir := (init 2 f).dir,
      buckets := [(1, { occupied := [192], readable := [192],
                        array := [some (k1, v1), some (k2, v2)] })],
      next_page_id := 2 } k3 1
    { occupied := [192], readable := [192], array := [some (k1, v1), some (k2, v2)] } rfl hfull
  rw [growth_splitOnce f k1 v1 k2 v2 k3 hne h1 h2] at hsplit
  rw [hpid _ rfl, hdone] at hsplit
  rw [Insert_of_loop (fuel + 2) _ _ k3 v3 3 (HashTableBucketPage.empty 2) hsplit rfl]
  rw [bucket_first]
  rfl

end ExtendibleHashTable
end bustub

namespace bustub
namespace ExtendibleHashTable

theorem bucket_get_first (k1 v1 k2 v2 : Int) (hne : k1 ≠ k2) :
    HashTableBucketPage.GetValue 2 IntComparator
        { occupied := [192], readable := [192], array := [some (k1, v1), some (k2, v2)] } k1 []
      = (true, [v1]) := by
  have hc : ¬ IntComparator k2 k1 = 0 := (IntComparator_eq_zero k2 k1).not.mpr (fun e => hne e.symm)
  have hr : ∀ i, HashTableBucketPage.IsReadable
      ({ occupied := [192], readable := [192], array := [some (k1, v1), some (k2, v2)] } :
        HashTableBucketPage Int Int) i
      = HashTableBucketPage.IsReadable
      ({ occupied := [], readable := [192], array := [] } : HashTableBucketPage Int Int) i :=
    fun _ => rfl
  unfold HashTableBucketPage.GetValue
  rw [range2]
  simp only [List.foldl_cons, List.foldl_nil, hr]
  simp [HashTableBucketPage.keyMatches, HashTableBucketPage.PairAt, hc,
    (IntComparator_eq_zero k1 k1).mpr rfl,
    show HashTableBucketPage.IsReadable
      ({ occupied := [], readable := [192], array := [] } : HashTableBucketPage Int Int) 0 = true
      from by decide,
    show HashTableBucketPage.IsReadable
      ({ occupied := [], readable := [192], array := [] } : HashTableBucketPage Int Int) 1 = true
      from by decide]

theorem bucket_get_second (k1 v1 k2 v2 : Int) (hne : k1 ≠ k2) :
    HashTableBucketPage.GetValue 2 IntComparator
        { occupied := [192], readable := [192], array := [some (k1, v1), some (k2, v2)] } k2 []
      = (true, [v2]) := by
  have hc : ¬ IntComparator k1 k2 = 0 := (IntComparator_eq_zero k1 k2).not.mpr hne
  have hr : ∀ i, HashTableBucketPage.IsReadable
      ({ occupied := [192], readable := [192], array := [some (k1, v1), some (k2, v2)] } :
        HashTableBucketPage Int Int) i
      = HashTableBucketPage.IsReadable
      ({ occupied := [], readable := [192], array := [] } : HashTableBucketPage Int Int) i :=
    fun _ => rfl
  unfold HashTableBucketPage.GetValue
  rw [range2]
  simp only [List.foldl_cons, List.foldl_nil, hr]
  simp [HashTableBucketPage.keyMatches, HashTableBucketPage.PairAt, hc,
    (IntComparator_eq_zero k2 k2).mpr rfl,
    show HashTableBucketPage.IsReadable
      ({ occupied := [], readable := [192], array := [] } : HashTableBucketPage Int Int) 0 = true
      from by decide,
    show HashTableBucketPage.IsReadable
      ({ occupied := [], readable := [192], array := [] } : HashTableBucketPage Int Int) 1 = true
      from by decide]

theorem bucket_get_single (k v : Int) :
    HashTableBucketPage.GetValue 2 IntComparator
        { occupied := [128], readable := [128], array := [some (k, v), none] } k []
      = (true, [v]) := by
  have hr : ∀ i, HashTableBucketPage.IsReadable
      ({ occupied := [128], readable := [128], array := [some (k, v), none] } :
        HashTableBucketPage Int Int) i
      = HashTableBucketPage.IsReadable
      ({ occupied := [], readable := [128], array := [] } : HashTableBucketPage Int Int) i :=
    fun _ => rfl
  unfold HashTableBucketPage.GetValue
  rw [range2]
  simp only [List.foldl_cons, List.foldl_nil, hr]
  simp [HashTableBucketPage.keyMatches, HashTableBucketPage.PairAt,
    (IntComparator_eq_zero k k).mpr rfl,
    show HashTableBucketPage.IsReadable
      ({ occupied := [], readable := [128], array := [] } : HashTableBucketPage Int Int) 0 = true
      from by decide,
    show HashTableBucketPage.IsReadable
      ({ occupied := [], readable := [128], array := [] } : HashTableBucketPage Int Int) 1 = false
      from by decide]

theorem insertAll_cons_of (fuel : Nat) (h h1 : ExtendibleHashTable) (k v : Int) (ok : Bool)
    (rest : List (Int × Int)) (hins : Insert fuel h k v = some (ok, h1)) :
    insertAll fuel h ((k, v) :: rest)
      = (insertAll fuel h1 rest).map (fun r => (ok :: r.1, r.2)) := by
  rw [insertAll, hins]

/-- Claim C26 as amended. With bucket capacity 2 and an initially empty table,
inserting three keys whose 32-bit hashes end in binary 00, 10 and 01 (in that
order) succeeds three times and leaves `global_depth = 1` and a directory of
length 2; the initial bucket (page 1) has been split once into the pages 2 and
3, referenced by the slots 0 and 1 with local depth 1; and `GetValue` returns
the inserted value for each of the three keys. -/
theorem three_inserts_grow_directory_once (f : Int → Nat) (k1 v1 k2 v2 k3 v3 : Int) (fuel : Nat)
    (h1 : (init 2 f).Hash k1 % 4 = 0) (h2 : (init 2 f).Hash k2 % 4 = 2)
    (h3 : (init 2 f).Hash k3 % 4 = 1) (hfuel : 2 ≤ fuel) :
    (insertAll fuel (init 2 f) [(k1, v1), (k2, v2), (k3, v3)]).map (fun r => r.1)
      = some [true, true, true]
    ∧ (insertAll fuel (init 2 f) [(k1, v1), (k2, v2), (k3, v3)]).map
        (fun r => (r.2.dir.global_depth, r.2.dir.Size)) = some (1, 2)
    ∧ (insertAll fuel (init 2 f) [(k1, v1), (k2, v2), (k3, v3)]).map
        (fun r => (r.2.buckets.map (fun e => e.1),
          r.2.dir.GetBucketPageId 0, r.2.dir.GetBucketPageId 1,
          r.2.dir.GetLocalDepth 0, r.2.dir.GetLocalDepth 1)) = some ([2, 3], 2, 3, 1, 1)
    ∧ (insertAll fuel (init 2 f) [(k1, v1), (k2, v2), (k3, v3)]).bind
        (fun r => r.2.GetValue k1 []) = some (true, [v1])
    ∧ (insertAll fuel (init 2 f) [(k1, v1), (k2, v2), (k3, v3)]).bind
        (fun r => r.2.GetValue k2 []) = some (true, [v2])
    ∧ (insertAll fuel (init 2 f) [(k1, v1), (k2, v2), (k3, v3)]).bind
        (fun r => r.2.GetValue k3 []) = some (true, [v3]) := by
  obtain ⟨n, rfl⟩ : ∃ n, fuel = n + 1 + 1 := ⟨fuel - 2, by omega⟩
  change f k1 % 2 ^ 32 % 4 = 0 at h1
  change f k2 % 2 ^ 32 % 4 = 2 at h2
  change f k3 % 2 ^ 32 % 4 = 1 at h3
  have e1 : f k1 % 2 = 0 := by omega
  have e2 : f k2 % 2 = 0 := by omega
  have e3 : f k3 % 2 = 1 := by omega
  have hne : k1 ≠ k2 := by
    intro e
    rw [e] at h1
    omega
  have hgd : grownDirectory.global_depth = 1 := by decide
  have hrun : insertAll (n + 1 + 1) (init 2 f) [(k1, v1), (k2, v2), (k3, v3)]
      = some ([true, true, true],
          { cap := 2, hash_fn := f, directory_page_id := 0, dir := grownDirectory,
            buckets := [(2, { occupied := [192], readable := [192],
                              array := [some (k1, v1), some (k2, v2)] }),
                        (3, { occupied := [128], readable := [128],
                              array := [some (k3, v3), none] })],
            next_page_id := 4 }) := by
    rw [insertAll_cons_of _ _ _ _ _ _ _ (growth_first (n + 1) f k1 v1),
      insertAll_cons_of _ _ _ _ _ _ _ (growth_second (n + 1) f k1 v1 k2 v2 hne),
      insertAll_cons_of _ _ _ _ _ _ _ (growth_third n f k1 v1 k2 v2 k3 v3 hne e1 e2 e3)]
    rfl
  have hget : ∀ (k : Int) (p : page_id_t) (b : HashTableBucketPage Int Int),
      grownDirectory.GetBucketPageId (f k % 2) = p →
      FetchBucketPage
        { cap := 2, hash_fn := f, directory_page_id := 0, dir := grownDirectory,
          buckets := [(2, { occupied := [192], readable := [192],
                            array := [some (k1, v1), some (k2, v2)] }),
                      (3, { occupied := [128], readable := [128],
                            array := [some (k3, v3), none] })],
          next_page_id := 4 } p = some b →
      GetValue
        { cap := 2, hash_fn := f, directory_page_id := 0, dir := grownDirectory,
          buckets := [(2, { occupied := [192], readable := [192],
                            array := [some (k1, v1), some (k2, v2)] }),
                      (3, { occupied := [128], readable := [128],
                            array := [some (k3, v3), none] })],
          next_page_id := 4 } k []
        = some (HashTableBucketPage.GetValue 2 IntComparator b k []) := by
    intro k p b hp hb
    unfold GetValue KeyToPageId
    simp only []
    rw [index_depth1 _ k grownDirectory hgd]
    show (match FetchBucketPage _ (grownDirectory.GetBucketPageId (f k % 2)) with
      | none => none
      | some bucket_node => _) = _
    rw [hp, hb]
  rw [hrun]
  refine ⟨rfl, ?_, ?_, ?_, ?_, ?_⟩
  · show some (grownDirectory.global_depth, grownDirectory.Size) = some (1, 2)
    decide
  · show some (([2, 3] : List page_id_t), grownDirectory.GetBucketPageId 0,
      grownDirectory.GetBucketPageId 1, grownDirectory.GetLocalDepth 0,
      grownDirectory.GetLocalDepth 1) = some ([2, 3], 2, 3, 1, 1)
    decide
  · show GetValue _ k1 [] = _
    rw [hget k1 2 _ (by rw [e1]; decide) (by rfl), bucket_get_first k1 v1 k2 v2 hne]
  · show GetValue _ k2 [] = _
    rw [hget k2 2 _ (by rw [e2]; decide) (by rfl), bucket_get_second k1 v1 k2 v2 hne]
  · show GetValue _ k3 [] = _
    rw [hget k3 3 _ (by rw [e3]; decide) (by rfl), bucket_get_single k3 v3]

end ExtendibleHashTable
end bustub

namespace bustub
namespace ExtendibleHashTable

/-- Witness for the amended claim C26: identity hash, the keys 4, 6 and 9
(hashes ending in 00, 10 and 01) and two split iterations per insert. -/
theorem three_inserts_grow_directory_once_witness :
    (insertAll 2 (init 2 (fun k => k.toNat)) [(4, 40), (6, 60), (9, 90)]).map
        (fun r => (r.2.dir.global_depth, r.2.dir.Size)) = some (1, 2) :=
  (three_inserts_grow_directory_once (fun k => k.toNat) 4 40 6 60 9 90 2
    (by decide) (by decide) (by decide) (by decide)).2.1

end ExtendibleHashTable
end bustub

namespace bustub

/-! ## Extendible hash table: directory invariant, growth, coalescing -/

/-- Claim C25 fails on the code. The directory invariant holds in the empty
table, but not in two states reached from it. After the six inserts of
`sixPairs` (inserts only) slot 1 has local depth 1 and references page 3 while
slot 3, which agrees with it in the low bit, has local depth 2 and references
page 6: the split of a bucket whose local depth is below the global depth
rewires slot `bucket_idx` and slot `bucket_idx + 2^(global_depth-1)` only.
After the history `rightBucketMerged` (with removals) slot 0 has local depth 1
and references page 6 while slot 2 has local depth 0 and references page 7: the
merge branch of `Remove` leaves the bucket page-ids as they are and sets the
local depth of the right slot to 0. -/
theorem directory_invariant_broken :
    identityTable.dir.invariant = true
    ∧ sixInserted.map (fun r => r.2.dir.invariant) = some false
    ∧ sixInserted.map (fun r => (r.2.dir.global_depth,
        r.2.dir.GetLocalDepth 1, r.2.dir.GetBucketPageId 1,
        r.2.dir.GetLocalDepth 3, r.2.dir.GetBucketPageId 3)) = some (2, 1, 3, 2, 6)
    ∧ fourBuckets.map (fun r => r.2.dir.invariant) = some true
    ∧ rightBucketMerged.map (fun r => r.2.dir.invariant) = some false
    ∧ rightBucketMerged.map (fun r => (r.2.dir.global_depth,
        r.2.dir.GetLocalDepth 0, r.2.dir.GetBucketPageId 0,
        r.2.dir.GetLocalDepth 2, r.2.dir.GetBucketPageId 2)) = some (2, 1, 6, 0, 7) := by
  decide

/-- Claim C26 as stated fails. With bucket capacity 2 and the identity hash,
the keys 0, 2 and 1 have hashes ending in binary 00, 10 and 01; after the three
inserts the global depth is 1 and the directory has 2 slots, not 2 and 4. -/
theorem three_inserts_stop_at_depth_one :
    (ExtendibleHashTable.insertAll 8 identityTable [(0, 100), (2, 102), (1, 101)]).map
        (fun r => (r.1, r.2.dir.global_depth, r.2.dir.Size)) = some ([true, true, true], 1, 2)
    ∧ ¬ ((ExtendibleHashTable.insertAll 8 identityTable [(0, 100), (2, 102), (1, 101)]).map
        (fun r => (r.2.dir.global_depth, r.2.dir.Size)) = some (2, 4)) := by
  decide

/-- Claim C27 fails on the code. (a) In `lastPairRemoved` the call
`Remove(1, 101)` removes the last live pair of the bucket of slot 1, whose
local depth 1 equals that of its split image, slot 0; the occupied bit of the
slot stays set, `IsEmpty` is false and nothing is coalesced: the slots keep
referencing the pages 2 and 3 with local depth 1. (b) In `leftBucketUnused`
the bucket of slot 0 (page 2) is empty, with the same local depth 1 as its
split image; `Remove(0, 0)` deletes page 2 but leaves slot 0 referencing it, so
after the directory has shrunk to global depth 0 the pairs of the surviving
bucket (page 3) are no longer returned by `GetValue`. (c) In `fourBuckets`
the bucket of slot 2 (page 7) is empty, with the same local depth 2 as its
split image, slot 0; after `Remove(2, 0)` slot 0 references page 6 with local
depth 1 and slot 2 references the deleted page 7 with local depth 0. -/
theorem merge_leaves_slots_apart :
    lastPairRemoved.map (fun r => (r.1, r.2.dir.global_depth,
        (r.2.FetchBucketPage 3).map (fun b => HashTableBucketPage.readableCount 2 b),
        r.2.buckets.map (fun e => e.1))) = some ([true, true, true, true], 1, some 0, [2, 3])
    ∧ lastPairRemoved.map (fun r => (r.2.dir.GetLocalDepth 0, r.2.dir.GetBucketPageId 0,
        r.2.dir.GetLocalDepth 1, r.2.dir.GetBucketPageId 1)) = some (1, 2, 1, 3)
    ∧ leftBucketUnused.map (fun r => (r.2.dir.global_depth,
        (r.2.FetchBucketPage 2).map (fun b => b.IsEmpty))) = some (1, some true)
    ∧ leftBucketUnused.bind (fun r => r.2.GetValue 1 []) = some (true, [101])
    ∧ leftBucketUnused.bind (fun r => r.2.GetValue 5 []) = some (true, [105])
    ∧ leftBucketUnused.map (fun r => (r.2.dir.GetLocalDepth 0, r.2.dir.GetBucketPageId 0,
        r.2.dir.GetLocalDepth 1, r.2.dir.GetBucketPageId 1)) = some (1, 2, 1, 3)
    ∧ leftBucketMerged.map (fun r => (r.2.dir.global_depth,
        r.2.dir.GetBucketPageId 0, r.2.dir.GetBucketPageId 1,
        r.2.buckets.map (fun e => e.1))) = some (0, 2, 3, [3])
    ∧ leftBucketMerged.map (fun r => (r.2.FetchBucketPage 3).map (fun b => b.array))
      = some (some [some (1, 101), some (5, 105)])
    ∧ leftBucketMerged.bind (fun r => r.2.GetValue 1 []) = none
    ∧ leftBucketMerged.bind (fun r => r.2.GetValue 5 []) = none
    ∧ fourBuckets.map (fun r => (r.2.dir.global_depth,
        (r.2.FetchBucketPage 7).map (fun b => b.IsEmpty),
        r.2.dir.GetSplitImageIndex 2)) = some (2, some true, 0)
    ∧ fourBuckets.map (fun r => (r.2.dir.GetLocalDepth 0, r.2.dir.GetBucketPageId 0,
        r.2.dir.GetLocalDepth 2, r.2.dir.GetBucketPageId 2)) = some (2, 6, 2, 7)
    ∧ rightBucketMerged.map (fun r => (r.2.dir.global_depth,
        r.2.dir.GetLocalDepth 0, r.2.dir.GetBucketPageId 0,
        r.2.dir.GetLocalDepth 2, r.2.dir.GetBucketPageId 2)) = some (2, 1, 6, 0, 7)
    ∧ rightBucketMerged.map (fun r => r.2.buckets.map (fun e => e.1)) = some [5, 4, 6]
    ∧ rightBucketMerged.bind (fun r => r.2.GetValue 2 []) = none := by
  and_intros
  all_goals decide

end bustub

namespace bustub

/-! ## B+ tree: node sizes, emptiness, coalescing -/

/-- Claim C28 fails on the code. With `leaf_max_size = internal_max_size = 4`
(so `min_size = 2`): the tree `threeLevels` satisfies the node-size invariant;
in `lonelyLeaf` the only node below the root is a leaf that is not the root and
holds one entry, fewer than `min_size` (it has no sibling and the root is never
adjusted); in `threeLevelsRemove40` the coalesce of leaf 2 into leaf 1 removed
a separator from the internal page 3, which is not the root and is left with
one entry, fewer than `min_size`: the parent is neither redistributed nor
coalesced. -/
theorem node_sizes_out_of_bounds :
    threeLevels.map (fun r => (r.2.root_page_id, BPlusTree.nodeSizesOK 6 r.2)) = some (8, true)
    ∧ lonelyLeaf.map (fun r => (r.2.root_page_id, BPlusTree.nodeSizesOK 6 r.2))
        = some (3, false)
    ∧ lonelyLeaf.map (fun r => (BPlusTree.descendants 6 r.2 r.2.root_page_id).map
        (fun p => (p.IsRootPage, p.GetSize, p.GetMinSize))) = some [(false, 1, 2)]
    ∧ threeLevelsRemove40.map (fun r => (r.2.root_page_id, BPlusTree.nodeSizesOK 6 r.2))
        = some (8, false)
    ∧ threeLevelsRemove40.map (fun r => (r.2.FetchPage 3).map
        (fun p => (p.GetParentPageId, p.GetSize, p.GetMinSize))) = some (some (8, 1, 2))
    ∧ threeLevelsRemove40.map (fun r => (r.2.FetchPage 1).map
        (fun p => (p.GetParentPageId, p.GetSize))) = some (some (3, 3)) := by
  and_intros
  all_goals decide

/-- Claim C29 fails on the code. With `leaf_max_size = 2`, after the inserts of
1, 2 and 3 the root is the internal page 3 and leaf 1, which is not the root,
holds the single key 1. `Remove(1)` empties that leaf, and the tree is marked
empty: the root page-id changes from 3 to `INVALID_PAGE_ID` and `IsEmpty()` is
true, although leaf 2 still stores the keys 2 and 3, which `GetValue` no longer
finds. When the emptied leaf is the root, the tree is marked empty as claimed. -/
theorem nonroot_leaf_emptied_marks_tree_empty :
    splitLeafOfTwo.map (fun r => (r.2.root_page_id, r.2.IsEmpty)) = some (3, false)
    ∧ splitLeafOfTwo.map (fun r => (r.2.FetchPage 1).map (fun p => (p.IsRootPage, p.GetSize)))
        = some (some (false, 1))
    ∧ splitLeafOfTwo.bind (fun r => BPlusTree.GetValue 6 r.2 2 []) = some (true, [102])
    ∧ splitLeafOfTwo.bind (fun r => BPlusTree.GetValue 6 r.2 3 []) = some (true, [103])
    ∧ splitLeafOfTwoRemove1.map (fun r => (r.2.root_page_id, r.2.IsEmpty))
        = some (INVALID_PAGE_ID, true)
    ∧ splitLeafOfTwoRemove1.map (fun r => (r.2.FetchPage 2).map (fun p => p.GetSize))
        = some (some 2)
    ∧ splitLeafOfTwoRemove1.bind (fun r => BPlusTree.GetValue 6 r.2 2 []) = some (false, [])
    ∧ splitLeafOfTwoRemove1.bind (fun r => BPlusTree.GetValue 6 r.2 3 []) = some (false, [])
    ∧ rootLeafEmptied.map (fun r => (r.2.root_page_id, r.2.IsEmpty, r.2.pages.length))
        = some (INVALID_PAGE_ID, true, 0) := by
  and_intros
  all_goals decide

end bustub

namespace bustub
namespace BPlusTree

/-! ### The leaf-split scenario with `leaf_max_size = 3` -/

theorem InsertIntoParent_room (fuel : Nat) (t : BPlusTree) (old_id new_id : page_id_t)
    (key : KeyType) (old_node : BPlusTreePage) (parent : BPlusTreeInternalPage)
    (hold : t.FetchPage old_id = some old_node) (hroot : old_node.IsRootPage = false)
    (hpar : t.FetchPage old_node.GetParentPageId = some (BPlusTreePage.internal parent))
    (hroom : parent.GetSize < parent.max_size) :
    InsertIntoParent (fuel + 1) t old_id key new_id
      = some (t.put parent.page_id
          (BPlusTreePage.internal (parent.InsertNodeAfter old_id key new_id))) := by
  rw [InsertIntoParent]
  simp only [hold, hroot, hpar, hroom, if_true, Bool.false_eq_true, if_false]

theorem scenario_insert_10 (m n : Nat) :
    Insert (n + 2) (BPlusTree.new 3 m) 10 110 = some (true, rootLeafTree m [10]) := rfl

theorem scenario_insert_20 (m n : Nat) :
    Insert (n + 2) (rootLeafTree m [10]) 20 120 = some (true, rootLeafTree m [10, 20]) := rfl

theorem scenario_insert_30 (m n : Nat) :
    Insert (n + 2) (rootLeafTree m [10, 20]) 30 130
      = some (true, rootLeafTree m [10, 20, 30]) := rfl

theorem scenario_insert_40 (m n : Nat) :
    Insert (n + 2) (rootLeafTree m [10, 20, 30]) 40 140 = some (true, afterFourInserts m) := rfl

theorem scenario_insert_25 (m n : Nat) :
    Insert (n + 2) (afterFourInserts m) 25 125 = some (true, afterFiveInserts m) := rfl

theorem scenario_insert_28 (m n : Nat) (hm : 3 ≤ m) :
    Insert (n + 2) (afterFiveInserts m) 28 128 = some (true, afterSixInserts m) := by
  have hsplit : Insert (n + 2) (afterFiveInserts m) 28 128
      = (InsertIntoParent (n + 1 + 1) (duringSecondSplit m) 1 25 4).map
          (fun t3 => (true, t3)) := rfl
  rw [hsplit, InsertIntoParent_room (n + 1) (duringSecondSplit m) 1 4 25
    (scenarioLeaf 1 3 4 [10, 20])
    { page_id := 3, parent_page_id := INVALID_PAGE_ID, max_size := m, array := [(0, 1), (30, 2)] }
    rfl rfl rfl (by show 2 < m; omega)]
  rfl

theorem scenario_remove_30 (m n : Nat) :
    Remove (n + 2) (afterSixInserts m) 30 = some (afterRemove30 m) := rfl

end BPlusTree
end bustub

namespace bustub
namespace BPlusTree

theorem run_insert_of (fuel : Nat) (t t1 : BPlusTree) (k : KeyType) (v : ValueType) (ok : Bool)
    (rest : List Op) (h : Insert fuel t k v = some (ok, t1)) :
    run fuel t (Op.insert k v :: rest) = (run fuel t1 rest).map (fun r => (ok :: r.1, r.2)) := by
  rw [run, h]

theorem run_remove_of (fuel : Nat) (t t1 : BPlusTree) (k : KeyType) (rest : List Op)
    (h : Remove fuel t k = some t1) :
    run fuel t (Op.remove k :: rest) = run fuel t1 rest := by
  rw [run, h]

theorem scenario_six_inserts (m n : Nat) (hm : 3 ≤ m) (rest : List Op) :
    run (n + 2) (BPlusTree.new 3 m) (inserts [10, 20, 30, 40, 25, 28] ++ rest)
      = (run (n + 2) (afterSixInserts m) rest).map
          (fun r => (true :: true :: true :: true :: true :: true :: r.1, r.2)) := by
  have e : inserts [10, 20, 30, 40, 25, 28] ++ rest
      = Op.insert 10 110 :: Op.insert 20 120 :: Op.insert 30 130 :: Op.insert 40 140
          :: Op.insert 25 125 :: Op.insert 28 128 :: rest := rfl
  rw [e, run_insert_of _ _ _ _ _ _ _ (scenario_insert_10 m n),
    run_insert_of _ _ _ _ _ _ _ (scenario_insert_20 m n),
    run_insert_of _ _ _ _ _ _ _ (scenario_insert_30 m n),
    run_insert_of _ _ _ _ _ _ _ (scenario_insert_40 m n),
    run_insert_of _ _ _ _ _ _ _ (scenario_insert_25 m n),
    run_insert_of _ _ _ _ _ _ _ (scenario_insert_28 m n hm)]
  cases run (n + 2) (afterSixInserts m) rest with
  | none => rfl
  | some r => rfl

/-- Claim C30 as stated fails. With `leaf_max_size = 3` (and
`internal_max_size = 3`) the six inserts give the leaves `[10, 20]`,
`[25, 28]` and `[30, 40]`; `Remove(30)` leaves `[40]` in leaf 2, and
`CoalesceOrRedistribute` on that leaf returns true (the leaf is to be deleted):
the left sibling does not lend (2 + 1 is not greater than 3). Afterwards
page 2 is gone, the left sibling (leaf 4) holds `[25, 28, 40]` and the root has
the single separator 25 rather than an updated separator for leaf 2. -/
theorem remove_30_does_not_borrow :
    run 6 (BPlusTree.new 3 3) (inserts [10, 20, 30, 40, 25, 28])
      = some ([true, true, true, true, true, true], afterSixInserts 3)
    ∧ (CoalesceOrRedistribute ((afterSixInserts 3).put 2 (scenarioLeaf 2 3 INVALID_PAGE_ID [40]))
        2).map (fun r => r.1) = some true
    ∧ (run 6 (BPlusTree.new 3 3) (inserts [10, 20, 30, 40, 25, 28] ++ removes [30])).map
        (fun r => (r.2.FetchPage 2).isSome) = some false
    ∧ (run 6 (BPlusTree.new 3 3) (inserts [10, 20, 30, 40, 25, 28] ++ removes [30])).map
        (fun r => r.2.FetchPage 4) = some (some (scenarioLeaf 4 3 INVALID_PAGE_ID [25, 28, 40]))
    ∧ (run 6 (BPlusTree.new 3 3) (inserts [10, 20, 30, 40, 25, 28] ++ removes [30])).map
        (fun r => r.2.FetchPage 3) = some (some (scenarioRoot 3 [(0, 1), (25, 4)])) := by
  and_intros
  all_goals decide

/-- Claim C30 as amended. With `leaf_max_size = 3` and an internal maximum size
`m` of at least 3: after the inserts of 10, 20, 30, 40 the root is an internal
page with the single separator 30 over the leaves `[10, 20]` and `[30, 40]`;
the inserts of 25 and 28 split the first leaf again (leaves `[10, 20]`,
`[25, 28]`, `[30, 40]`, separators 25 and 30); `Remove(30)` then coalesces the
underfull leaf into its left sibling (no entry is borrowed): the leaf page is
deleted, the left sibling holds `[25, 28, 40]`, the root keeps the single
separator 25, and the five remaining keys are found by `GetValue` while 30 is
not. -/
theorem remove_30_coalesces_into_left_sibling (m fuel : Nat) (hm : 3 ≤ m) (hfuel : 2 ≤ fuel) :
    run fuel (BPlusTree.new 3 m) (inserts [10, 20, 30, 40])
      = some ([true, true, true, true], afterFourInserts m)
    ∧ run fuel (BPlusTree.new 3 m) (inserts [10, 20, 30, 40, 25, 28])
      = some ([true, true, true, true, true, true], afterSixInserts m)
    ∧ run fuel (BPlusTree.new 3 m) (inserts [10, 20, 30, 40, 25, 28] ++ removes [30])
      = some ([true, true, true, true, true, true], afterRemove30 m)
    ∧ (afterRemove30 m).FetchPage 2 = none
    ∧ (afterRemove30 m).FetchPage 4 = some (scenarioLeaf 4 3 INVALID_PAGE_ID [25, 28, 40])
    ∧ (afterRemove30 m).FetchPage 1 = some (scenarioLeaf 1 3 4 [10, 20])
    ∧ (afterRemove30 m).FetchPage 3 = some (scenarioRoot m [(0, 1), (25, 4)])
    ∧ (∀ k, k ∈ [10, 20, 25, 28, 40] →
        GetValue fuel (afterRemove30 m) k [] = some (true, [k + 100]))
    ∧ GetValue fuel (afterRemove30 m) 30 [] = some (false, []) := by
  obtain ⟨n, rfl⟩ : ∃ n, fuel = n + 2 := ⟨fuel - 2, by omega⟩
  refine ⟨?_, ?_, ?_, rfl, rfl, rfl, rfl, ?_, rfl⟩
  · have e : inserts [10, 20, 30, 40]
        = [Op.insert 10 110, Op.insert 20 120, Op.insert 30 130, Op.insert 40 140] := rfl
    rw [e, run_insert_of _ _ _ _ _ _ _ (scenario_insert_10 m n),
      run_insert_of _ _ _ _ _ _ _ (scenario_insert_20 m n),
      run_insert_of _ _ _ _ _ _ _ (scenario_insert_30 m n),
      run_insert_of _ _ _ _ _ _ _ (scenario_insert_40 m n)]
    rfl
  · have := scenario_six_inserts m n hm []
    rw [List.append_nil] at this
    rw [this]
    rfl
  · rw [scenario_six_inserts m n hm (removes [30])]
    have e : removes [30] = [Op.remove 30] := rfl
    rw [e, run_remove_of _ _ _ _ _ (scenario_remove_30 m n)]
    rfl
  · intro k hk
    simp only [List.mem_cons, List.mem_singleton, List.not_mem_nil, or_false] at hk
    rcases hk with rfl | rfl | rfl | rfl | rfl <;> rfl

/-- Witness for the amended claim C30: `internal_max_size = 5` and fuel 4. -/
theorem remove_30_coalesces_into_left_sibling_witness :
    run 4 (BPlusTree.new 3 5) (inserts [10, 20, 30, 40, 25, 28] ++ removes [30])
      = some ([true, true, true, true, true, true], afterRemove30 5) :=
  (remove_30_coalesces_into_left_sibling 5 4 (by decide) (by decide)).2.2.1

end BPlusTree
end bustub

namespace bustub
namespace HashTableBucketPage

variable {K V : Type}

/-! ### The slots examined by `IsFull` -/

theorem byte_all_ones (x : Nat) : x % 256 = 255 ↔ ∀ k, k < 8 → x.testBit k = true := by
  have h256 : (256 : Nat) = 2 ^ 8 := by norm_num
  have h255 : ∀ k, k < 8 → (255 : Nat).testBit k = true := by decide
  constructor
  · intro h k hk
    have := Nat.testBit_mod_two_pow x 8 k
    rw [← h256, h, h255 k hk] at this
    simpa [hk] using this.symm
  · intro h
    apply Nat.eq_of_testBit_eq
    intro i
    rw [h256, Nat.testBit_mod_two_pow]
    by_cases hi : i < 8
    · rw [h i hi, h255 i hi]
      simp [hi]
    · have : (255 : Nat).testBit i = false := by
        apply Nat.testBit_lt_two_pow
        have h1 : (2 : Nat) ^ 8 ≤ 2 ^ i := Nat.pow_le_pow_right (by norm_num) (by omega)
        omega
      rw [this]
      simp [hi]

theorem byte_full_iff_slots (b : HashTableBucketPage K V) (i : Nat) :
    b.occupied.getD i 0 % 256 = 255 ↔ ∀ s, s / 8 = i → b.IsOccupied s = true := by
  rw [byte_all_ones]
  constructor
  · intro h s hs
    rw [IsOccupied_bit, hs]
    exact h (7 - s % 8) (by omega)
  · intro h k hk
    have := h (8 * i + (7 - k)) (by omega)
    rw [IsOccupied_bit] at this
    have e1 : (8 * i + (7 - k)) / 8 = i := by omega
    have e2 : 7 - (8 * i + (7 - k)) % 8 = k := by omega
    rw [e1, e2] at this
    exact this

/-- The slots that `IsFull` examines: all slots below the capacity when the
capacity is not a multiple of 8, and only the slots below `capacity - 8` when
it is. -/
theorem IsFull_examined_slots (cap : Nat) (b : HashTableBucketPage K V) :
    IsFull cap b = true
      ↔ ∀ s, s < (if cap % 8 = 0 then cap - 8 else cap) → b.IsOccupied s = true := by
  unfold IsFull
  simp only [Bool.and_eq_true, List.all_eq_true, List.mem_range, beq_iff_eq]
  have hmask : (1 <<< 8) - 1 = 255 := by decide
  rw [hmask]
  constructor
  · rintro ⟨hA, hB⟩ s hs
    by_cases hlow : s / 8 < (cap - 1) / 8
    · exact (byte_full_iff_slots b (s / 8)).mp (hA _ hlow) s rfl
    · by_cases h8 : cap % 8 = 0
      · rw [if_pos h8] at hs
        omega
      · rw [if_neg h8] at hs
        have hs2 : s - (cap - cap % 8) < cap % 8 := by omega
        have := hB (s - (cap - cap % 8)) hs2
        have e : cap - cap % 8 + (s - (cap - cap % 8)) = s := by omega
        rw [e] at this
        exact this
  · intro h
    constructor
    · intro i hi
      apply (byte_full_iff_slots b i).mpr
      intro s hs
      apply h
      split <;> omega
    · intro i hi
      apply h
      have h8 : ¬ cap % 8 = 0 := by omega
      rw [if_neg h8]
      omega

end HashTableBucketPage
end bustub

namespace bustub

/-! ## Iterator, leaf chain and read path of the tree -/

namespace BPlusTree

theorem leftmostLeafPins_leaf (fuel : Nat) (t : BPlusTree) (p : page_id_t) :
    (leftmostLeafPins fuel t p).map (fun r => r.1) = leftmostLeaf fuel t p := by
  induction fuel generalizing p with
  | zero => rfl
  | succ n ih =>
    unfold leftmostLeafPins leftmostLeaf
    cases h : t.FetchPage p with
    | none => rfl
    | some pg =>
      cases pg with
      | leaf l => rfl
      | internal m =>
        simp only [Option.map_map]
        exact ih (m.ValueAt 0)

theorem BeginPins_iterator (fuel : Nat) (t : BPlusTree) :
    (BeginPins fuel t).map (fun r => r.1) = Begin fuel t := by
  unfold BeginPins Begin
  split
  · rfl
  · rw [← leftmostLeafPins_leaf]
    cases leftmostLeafPins fuel t t.root_page_id with
    | none => rfl
    | some r => rfl

theorem GetValueDescent_leaf (fuel : Nat) (t : BPlusTree) (p : page_id_t) (key : KeyType) :
    (GetValueDescent fuel t p key).map (fun r => r.1) = FindLeafPage fuel t p key := by
  induction fuel generalizing p with
  | zero => rfl
  | succ n ih =>
    unfold GetValueDescent FindLeafPage
    cases h : t.FetchPage p with
    | none => rfl
    | some pg =>
      cases pg with
      | leaf l => rfl
      | internal m =>
        simp only [Option.map_map]
        exact ih (m.Lookup key)

theorem GetValueLatches_result (fuel : Nat) (t : BPlusTree) (key : KeyType)
    (result : List ValueType) :
    (GetValueLatches fuel t key result).map (fun r => r.1) = GetValue fuel t key result := by
  unfold GetValueLatches GetValue
  split
  · rfl
  · rw [← GetValueDescent_leaf]
    cases GetValueDescent fuel t t.root_page_id key with
    | none => rfl
    | some r =>
      obtain ⟨l, q, ev⟩ := r
      simp only [Option.map_some']
      cases l.Lookup key <;> rfl

end BPlusTree

theorem IndexIterator.nextPins_iterator (t : BPlusTree) (it : IndexIterator) :
    (it.nextPins t).map (fun r => r.1) = it.next t := by
  unfold IndexIterator.nextPins IndexIterator.next
  cases it.leaf_page with
  | none => rfl
  | some p =>
    simp only
    cases t.FetchPage p with
    | none => rfl
    | some pg =>
      cases pg with
      | internal m => rfl
      | leaf l =>
        simp only
        split
        · split
          · rfl
          · cases t.FetchPage l.next_page_id with
            | none => rfl
            | some pg2 => cases pg2 <;> rfl
        · rfl

end bustub

namespace bustub

/-- Claim C31 fails on the code. With `leaf_max_size = 3` and the keys 10, 20,
30, 40 stored in the leaves 1 `[10, 20]` and 2 `[30, 40]`, `Begin(30)` and
`Begin(5)` are positioned on the keys 30 and 10 as claimed, but `Begin(25)` is
positioned at slot 2 of leaf 1, whose size is 2, instead of on the key 30 of
leaf 2, and `Begin(50)` is positioned at slot 2 of leaf 2 instead of being
`End()`: both iterators sit at an index that is not below the size of the leaf
and dereference to the zero entry past the stored pairs. On the empty tree
`Begin(25)` and `Begin()` are `End()`. -/
theorem BeginAt_positions_past_leaf_end :
    fourKeys.map (fun r => (r.2.FetchPage 1).map (fun p => p.GetSize)) = some (some 2)
    ∧ fourKeys.map (fun r => (r.2.FetchPage 2).map (fun p => p.GetSize)) = some (some 2)
    ∧ fourKeys.bind (fun r => BPlusTree.keys 6 r.2) = some [10, 20, 30, 40]
    ∧ fourKeys.bind (fun r => BPlusTree.BeginAt 6 r.2 30)
        = some { leaf_page := some 2, key_index := 0 }
    ∧ fourKeys.bind (fun r => BPlusTree.BeginAt 6 r.2 5)
        = some { leaf_page := some 1, key_index := 0 }
    ∧ fourKeys.bind (fun r => BPlusTree.BeginAt 6 r.2 25)
        = some { leaf_page := some 1, key_index := 2 }
    ∧ fourKeys.bind (fun r => (BPlusTree.BeginAt 6 r.2 25).bind (fun it => it.deref r.2))
        = some (0, 0)
    ∧ fourKeys.bind (fun r => BPlusTree.BeginAt 6 r.2 50)
        = some { leaf_page := some 2, key_index := 2 }
    ∧ fourKeys.bind (fun r => (BPlusTree.BeginAt 6 r.2 50).map (fun it => it.eq BPlusTree.End))
        = some false
    ∧ fourKeys.bind (fun r => (BPlusTree.BeginAt 6 r.2 50).bind (fun it => it.deref r.2))
        = some (0, 0)
    ∧ BPlusTree.BeginAt 6 (BPlusTree.new 3 3) 25 = some BPlusTree.End
    ∧ BPlusTree.Begin 6 (BPlusTree.new 3 3) = some BPlusTree.End := by
  and_intros
  all_goals decide

/-- Claim C32 fails on the code. In the tree with the single leaf 1 `[10]`, the
life of an iterator that is created by `Begin()`, incremented once (it runs off
the end and becomes `End()`) and destroyed makes the single buffer pool call
`FetchPage(1)`: leaf 1 is never unpinned. In the tree with the leaves 1 and 2,
the increment that leaves leaf 1 fetches leaf 2 and unpins leaf 1 once, as
claimed; an iterator destroyed while it still points into leaf 2 unpins it, but
one that has run off the end leaves the pin on leaf 2 behind. -/
theorem iterator_end_leaks_last_leaf_pin :
    oneKey.bind (fun r => (BPlusTree.BeginPins 6 r.2).bind
        (fun b => (b.1.nextPins r.2).map (fun n => (b.1, b.2, n.1.eq BPlusTree.End, n.2))))
      = some ({ leaf_page := some 1, key_index := 0 }, [PinEvent.fetch 1], true, [])
    ∧ oneKey.bind (fun r => BPlusTree.iteratorLife 6 1 r.2) = some [PinEvent.fetch 1]
    ∧ oneKey.bind (fun r => (BPlusTree.iteratorLife 6 1 r.2).map (pinBalance 1)) = some 1
    ∧ oneKey.bind (fun r => (BPlusTree.iteratorLife 6 0 r.2).map (pinBalance 1)) = some 0
    ∧ fourKeys.bind (fun r =>
        IndexIterator.nextPins r.2 { leaf_page := some 1, key_index := 0 })
      = some ({ leaf_page := some 1, key_index := 1 }, [])
    ∧ fourKeys.bind (fun r =>
        IndexIterator.nextPins r.2 { leaf_page := some 1, key_index := 1 })
      = some ({ leaf_page := some 2, key_index := 0 }, [PinEvent.fetch 2, PinEvent.unpin 1])
    ∧ fourKeys.bind (fun r =>
        IndexIterator.nextPins r.2 { leaf_page := some 2, key_index := 1 })
      = some (BPlusTree.End, [])
    ∧ fourKeys.bind (fun r => BPlusTree.iteratorLife 6 3 r.2)
      = some [PinEvent.fetch 3, PinEvent.unpin 3, PinEvent.fetch 1, PinEvent.fetch 2,
          PinEvent.unpin 1, PinEvent.unpin 2]
    ∧ fourKeys.bind (fun r => BPlusTree.iteratorLife 6 4 r.2)
      = some [PinEvent.fetch 3, PinEvent.unpin 3, PinEvent.fetch 1, PinEvent.fetch 2,
          PinEvent.unpin 1]
    ∧ fourKeys.bind (fun r => (BPlusTree.iteratorLife 6 4 r.2).map
        (fun e => (pinBalance 1 e, pinBalance 2 e))) = some (0, 1) := by
  and_intros
  all_goals decide

/-- Claim C34 fails on the code. With `leaf_max_size = 3`, after the inserts of
10 to 50 the separator invariant holds (separator 30 over the leaves `[10, 20]`
and `[30, 40, 50]`). `Remove(10)` makes leaf 1 borrow the first entry of its
right sibling: the leaves become `[20, 30]` and `[40, 50]`, but the separator at
the index of the right sibling is set to 20, the first key of leaf 1, and not to
40, the new first key of the right sibling; the keys 20 and 30 are still stored
but `GetValue` no longer finds them. After a borrow from the left sibling the
separator is the first key of the borrowing leaf, as claimed. -/
theorem borrow_from_right_sets_wrong_separator :
    fiveKeys.map (fun r => BPlusTree.separatorsOK 6 r.2) = some true
    ∧ fiveKeys.map (fun r => r.2.FetchPage 3)
      = some (some (scenarioRoot 3 [(0, 1), (30, 2)]))
    ∧ fiveKeysRemove10.map (fun r => r.2.FetchPage 1)
      = some (some (scenarioLeaf 1 3 2 [20, 30]))
    ∧ fiveKeysRemove10.map (fun r => r.2.FetchPage 2)
      = some (some (scenarioLeaf 2 3 INVALID_PAGE_ID [40, 50]))
    ∧ fiveKeysRemove10.map (fun r => r.2.FetchPage 3)
      = some (some (scenarioRoot 3 [(0, 1), (20, 2)]))
    ∧ fiveKeysRemove10.map (fun r => BPlusTree.separatorsOK 6 r.2) = some false
    ∧ fiveKeysRemove10.map (fun r => BPlusTree.storedKeys 6 r.2 r.2.root_page_id)
      = some [20, 30, 40, 50]
    ∧ fiveKeysRemove10.bind (fun r => BPlusTree.GetValue 6 r.2 20 []) = some (false, [])
    ∧ fiveKeysRemove10.bind (fun r => BPlusTree.GetValue 6 r.2 30 []) = some (false, [])
    ∧ borrowedFromLeft.map (fun r => r.2.FetchPage 2)
      = some (some (scenarioLeaf 2 3 INVALID_PAGE_ID [25, 30]))
    ∧ borrowedFromLeft.map (fun r => r.2.FetchPage 3)
      = some (some (scenarioRoot 3 [(0, 1), (25, 2)]))
    ∧ borrowedFromLeft.map (fun r => BPlusTree.separatorsOK 6 r.2) = some true := by
  and_intros
  all_goals decide

end bustub

namespace bustub

/-- Claim C35 fails on the code. With `leaf_max_size = 3` and the keys 40, 30,
20, 10 inserted in descending order, leaf 1 `[10, 20, 30]` is followed by leaf 2
`[40]`. The insert of 5 splits leaf 1: afterwards its next pointer is the new
leaf 4, as claimed, but the next pointer of leaf 4 is `INVALID_PAGE_ID` and not
2, the old next pointer of leaf 1. Following the next pointers from the
leftmost leaf visits the leaves 1 and 4 only: the iteration yields 5, 10, 20,
30 and never reaches the stored key 40. -/
theorem split_drops_next_pointer_of_new_leaf :
    descendingFour.map (fun r => r.2.FetchPage 1)
      = some (some (scenarioLeaf 1 3 2 [10, 20, 30]))
    ∧ descendingFour.map (fun r => r.2.FetchPage 2)
      = some (some (scenarioLeaf 2 3 INVALID_PAGE_ID [40]))
    ∧ descendingFour.bind (fun r => BPlusTree.keys 6 r.2) = some [10, 20, 30, 40]
    ∧ descendingFive.map (fun r => r.1) = some [true, true, true, true, true]
    ∧ descendingFive.map (fun r => r.2.FetchPage 1)
      = some (some (scenarioLeaf 1 3 4 [5, 10, 20]))
    ∧ descendingFive.map (fun r => r.2.FetchPage 4)
      = some (some (scenarioLeaf 4 3 INVALID_PAGE_ID [30]))
    ∧ descendingFive.map (fun r => r.2.FetchPage 2)
      = some (some (scenarioLeaf 2 3 INVALID_PAGE_ID [40]))
    ∧ descendingFive.map (fun r => r.2.FetchPage 3)
      = some (some (scenarioRoot 3 [(0, 1), (30, 4), (40, 2)]))
    ∧ descendingFive.map (fun r => BPlusTree.storedKeys 6 r.2 r.2.root_page_id)
      = some [5, 10, 20, 30, 40]
    ∧ descendingFive.bind (fun r => BPlusTree.keys 6 r.2) = some [5, 10, 20, 30]
    ∧ descendingFive.bind (fun r => BPlusTree.GetValue 6 r.2 40 []) = some (true, [140]) := by
  and_intros
  all_goals decide

/-- Claim C36 as stated fails. In the tree whose root, the internal page 3,
has the leaves 1 and 2, `GetValue(10)` descends from page 3 to leaf 1 and makes
the latch calls `RLatch(3)`, `RUnlatch(3)`, `RLatch(1)`, `RUnlatch(1)` in this
order: the latch on the parent is released before the latch on the child is
acquired, and after the first two calls no latch is held. -/
theorem GetValue_releases_parent_before_latching_child :
    fourKeys.bind (fun r => BPlusTree.GetValueLatches 6 r.2 10 [])
      = some ((true, [110]),
          [LatchEvent.RLatch 3, LatchEvent.RUnlatch 3, LatchEvent.RLatch 1, LatchEvent.RUnlatch 1])
    ∧ fourKeys.bind (fun r => (BPlusTree.GetValueLatches 6 r.2 10 []).map
        (fun g => (g.2.indexOf (LatchEvent.RUnlatch 3), g.2.indexOf (LatchEvent.RLatch 1))))
      = some (1, 2)
    ∧ fourKeys.bind (fun r => (BPlusTree.GetValueLatches 6 r.2 10 []).map
        (fun g => latchesHeld (g.2.take 2))) = some 0
    ∧ fourKeys.bind (fun r => BPlusTree.GetValueLatches 6 r.2 40 [])
      = some ((true, [140]),
          [LatchEvent.RLatch 3, LatchEvent.RUnlatch 3, LatchEvent.RLatch 2, LatchEvent.RUnlatch 2])
    ∧ fourKeys.bind (fun r => (BPlusTree.GetValueLatches 6 r.2 40 []).map
        (fun g => latchesHeld (g.2.take 2))) = some 0 := by
  and_intros
  all_goals decide

/-- Claim C39 as stated fails. In the tree with the single leaf 1 `[10]` the
iterator `Begin()` is not equal to `End()` and dereferences to the pair of the
key 10, but `IsEnd()` returns true for it: the loop that tests `IsEnd()` visits
no key, the loop that compares with `End()` visits 10. In the tree with the
keys 10, 20, 30, 40 the iterator on the last entry of the last leaf
dereferences to the pair of the key 40 and reports `IsEnd()`, so the loop that
tests `IsEnd()` visits 10, 20, 30 only. -/
theorem IsEnd_true_on_last_entry :
    oneKey.bind (fun r => BPlusTree.Begin 6 r.2) = some { leaf_page := some 1, key_index := 0 }
    ∧ oneKey.bind (fun r => (BPlusTree.Begin 6 r.2).map (fun it => it.eq BPlusTree.End))
      = some false
    ∧ oneKey.bind (fun r => (BPlusTree.Begin 6 r.2).bind (fun it => it.deref r.2))
      = some (10, 110)
    ∧ oneKey.bind (fun r => (BPlusTree.Begin 6 r.2).bind (fun it => it.IsEnd r.2)) = some true
    ∧ oneKey.bind (fun r => BPlusTree.keysIsEnd 6 r.2) = some []
    ∧ oneKey.bind (fun r => BPlusTree.keys 6 r.2) = some [10]
    ∧ fourKeys.bind (fun r => IndexIterator.deref r.2 { leaf_page := some 2, key_index := 1 })
      = some (40, 140)
    ∧ fourKeys.bind (fun r => IndexIterator.IsEnd r.2 { leaf_page := some 2, key_index := 1 })
      = some true
    ∧ fourKeys.bind (fun r => IndexIterator.IsEnd r.2 { leaf_page := some 2, key_index := 0 })
      = some false
    ∧ fourKeys.bind (fun r => BPlusTree.keysIsEnd 6 r.2) = some [10, 20, 30]
    ∧ fourKeys.bind (fun r => BPlusTree.keys 6 r.2) = some [10, 20, 30, 40]
    ∧ IndexIterator.IsEnd (BPlusTree.new 3 3) BPlusTree.End = some true := by
  and_intros
  all_goals decide

end bustub

namespace bustub

/-! ## Split indices of `Insert` and failed `Remove` calls -/

theorem ExtendibleHashTable.splitOnce_dir (h : ExtendibleHashTable) (key : Int)
    (bucket_page_id : page_id_t) (bucket_node : HashTableBucketPage Int Int) :
    (h.splitOnce key bucket_page_id bucket_node).dir
      = splitDirectory h.dir (h.splitIndices key).1 h.next_page_id (h.next_page_id + 1)
    ∧ (h.splitIndices key).2.1
      = (h.splitIndices key).1 + (1 <<<
          ((if h.dir.GetLocalDepth (h.splitIndices key).1 = h.dir.GetGlobalDepth then
              doubleDirectory h.dir.IncrGlobalDepth
            else h.dir).GetGlobalDepth - 1)) :=
  ⟨rfl, rfl⟩

/-- Claim C37 fails on the code. With bucket capacity 2 and the identity hash,
the table after the inserts of 0, 2, 4, 1, 3 satisfies the directory invariant;
its global depth is 2 and the slots 1 and 3 both reference page 3, a full
bucket of local depth 1. For the key 7, whose slot is 3, the split of `Insert`
writes the directory indices 3 and 3 + 2 = 5, and 5 is not below the directory
size 4; slot 1, the split image of slot 3 that referenced the bucket being
split, is not written. After `Insert(7)` slot 1 still references page 3, which
has been deleted. -/
theorem split_writes_index_outside_directory :
    fiveInserted.map (fun r => r.2.dir.invariant) = some true
    ∧ fiveInserted.map (fun r => (r.2.dir.global_depth, r.2.dir.Size)) = some (2, 4)
    ∧ fiveInserted.map (fun r => r.2.KeyToDirectoryIndex 7 r.2.dir) = some 3
    ∧ fiveInserted.map (fun r => r.2.dir.GetLocalDepth 3) = some 1
    ∧ fiveInserted.map (fun r => r.2.slotsOf 3) = some [1, 3]
    ∧ fiveInserted.map (fun r => (r.2.FetchBucketPage 3).map
        (fun b => HashTableBucketPage.IsFull r.2.cap b)) = some (some true)
    ∧ fiveInserted.map (fun r => r.2.splitIndices 7) = some (3, 5, 4)
    ∧ fiveInserted.bind (fun r => (r.2.Insert 8 7 107).map
        (fun s => (s.1, s.2.dir.global_depth))) = some (true, 2)
    ∧ fiveInserted.bind (fun r => (r.2.Insert 8 7 107).map
        (fun s => (List.range 6).map (fun i => s.2.dir.GetBucketPageId i)))
      = some [4, 3, 5, 6, 1, 7]
    ∧ fiveInserted.bind (fun r => (r.2.Insert 8 7 107).map
        (fun s => (s.2.FetchBucketPage 3).isSome)) = some false
    ∧ fiveInserted.bind (fun r => (r.2.Insert 8 7 107).map
        (fun s => s.2.dir.invariant)) = some false := by
  and_intros
  all_goals decide

/-- Claim C38 fails on the code. With bucket capacity 2 and the identity hash,
in the table `leftBucketUnused` (global depth 1, slot 0 references the
never-used page 2, slot 1 references page 3 with the keys 1 and 5) the pair
(0, 0) is not stored. `Remove(0, 0)` returns false, yet it runs the merge
branch: the global depth drops to 0, both local depths drop to 0 and page 2 is
deleted although slot 0 still references it, so `GetValue(1)`, which found 101
before, finds nothing afterwards. In the mirrored table `rightBucketUnused` the
failed `Remove(1, 0)` likewise deletes page 3 and shrinks the directory. A
failed `Remove` on a bucket that holds a pair changes nothing. -/
theorem failed_remove_merges_unused_bucket :
    leftBucketUnused.bind (fun r => r.2.GetValue 0 []) = some (false, [])
    ∧ leftBucketUnused.bind (fun r => r.2.GetValue 1 []) = some (true, [101])
    ∧ leftBucketUnused.map (fun r => (r.2.dir.global_depth,
        (List.range 2).map (fun i => (r.2.dir.GetBucketPageId i, r.2.dir.GetLocalDepth i)),
        r.2.buckets.map (fun e => e.1))) = some (1, [(2, 1), (3, 1)], [2, 3])
    ∧ leftBucketUnused.bind (fun r => (r.2.Remove 0 0).map (fun s => (s.1, s.2.dir.global_depth,
        (List.range 2).map (fun i => (s.2.dir.GetBucketPageId i, s.2.dir.GetLocalDepth i)),
        s.2.buckets.map (fun e => e.1)))) = some (false, 0, [(2, 0), (3, 0)], [3])
    ∧ leftBucketUnused.bind (fun r => (r.2.Remove 0 0).map
        (fun s => s.2.GetValue 1 [])) = some none
    ∧ rightBucketUnused.bind (fun r => r.2.GetValue 1 []) = some (false, [])
    ∧ rightBucketUnused.map (fun r => (r.2.dir.global_depth,
        (List.range 2).map (fun i => (r.2.dir.GetBucketPageId i, r.2.dir.GetLocalDepth i)),
        r.2.buckets.map (fun e => e.1))) = some (1, [(2, 1), (3, 1)], [3, 2])
    ∧ rightBucketUnused.bind (fun r => (r.2.Remove 1 0).map (fun s => (s.1, s.2.dir.global_depth,
        (List.range 2).map (fun i => (s.2.dir.GetBucketPageId i, s.2.dir.GetLocalDepth i)),
        s.2.buckets.map (fun e => e.1)))) = some (false, 0, [(2, 0), (3, 0)], [2])
    ∧ leftBucketUnused.bind (fun r => (r.2.Remove 1 0).map (fun s => (s.1, s.2.dir.global_depth,
        (List.range 2).map (fun i => (s.2.dir.GetBucketPageId i, s.2.dir.GetLocalDepth i)),
        s.2.buckets.map (fun e => e.1)))) = some (false, 1, [(2, 1), (3, 1)], [2, 3])
    ∧ leftBucketUnused.bind (fun r => (r.2.Remove 1 0).map
        (fun s => (s.2.GetValue 1 [], s.2.GetValue 5 [])))
      = some (some (true, [101]), some (true, [105])) := by
  and_intros
  all_goals decide

end bustub

namespace bustub

/-! ## Lock manager -/

namespace LockManager

theorem updateTxn_state_ne (s : LockManager) (t u : txn_id_t) (f : Transaction → Transaction)
    (hf : ∀ x, x.state ≠ TransactionState.GROWING → (f x).state ≠ TransactionState.GROWING)
    (h : (s.txns u).state ≠ TransactionState.GROWING) :
    ((s.updateTxn t f).txns u).state ≠ TransactionState.GROWING := by
  unfold updateTxn
  simp only
  split
  · exact hf _ h
  · exact h

theorem SetState_state_ne (s : LockManager) (t u : txn_id_t) (st : TransactionState)
    (hst : st ≠ TransactionState.GROWING)
    (h : (s.txns u).state ≠ TransactionState.GROWING) :
    ((s.SetState t st).txns u).state ≠ TransactionState.GROWING :=
  updateTxn_state_ne s t u _ (fun _ _ => hst) h

theorem killRequests_state_ne (sel : LockRequest → Bool) (s : LockManager) (rid : RID)
    (u : txn_id_t) (h : (s.txns u).state ≠ TransactionState.GROWING) :
    ((killRequests sel s rid).txns u).state ≠ TransactionState.GROWING := by
  unfold killRequests
  have key : ∀ (q : List LockRequest) (acc : LockManager),
      (acc.txns u).state ≠ TransactionState.GROWING →
      ((q.foldl (fun acc lr =>
          if sel lr then acc.SetState lr.txn_id TransactionState.ABORTED else acc) acc).txns u).state
        ≠ TransactionState.GROWING := by
    intro q
    induction q with
    | nil => intro acc hacc; exact hacc
    | cons lr rest ih =>
      intro acc hacc
      rw [List.foldl_cons]
      apply ih
      split
      · exact SetState_state_ne acc lr.txn_id u _ (by decide) hacc
      · exact hacc
  exact key _ _ h

theorem LockShared_state_ne (s : LockManager) (t u : txn_id_t) (rid : RID)
    (h : (s.txns u).state ≠ TransactionState.GROWING) :
    (((s.LockShared t rid).2).txns u).state ≠ TransactionState.GROWING := by
  unfold LockShared
  split
  · exact SetState_state_ne s t u _ (by decide) h
  · split
    · dsimp only
      apply updateTxn_state_ne
      · exact fun _ hx => hx
      · exact killRequests_state_ne _ s rid u h
    · exact h

theorem LockExclusive_state_ne (s : LockManager) (t u : txn_id_t) (rid : RID)
    (h : (s.txns u).state ≠ TransactionState.GROWING) :
    (((s.LockExclusive t rid).2).txns u).state ≠ TransactionState.GROWING := by
  unfold LockExclusive
  split
  · exact SetState_state_ne s t u _ (by decide) h
  · split
    · dsimp only
      apply updateTxn_state_ne
      · exact fun _ hx => hx
      · exact killRequests_state_ne _ s rid u h
    · exact h

theorem LockUpgrade_state_ne (s : LockManager) (t u : txn_id_t) (rid : RID)
    (h : (s.txns u).state ≠ TransactionState.GROWING) :
    (((s.LockUpgrade t rid).2).txns u).state ≠ TransactionState.GROWING := by
  unfold LockUpgrade
  split
  · exact SetState_state_ne s t u _ (by decide) h
  · split
    · dsimp only
      apply updateTxn_state_ne
      · exact fun _ hx => hx
      · exact killRequests_state_ne _ _ rid u h
    · exact h

theorem setQueue_state_ne (s : LockManager) (rid : RID) (q : List LockRequest) (u : txn_id_t)
    (h : (s.txns u).state ≠ TransactionState.GROWING) :
    ((s.setQueue rid q).txns u).state ≠ TransactionState.GROWING := h

theorem Unlock_state_ne (s : LockManager) (t u : txn_id_t) (rid : RID)
    (h : (s.txns u).state ≠ TransactionState.GROWING) :
    (((s.Unlock t rid).2).txns u).state ≠ TransactionState.GROWING := by
  unfold Unlock
  dsimp only
  split <;> split <;> dsimp only
  · apply updateTxn_state_ne
    · exact fun _ hx => hx
    · apply setQueue_state_ne
      apply SetState_state_ne
      · decide
      · apply updateTxn_state_ne
        · exact fun _ hx => hx
        · exact h
  · apply SetState_state_ne
    · decide
    · apply updateTxn_state_ne
      · exact fun _ hx => hx
      · exact h
  · apply updateTxn_state_ne
    · exact fun _ hx => hx
    · apply setQueue_state_ne
      apply updateTxn_state_ne
      · exact fun _ hx => hx
      · exact h
  · apply updateTxn_state_ne
    · exact fun _ hx => hx
    · exact h

theorem step_state_ne (s : LockManager) (c : Call) (u : txn_id_t)
    (h : (s.txns u).state ≠ TransactionState.GROWING) :
    (((s.step c).2).txns u).state ≠ TransactionState.GROWING := by
  cases c with
  | lockShared t rid => exact LockShared_state_ne s t u rid h
  | lockExclusive t rid => exact LockExclusive_state_ne s t u rid h
  | lockUpgrade t rid => exact LockUpgrade_state_ne s t u rid h
  | unlock t rid => exact Unlock_state_ne s t u rid h

theorem runCalls_state_ne (calls : List Call) (s : LockManager) (u : txn_id_t)
    (h : (s.txns u).state ≠ TransactionState.GROWING) :
    ((s.runCalls calls).txns u).state ≠ TransactionState.GROWING := by
  induction calls generalizing s with
  | nil => exact h
  | cons c rest ih => exact ih _ (step_state_ne s c u h)

theorem lockSetErase_not_mem (l : List RID) (rid : RID) : rid ∉ lockSetErase l rid := by
  unfold lockSetErase
  simp

theorem Unlock_growing (s : LockManager) (t : txn_id_t) (rid : RID)
    (h : (s.txns t).state = TransactionState.GROWING) :
    (s.Unlock t rid).1 = true
    ∧ (((s.Unlock t rid).2).txns t).state = TransactionState.SHRINKING
    ∧ rid ∉ (((s.Unlock t rid).2).txns t).shared_lock_set
    ∧ rid ∉ (((s.Unlock t rid).2).txns t).exclusive_lock_set := by
  unfold Unlock
  simp only [updateTxn, SetState, setQueue, h, if_true]
  split
  · simp [lockSetErase]
  · simp [lockSetErase]

theorem refused_of_not_growing (s : LockManager) (t : txn_id_t) (rid : RID)
    (h : (s.txns t).state ≠ TransactionState.GROWING) :
    s.LockShared t rid = (false, s.SetState t TransactionState.ABORTED)
    ∧ s.LockExclusive t rid = (false, s.SetState t TransactionState.ABORTED)
    ∧ s.LockUpgrade t rid = (false, s.SetState t TransactionState.ABORTED) := by
  refine ⟨?_, ?_, ?_⟩
  · unfold LockShared; rw [if_pos h]
  · unfold LockExclusive; rw [if_pos h]
  · unfold LockUpgrade; rw [if_pos h]

theorem SetState_fields (s : LockManager) (t : txn_id_t) (st : TransactionState) :
    ((s.SetState t st).txns t).state = st
    ∧ (s.SetState t st).lock_table = s.lock_table
    ∧ (∀ u, ((s.SetState t st).txns u).shared_lock_set = (s.txns u).shared_lock_set)
    ∧ (∀ u, ((s.SetState t st).txns u).exclusive_lock_set = (s.txns u).exclusive_lock_set) := by
  unfold SetState updateTxn
  refine ⟨by simp, rfl, ?_, ?_⟩
  · intro u
    simp only
    split <;> rfl
  · intro u
    simp only
    split <;> rfl

end LockManager

end bustub

namespace bustub

theorem LockManager.refusal_of_abort (s : LockManager) (t : txn_id_t) :
    s.refusal t (false, s.SetState t TransactionState.ABORTED) := by
  obtain ⟨h1, h2, h3, h4⟩ := SetState_fields s t TransactionState.ABORTED
  refine ⟨rfl, h1, h2, h3 t, h4 t, ?_⟩
  intro u hu
  show (if u = t then _ else s.txns u) = s.txns u
  rw [if_neg hu]

/-- Claim C40. Two-phase locking in the lock manager: when transaction `t` is
`GROWING`, `Unlock(t, r1)` sets its state to `SHRINKING` and removes `r1` from
both of its lock sets; after that, and after any further history `calls` of
lock manager calls by any transactions, each of `LockShared(t, r2)`,
`LockExclusive(t, r2)` and `LockUpgrade(t, r2)` returns false, sets the state of
`t` to `ABORTED`, changes no request queue and no lock set of `t`. -/
theorem LockManager.unlock_ends_growing_phase (s : LockManager) (t : txn_id_t) (r1 r2 : RID)
    (calls : List LockManager.Call) (h : (s.txns t).state = TransactionState.GROWING) :
    (((s.Unlock t r1).2).txns t).state = TransactionState.SHRINKING
    ∧ r1 ∉ (((s.Unlock t r1).2).txns t).shared_lock_set
    ∧ r1 ∉ (((s.Unlock t r1).2).txns t).exclusive_lock_set
    ∧ ((s.Unlock t r1).2.runCalls calls).refusal t
        (((s.Unlock t r1).2.runCalls calls).LockShared t r2)
    ∧ ((s.Unlock t r1).2.runCalls calls).refusal t
        (((s.Unlock t r1).2.runCalls calls).LockExclusive t r2)
    ∧ ((s.Unlock t r1).2.runCalls calls).refusal t
        (((s.Unlock t r1).2.runCalls calls).LockUpgrade t r2) := by
  obtain ⟨_, hs, h1, h2⟩ := Unlock_growing s t r1 h
  have hne : (((s.Unlock t r1).2.runCalls calls).txns t).state ≠ TransactionState.GROWING := by
    apply runCalls_state_ne
    rw [hs]
    decide
  obtain ⟨e1, e2, e3⟩ := refused_of_not_growing _ t r2 hne
  refine ⟨hs, h1, h2, ?_, ?_, ?_⟩
  · rw [e1]; exact refusal_of_abort _ t
  · rw [e2]; exact refusal_of_abort _ t
  · rw [e3]; exact refusal_of_abort _ t

/-- Witness for claim C40: in `lockScenario` transaction 1 is `GROWING` and
releases the record (0, 0); after the history `laterCalls` its lock calls on the
record (0, 2) are refused. -/
theorem LockManager.unlock_ends_growing_phase_witness :
    (lockScenario.txns 1).state = TransactionState.GROWING
    ∧ (((lockScenario.Unlock 1 { page_id := 0, slot_num := 0 }).2).txns 1).state
        = TransactionState.SHRINKING
    ∧ ({ page_id := 0, slot_num := 0 } : RID)
        ∉ (((lockScenario.Unlock 1 { page_id := 0, slot_num := 0 }).2).txns 1).shared_lock_set
    ∧ ({ page_id := 0, slot_num := 0 } : RID)
        ∉ (((lockScenario.Unlock 1 { page_id := 0, slot_num := 0 }).2).txns 1).exclusive_lock_set
    ∧ ((lockScenario.Unlock 1 { page_id := 0, slot_num := 0 }).2.runCalls laterCalls).refusal 1
        (((lockScenario.Unlock 1 { page_id := 0, slot_num := 0 }).2.runCalls laterCalls).LockShared
          1 { page_id := 0, slot_num := 2 })
    ∧ ((lockScenario.Unlock 1 { page_id := 0, slot_num := 0 }).2.runCalls laterCalls).refusal 1
        (((lockScenario.Unlock 1 { page_id := 0, slot_num := 0 }).2.runCalls
          laterCalls).LockExclusive 1 { page_id := 0, slot_num := 2 })
    ∧ ((lockScenario.Unlock 1 { page_id := 0, slot_num := 0 }).2.runCalls laterCalls).refusal 1
        (((lockScenario.Unlock 1 { page_id := 0, slot_num := 0 }).2.runCalls
          laterCalls).LockUpgrade 1 { page_id := 0, slot_num := 2 }) :=
  ⟨rfl, LockManager.unlock_ends_growing_phase lockScenario 1 { page_id := 0, slot_num := 0 }
    { page_id := 0, slot_num := 2 } laterCalls rfl⟩

end bustub

namespace bustub

set_option maxRecDepth 1000000 in
/-- The range scenario of the specification with pages that hold all keys in
the root leaf: after the inserts of 1 to 100, dereferencing `Begin(50)` and
advancing yields 50, 51, ..., 59 for the first ten positions. -/
theorem hundredKeys_scan_from_50 :
    hundredKeys.bind (fun r => (BPlusTree.BeginAt 4 r.2 50).bind
        (fun it => (BPlusTree.collect 101 r.2 it).map (fun l => l.take 10)))
      = some [50, 51, 52, 53, 54, 55, 56, 57, 58, 59] := by
  decide

end bustub

namespace bustub

/-- Claim C12 fails on the code. On a pool of one frame, after `fetch(7)`,
`unpin(7, false)`, `new_page()`, `fetch(7)`, a client write of `bytesAB` and
`unpin(7, true)`, page 9 is not resident, the free list is empty and frame 0 is
the victim of the replacer; frame 0 is dirty, holds the bytes `bytesAB` and
carries the page-id 0, which `new_page` never entered into the page table.
`fetch(9)` returns frame 0, maps page 9 to it and leaves it with page-id 9,
pin-count 1, dirty = false and the disk bytes of page 9, as claimed; but the
write-back of the dirty frame goes through the page table, finds no entry for
page 0 and writes nothing: afterwards the disk contents of page 0 (and of
page 7) are zero, the bytes `bytesAB` are lost, and page 7 is still mapped to
frame 0. -/
theorem fetch_drops_dirty_bytes_of_unmapped_frame :
    dirtyUnmapped.page_table.find 9 = none
    ∧ dirtyUnmapped.free_list = []
    ∧ dirtyUnmapped.replacer.unpinned_list = [0]
    ∧ (dirtyUnmapped.frame 0).page_id = 0
    ∧ (dirtyUnmapped.frame 0).is_dirty = true
    ∧ (dirtyUnmapped.frame 0).data = bytesAB
    ∧ dirtyUnmapped.page_table = [(7, 0)]
    ∧ (dirtyUnmapped.FetchPgImp 9).1 = some 0
    ∧ (dirtyUnmapped.FetchPgImp 9).2.page_table.find 9 = some 0
    ∧ ((dirtyUnmapped.FetchPgImp 9).2.frame 0).page_id = 9
    ∧ ((dirtyUnmapped.FetchPgImp 9).2.frame 0).pin_count = 1
    ∧ ((dirtyUnmapped.FetchPgImp 9).2.frame 0).is_dirty = false
    ∧ ((dirtyUnmapped.FetchPgImp 9).2.frame 0).data
        = (dirtyUnmapped.FetchPgImp 9).2.disk_manager.ReadPage 9
    ∧ (dirtyUnmapped.FetchPgImp 9).2.disk_manager.ReadPage 0 = [0, 0, 0, 0]
    ∧ (dirtyUnmapped.FetchPgImp 9).2.disk_manager.ReadPage 7 = [0, 0, 0, 0]
    ∧ (dirtyUnmapped.FetchPgImp 9).2.page_table.find 7 = some 0 := by
  and_intros
  all_goals decide

/-- Claim C6 fails on the code. With `leaf_max_size = 3` and
`internal_max_size = 3`, all the inserts of 1 to 10 return true. The insert of 8
splits the full internal page 3 and enters the new leaf 5 into the new internal
page 6, but leaf 5 keeps the parent page-id 3. The insert of 10 splits leaf 5
and enters the separator of the new leaf 8 `[9, 10]` into page 3, the stale
parent, so the descent for the key 9 ends in leaf 5 `[7, 8]`: the tree stores
the key 9, `GetValue(9)` does not find it, and `Insert(9, 999)` returns true
and stores a second entry with the key 9. For the key 8, which the descent
reaches, `Insert(8, 999)` returns false and changes nothing, and after the
inserts of 1 to 9 `Insert(9, 999)` is rejected as well. -/
theorem insert_accepts_stored_key :
    tenKeys.map (fun r => r.1) = some [true, true, true, true, true, true, true, true, true, true]
    ∧ nineKeys.map (fun r => (r.2.FetchPage 5).map (fun p => p.GetParentPageId))
        = some (some 3)
    ∧ nineKeys.map (fun r => (r.2.FetchPage 6).map (fun p =>
        match p with
        | BPlusTreePage.internal n => n.array
        | BPlusTreePage.leaf _ => [])) = some (some [(5, 4), (7, 5)])
    ∧ nineKeys.bind (fun r => (BPlusTree.Insert 8 r.2 9 999).map (fun s => (s.1, decide (s.2 = r.2))))
        = some (false, true)
    ∧ tenKeys.map (fun r => (r.2.FetchPage 8).map (fun p =>
        match p with
        | BPlusTreePage.leaf l => l.array
        | BPlusTreePage.internal _ => [])) = some (some [(9, 109), (10, 110)])
    ∧ tenKeys.map (fun r => (r.2.FetchPage 8).map (fun p => p.GetParentPageId)) = some (some 3)
    ∧ tenKeys.map (fun r => (r.2.FetchPage 3).map (fun p =>
        match p with
        | BPlusTreePage.internal n => (BPlusTree.children n).contains 8
        | BPlusTreePage.leaf _ => false)) = some (some true)
    ∧ tenKeys.map (fun r => (r.2.FetchPage 6).map (fun p =>
        match p with
        | BPlusTreePage.internal n => n.array
        | BPlusTreePage.leaf _ => [])) = some (some [(5, 4), (7, 5)])
    ∧ tenKeys.map (fun r => (BPlusTree.storedKeys 8 r.2 r.2.root_page_id).count 9) = some 1
    ∧ tenKeys.bind (fun r => BPlusTree.GetValue 8 r.2 9 []) = some (false, [])
    ∧ tenKeys.bind (fun r => (BPlusTree.Insert 8 r.2 9 999).map (fun s => s.1)) = some true
    ∧ tenKeys.bind (fun r => (BPlusTree.Insert 8 r.2 9 999).map
        (fun s => (BPlusTree.storedKeys 8 s.2 s.2.root_page_id).count 9)) = some 2
    ∧ tenKeys.bind (fun r => BPlusTree.GetValue 8 r.2 8 []) = some (true, [108])
    ∧ tenKeys.bind (fun r => (BPlusTree.Insert 8 r.2 8 999).map (fun s => (s.1, decide (s.2 = r.2))))
        = some (false, true) := by
  and_intros
  all_goals decide

end bustub

namespace bustub
namespace BPlusTree

theorem latchesHeld_handOverTrace (path : List page_id_t) : latchesHeld (handOverTrace path) = 0 := by
  induction path with
  | nil => rfl
  | cons p rest ih => simp only [handOverTrace, latchesHeld, ih]; omega

/-- After any number of the latch calls of a hand-over trace at most one latch
is held, and after an even number none. -/
theorem handOverTrace_prefix (path : List page_id_t) (k : Nat) :
    0 ≤ latchesHeld ((handOverTrace path).take k)
    ∧ latchesHeld ((handOverTrace path).take k) ≤ 1
    ∧ latchesHeld ((handOverTrace path).take (2 * k)) = 0 := by
  induction path generalizing k with
  | nil => simp [handOverTrace, latchesHeld]
  | cons p rest ih =>
    refine ⟨?_, ?_, ?_⟩
    · match k with
      | 0 => simp [latchesHeld]
      | 1 => simp [handOverTrace, latchesHeld]
      | j + 2 =>
        simp only [handOverTrace, List.take_succ_cons, latchesHeld]
        have := (ih j).1
        omega
    · match k with
      | 0 => simp [latchesHeld]
      | 1 => simp [handOverTrace, latchesHeld]
      | j + 2 =>
        simp only [handOverTrace, List.take_succ_cons, latchesHeld]
        have := (ih j).2.1
        omega
    · match k with
      | 0 => simp [latchesHeld]
      | j + 1 =>
        have e : 2 * (j + 1) = 2 * j + 1 + 1 := by omega
        rw [e]
        simp only [handOverTrace, List.take_succ_cons, latchesHeld]
        have := (ih j).2.2
        omega

/-- The latch calls of the loop of `GetValue` after the first `RLatch`, closed
by the final `RUnlatch`, are the hand-over trace of the pages visited. -/
theorem GetValueDescent_trace (fuel : Nat) (t : BPlusTree) (p : page_id_t) (key : KeyType)
    (leaf : BPlusTreeLeafPage) (h : FindLeafPage fuel t p key = some leaf) :
    ∃ q events, GetValueDescent fuel t p key = some (leaf, q, events)
      ∧ LatchEvent.RLatch p :: events ++ [LatchEvent.RUnlatch q]
          = handOverTrace (descentPath fuel t p key) := by
  induction fuel generalizing p with
  | zero => cases h
  | succ n ih =>
    unfold FindLeafPage at h
    unfold GetValueDescent descentPath
    cases hp : t.FetchPage p with
    | none => rw [hp] at h; cases h
    | some pg =>
      rw [hp] at h
      cases pg with
      | leaf l =>
        simp only [Option.some.injEq] at h
        subst h
        exact ⟨p, [], rfl, rfl⟩
      | internal m =>
        simp only at h
        obtain ⟨q, events, he, htr⟩ := ih (m.Lookup key) h
        refine ⟨q, LatchEvent.RUnlatch p :: LatchEvent.RLatch (m.Lookup key) :: events, ?_, ?_⟩
        · simp only [he, Option.map_some']
        · simp only [handOverTrace, ← htr, List.cons_append]

/-- Claim C36, amended. In every execution of `GetValue` on a non-empty tree
whose descent for `key` reaches a leaf within the fuel, the latch calls are
`RLatch(p0)`, `RUnlatch(p0)`, `RLatch(p1)`, `RUnlatch(p1)`, ..., `RLatch(pn)`,
`RUnlatch(pn)`, where `p0` is the root, every following page is the child that
`Lookup` selects in the page before it and `pn` is the leaf: on the way from an
internal page to its child the shared latch on the parent is released before
the shared latch on the child is acquired. After any number of these calls the
thread holds at most one latch, and after every `RUnlatch` it holds none. -/
theorem GetValue_hands_latch_over (fuel : Nat) (t : BPlusTree) (key : KeyType)
    (result : List ValueType) (leaf : BPlusTreeLeafPage) (hne : t.IsEmpty = false)
    (hleaf : FindLeafPage fuel t t.root_page_id key = some leaf) :
    (GetValueLatches fuel t key result).map (fun r => r.1) = GetValue fuel t key result
    ∧ (GetValueLatches fuel t key result).map (fun r => r.2)
        = some (handOverTrace (descentPath fuel t t.root_page_id key))
    ∧ (descentPath fuel t t.root_page_id key).head? = some t.root_page_id
    ∧ ∀ k, 0 ≤ latchesHeld ((handOverTrace (descentPath fuel t t.root_page_id key)).take k)
        ∧ latchesHeld ((handOverTrace (descentPath fuel t t.root_page_id key)).take k) ≤ 1
        ∧ latchesHeld ((handOverTrace (descentPath fuel t t.root_page_id key)).take (2 * k)) = 0 := by
  refine ⟨GetValueLatches_result fuel t key result, ?_, ?_, fun k => handOverTrace_prefix _ k⟩
  · obtain ⟨q, events, he, htr⟩ := GetValueDescent_trace fuel t t.root_page_id key leaf hleaf
    unfold GetValueLatches
    rw [if_neg (by simp [hne]), he]
    simp only
    rw [← htr]
    cases leaf.Lookup key <;> rfl
  · cases fuel with
    | zero => cases hleaf
    | succ n =>
      unfold FindLeafPage at hleaf
      unfold descentPath
      cases hp : t.FetchPage t.root_page_id with
      | none => rw [hp] at hleaf; cases hleaf
      | some pg => cases pg <;> rfl

/-- Witness for the amended claim C36: `GetValue(10)` on the tree with the root
page 3 over the leaves 1 `[10, 20]` and 2 `[30, 40]` visits the pages 3 and 1;
after two latch calls no latch is held. -/
theorem GetValue_hands_latch_over_witness :
    (afterFourInserts 3).IsEmpty = false
    ∧ FindLeafPage 6 (afterFourInserts 3) (afterFourInserts 3).root_page_id 10
        = some { page_id := 1, parent_page_id := 3, next_page_id := 2, max_size := 3,
                 array := [(10, 110), (20, 120)] }
    ∧ (GetValueLatches 6 (afterFourInserts 3) 10 []).map (fun r => r.2)
        = some (handOverTrace (descentPath 6 (afterFourInserts 3)
            (afterFourInserts 3).root_page_id 10))
    ∧ latchesHeld ((handOverTrace (descentPath 6 (afterFourInserts 3)
        (afterFourInserts 3).root_page_id 10)).take (2 * 1)) = 0 :=
  have h := GetValue_hands_latch_over 6 (afterFourInserts 3) 10 []
    { page_id := 1, parent_page_id := 3, next_page_id := 2, max_size := 3,
      array := [(10, 110), (20, 120)] } (by decide) (by decide)
  ⟨by decide, by decide, h.2.1, (h.2.2.2 1).2.2⟩

end BPlusTree
end bustub

namespace bustub
namespace BPlusTree

theorem leavesOK_fetch (t : BPlusTree) (q : page_id_t) (l : BPlusTreeLeafPage)
    (hok : t.leavesOK = true) (h : t.FetchPage q = some (BPlusTreePage.leaf l)) :
    l.page_id ≠ INVALID_PAGE_ID ∧ 0 < l.GetSize
      ∧ t.FetchPage l.page_id = some (BPlusTreePage.leaf l) := by
  unfold FetchPage at h
  cases hf : t.pages.find? (fun e => e.1 == q) with
  | none => rw [hf] at h; cases h
  | some e =>
    rw [hf] at h
    simp only [Option.map_some', Option.some.injEq] at h
    have hmem : e ∈ t.pages := List.mem_of_find?_eq_some hf
    unfold leavesOK at hok
    have he := List.all_eq_true.mp hok e hmem
    rw [h] at he
    simp only [Bool.and_eq_true, bne_iff_ne, ne_eq, decide_eq_true_eq, beq_iff_eq] at he
    exact ⟨he.1.1, he.1.2, he.2⟩

theorem collect_ne_nil (fuel : Nat) (t : BPlusTree) (it : IndexIterator) (ks : List KeyType)
    (h : collect fuel t it = some ks) (hit : it.leaf_page ≠ none) : ks ≠ [] := by
  cases fuel with
  | zero => cases h
  | succ n =>
    unfold collect at h
    have he : it.eq End = false := by
      unfold IndexIterator.eq End
      cases hlp : it.leaf_page with
      | none => exact absurd hlp hit
      | some p => rfl
    rw [he] at h
    simp only [Bool.false_eq_true, if_false] at h
    cases hd : it.deref t with
    | none => rw [hd] at h; cases h
    | some kv =>
      cases hn : it.next t with
      | none => rw [hd, hn] at h; cases h
      | some it1 =>
        rw [hd, hn] at h
        simp only at h
        cases hc : collect n t it1 with
        | none => rw [hc] at h; cases h
        | some ks1 =>
          rw [hc] at h
          simp only [Option.map_some', Option.some.injEq] at h
          rw [← h]
          exact List.cons_ne_nil _ _

/-- The loop that tests `IsEnd()` visits the keys that the loop bounded by
`End()` visits, except the last one. -/
theorem collectIsEnd_dropLast (fuel : Nat) (t : BPlusTree) (hok : t.leavesOK = true) :
    ∀ (it : IndexIterator) (ks : List KeyType),
      (it.leaf_page = none ∨ ∃ p l, it.leaf_page = some p
        ∧ t.FetchPage p = some (BPlusTreePage.leaf l) ∧ it.key_index < l.GetSize) →
      collect fuel t it = some ks → collectIsEnd fuel t it = some ks.dropLast := by
  induction fuel with
  | zero => intro it ks _ h; cases h
  | succ n ih =>
    intro it ks hv h
    rcases hv with hnone | ⟨p, l, hp, hl, hs⟩
    · unfold collect at h
      have he : it.eq End = true := by
        unfold IndexIterator.eq End
        rw [hnone]
      rw [he] at h
      simp only [if_true, Option.some.injEq] at h
      subst h
      unfold collectIsEnd IndexIterator.IsEnd
      rw [hnone]
      rfl
    · obtain ⟨hid, _, _⟩ := leavesOK_fetch t p l hok hl
      have he : it.eq End = false := by
        unfold IndexIterator.eq End
        rw [hp]
      have hd : it.deref t = some (l.GetItem it.key_index) := by
        unfold IndexIterator.deref
        rw [hp]
        simp only [hl]
      unfold collect at h
      rw [he, hd] at h
      simp only [Bool.false_eq_true, if_false] at h
      cases hn : it.next t with
      | none => rw [hn] at h; cases h
      | some it1 =>
        rw [hn] at h
        simp only at h
        cases hc : collect n t it1 with
        | none => rw [hc] at h; cases h
        | some ks1 =>
          rw [hc] at h
          simp only [Option.map_some', Option.some.injEq] at h
          subst h
          have hn0 := hn
          unfold IndexIterator.next at hn
          rw [hp] at hn
          simp only [hl] at hn
          unfold collectIsEnd
          by_cases hlast : it.key_index + 1 ≥ l.GetSize
          · rw [if_pos hlast] at hn
            by_cases hnext : l.next_page_id = INVALID_PAGE_ID
            · -- the last entry of the last leaf
              rw [if_pos hnext, Option.some.injEq] at hn
              have hks1 : ks1 = [] := by
                cases n with
                | zero => cases hc
                | succ m =>
                  unfold collect at hc
                  have : it1.eq End = true := by rw [← hn]; rfl
                  rw [this] at hc
                  simpa using hc.symm
              have hend : it.IsEnd t = some true := by
                unfold IndexIterator.IsEnd
                rw [hp]
                simp only [hl]
                rw [if_neg hid, if_pos ⟨hnext, by omega⟩]
              rw [hend, hks1]
              rfl
            · rw [if_neg hnext] at hn
              have hend : it.IsEnd t = some false := by
                unfold IndexIterator.IsEnd
                rw [hp]
                simp only [hl]
                rw [if_neg hid, if_neg (fun hh => hnext hh.1)]
              cases hl2 : t.FetchPage l.next_page_id with
              | none => rw [hl2] at hn; cases hn
              | some pg2 =>
                rw [hl2] at hn
                cases pg2 with
                | internal m => cases hn
                | leaf l2 =>
                  simp only [Option.some.injEq] at hn
                  obtain ⟨_, hsz2, hf2⟩ := leavesOK_fetch t _ l2 hok hl2
                  have hv1 : it1.leaf_page = none ∨ ∃ p l, it1.leaf_page = some p
                      ∧ t.FetchPage p = some (BPlusTreePage.leaf l) ∧ it1.key_index < l.GetSize := by
                    right
                    refine ⟨l2.page_id, l2, ?_, hf2, ?_⟩
                    · rw [← hn]
                    · rw [← hn]; exact hsz2
                  have hne : ks1 ≠ [] := collect_ne_nil n t it1 ks1 hc (by rw [← hn]; simp)
                  rw [hend, hd]
                  rw [hn0]
                  simp only
                  rw [ih it1 ks1 hv1 hc, Option.map_some', List.dropLast_cons_of_ne_nil hne]
          · rw [if_neg hlast, Option.some.injEq] at hn
            have hend : it.IsEnd t = some false := by
              unfold IndexIterator.IsEnd
              rw [hp]
              simp only [hl]
              rw [if_neg hid, if_neg (fun hh => hlast (by omega))]
            have hv1 : it1.leaf_page = none ∨ ∃ p l, it1.leaf_page = some p
                ∧ t.FetchPage p = some (BPlusTreePage.leaf l) ∧ it1.key_index < l.GetSize := by
              right
              refine ⟨p, l, ?_, hl, ?_⟩
              · rw [← hn]
              · rw [← hn]; show it.key_index + 1 < l.GetSize; omega
            have hne : ks1 ≠ [] := collect_ne_nil n t it1 ks1 hc (by rw [← hn]; simp [hp])
            rw [hend, hd]
            rw [hn0]
            simp only
            rw [ih it1 ks1 hv1 hc, Option.map_some', List.dropLast_cons_of_ne_nil hne]

end BPlusTree
end bustub

namespace bustub
namespace BPlusTree

/-- Claim C39, amended. `IsEnd()` returns true for the iterator `End()` (null
leaf), and for an iterator that points into a leaf it returns true exactly when
the page-id of the leaf is `INVALID_PAGE_ID` or the iterator is positioned on
the last entry of the last leaf (the leaf has no next leaf and
`key_index == size - 1`), an entry that can still be dereferenced. So in a tree
whose leaf pages hold at least one entry and carry their own valid page-id, the
loop `for (it = Begin(); !it.IsEnd(); ++it)` visits the keys that the loop
bounded by `it != End()` visits, except the last one. -/
theorem IsEnd_stops_before_last_entry (fuel : Nat) (t : BPlusTree) (ks : List KeyType)
    (it : IndexIterator) :
    (it.leaf_page = none → it.IsEnd t = some true)
    ∧ (∀ p l, it.leaf_page = some p → t.FetchPage p = some (BPlusTreePage.leaf l) →
        (it.IsEnd t = some true
          ↔ (l.page_id = INVALID_PAGE_ID
              ∨ (l.next_page_id = INVALID_PAGE_ID
                  ∧ (it.key_index : Int) = (l.GetSize : Int) - 1))))
    ∧ (∀ p l, it.leaf_page = some p → t.FetchPage p = some (BPlusTreePage.leaf l) →
        it.deref t = some (l.GetItem it.key_index))
    ∧ (t.leavesOK = true → keys fuel t = some ks → keysIsEnd fuel t = some ks.dropLast) := by
  refine ⟨?_, ?_, ?_, ?_⟩
  · intro h
    unfold IndexIterator.IsEnd
    rw [h]
  · intro p l hp hl
    unfold IndexIterator.IsEnd
    rw [hp]
    simp only [hl]
    by_cases hid : l.page_id = INVALID_PAGE_ID
    · rw [if_pos hid]
      exact ⟨fun _ => Or.inl hid, fun _ => rfl⟩
    · rw [if_neg hid]
      split
      · rename_i hc
        exact ⟨fun _ => Or.inr hc, fun _ => rfl⟩
      · rename_i hc
        constructor
        · intro h
          cases h
        · intro h
          rcases h with h | h
          · exact absurd h hid
          · exact absurd h hc
  · intro p l hp hl
    unfold IndexIterator.deref
    rw [hp]
    simp only [hl]
  · intro hok hks
    unfold keys at hks
    unfold keysIsEnd
    cases hb : Begin fuel t with
    | none => rw [hb] at hks; cases hks
    | some it0 =>
      rw [hb] at hks
      simp only at hks ⊢
      apply collectIsEnd_dropLast fuel t hok it0 ks _ hks
      unfold Begin at hb
      split at hb
      · simp only [Option.some.injEq] at hb
        left
        rw [← hb]
        rfl
      · cases hl : leftmostLeaf fuel t t.root_page_id with
        | none => rw [hl] at hb; cases hb
        | some leaf =>
          rw [hl] at hb
          simp only [Option.some.injEq] at hb
          right
          have hfetch : ∃ q, t.FetchPage q = some (BPlusTreePage.leaf leaf) := by
            clear hb hks
            generalize t.root_page_id = r at hl
            induction fuel generalizing r with
            | zero => cases hl
            | succ n ih =>
              unfold leftmostLeaf at hl
              cases hp : t.FetchPage r with
              | none => rw [hp] at hl; cases hl
              | some pg =>
                rw [hp] at hl
                cases pg with
                | leaf l1 =>
                  simp only [Option.some.injEq] at hl
                  exact ⟨r, by rw [hp, hl]⟩
                | internal m => exact ih _ hl
          obtain ⟨q, hq⟩ := hfetch
          obtain ⟨_, hsz, hf⟩ := leavesOK_fetch t q leaf hok hq
          refine ⟨leaf.page_id, leaf, ?_, hf, ?_⟩
          · rw [← hb]
          · rw [← hb]
            exact hsz

/-- Witness for the amended claim C39: the tree with the leaves 1 `[10, 20]` and
2 `[30, 40]`; the iterator on the last entry of leaf 2 reports `IsEnd()`, and
the loop that tests `IsEnd()` visits 10, 20, 30. -/
theorem IsEnd_stops_before_last_entry_witness :
    (afterFourInserts 3).leavesOK = true
    ∧ keys 6 (afterFourInserts 3) = some [10, 20, 30, 40]
    ∧ IndexIterator.IsEnd (afterFourInserts 3) { leaf_page := some 2, key_index := 1 } = some true
    ∧ IndexIterator.deref (afterFourInserts 3) { leaf_page := some 2, key_index := 1 }
        = some (40, 140)
    ∧ keysIsEnd 6 (afterFourInserts 3) = some [10, 20, 30] :=
  have h := IsEnd_stops_before_last_entry 6 (afterFourInserts 3) [10, 20, 30, 40]
    { leaf_page := some 2, key_index := 1 }
  ⟨by decide, by decide,
    (h.2.1 2 { page_id := 2, parent_page_id := 3, next_page_id := INVALID_PAGE_ID, max_size := 3,
               array := [(30, 130), (40, 140)] } rfl (by decide)).2 (Or.inr ⟨rfl, by decide⟩),
    h.2.2.1 2 { page_id := 2, parent_page_id := 3, next_page_id := INVALID_PAGE_ID, max_size := 3,
                array := [(30, 130), (40, 140)] } rfl (by decide),
    h.2.2.2 (by decide) (by decide)⟩

end BPlusTree
end bustub

namespace bustub

/-! ## Matrix primer -/

/-- Claim C33 fails on the code. For `RowMatrix<int>` with 8-byte pointers the
constructor of a matrix with 4 rows reserves `new int[4]`, 16 bytes, for the
table of row pointers and stores 4 pointers, 32 bytes, in it: the stores of
`data_[2]` and `data_[3]` lie outside the block, so the constructor call has no
defined result. `Multiply` of the 4 x 1 matrix `[1, 2, 3, 4]` and the 1 x 1
matrix `[2]` constructs such a matrix for its result and does not return the
product. With an element type as large as a pointer (8 bytes), or with 4-byte
pointers, the same call returns the 4 x 1 matrix `[2, 4, 6, 8]`; with 8-byte
elements the 2 x 3 by 3 x 2 product is returned and the 2 x 3 by 2 x 3 call
returns the null pointer, as claimed. -/
theorem row_pointer_table_overflows_its_block :
    RowMatrix.new 4 8 4 1 = Outcome.undefined
    ∧ RowMatrixOperations.Multiply 4 8 matrix41 matrix11 = Outcome.undefined
    ∧ RowMatrixOperations.Multiply 8 8 matrix41 matrix11
        = Outcome.returned (some
            { rows_ := 4, cols_ := 1, linear_ := [2, 4, 6, 8], data_ := [0, 1, 2, 3] })
    ∧ RowMatrixOperations.Multiply 4 4 matrix41 matrix11
        = Outcome.returned (some
            { rows_ := 4, cols_ := 1, linear_ := [2, 4, 6, 8], data_ := [0, 1, 2, 3] })
    ∧ RowMatrixOperations.Multiply 8 8 matrix23 matrix32
        = Outcome.returned (some
            { rows_ := 2, cols_ := 2, linear_ := [58, 64, 139, 154], data_ := [0, 2] })
    ∧ RowMatrixOperations.Multiply 8 8 matrix23 matrix23 = Outcome.returned none := by
  and_intros
  all_goals decide

end bustub
